import Mathlib

/-!
# go-easy-sms: the dispatch engine

A shallow embedding of `easysms.go` (registry, instance cache, `Gateway`, `Send`),
`strategy/strategy.go`, and the value objects of `message/` and `config/` they use.

Conventions of the embedding

* A Go `map[string]T` is an association list with distinct keys (`GoMap T`), read with
  `mapGet` and written with `mapSet`; the order of the list carries no meaning.
* A Go interface value that may be `nil` is an `Option`; a gateway instance carries a
  `ptr` standing for its identity (reference equality in Go).
* Everything outside the engine (the network behind a gateway, the allocator used by a
  constructor, a random source used by a strategy) is a world state `ω`, threaded through
  every call to a collaborator: constructors, gateways and strategies are functions
  `ω → result × ω`.
* Every engine operation returns a `Step`: its Go return value, the engine after the call,
  the world after the call, and the list of calls to collaborators it made (`Event`).
* The logger is left out: `New` installs a non-nil logger and its methods only write
  output. Locks are left out of the sequential operations, each of which is one call;
  concurrent callers of `Gateway` are the interleaved sections of `Racing`.
* A float64 of `[0, 1)` is a pair of naturals `m / 2 ^ t` (`UnitFloat`), and the one
  float64 product of the random strategy is computed exactly on them (`floatIndex`).
* Go memory appears only where aliasing matters, as the `Heap` of backing arrays the
  strategies read and write.
-/

/-! ## Go values -/

/-- Go `error` values that occur in the engine: `errors.New` / `fmt.Errorf` without `%w`
(`errorString`), and `*GatewayError` (easysms.go:30-34). -/
inductive GoError where
  | errorString (s : String)
  | GatewayError (GatewayName : String) (Operation : String) (Err : GoError)
  deriving DecidableEq, Repr

namespace GoError

/-- The `Error()` method: the text of an `errorString`; for `*GatewayError`
`fmt.Sprintf("gateway %s %s failed: %v", ...)` (easysms.go:36-38). -/
def Error : GoError → String
  | errorString s => s
  | GatewayError g op e => "gateway " ++ g ++ " " ++ op ++ " failed: " ++ Error e

/-- What `errors.Unwrap` returns: `nil` for an `errorString`, which has no `Unwrap`
method, and `e.Err` for `*GatewayError` (easysms.go:40-42). -/
def Unwrap : GoError → Option GoError
  | errorString _ => none
  | GatewayError _ _ e => some e

end GoError

/-- The `%v` verb of `fmt` applied to an `error` interface value: `<nil>` for the nil
interface, the `Error()` text otherwise. -/
def fmtV : Option GoError → String
  | none => "<nil>"
  | some e => e.Error

/-- Values of Go type `any` held by configurations and gateway responses; a finite
`float64` is held by its exact value. -/
inductive GoAny where
  | nil
  | bool (b : Bool)
  | int (n : Int)
  | float64 (v : ℚ)
  | string (s : String)
  | strings (l : List String)
  | mapStringString (m : List (String × String))
  deriving DecidableEq, Repr

/-- A Go `map[string]β`. -/
abbrev GoMap (β : Type) := List (String × β)

/-- Map read `m[k]` in its comma-ok form. -/
def mapGet {β : Type} : GoMap β → String → Option β
  | [], _ => none
  | (k', v) :: m, k => if k' = k then some v else mapGet m k

/-- Map write `m[k] = v`: overwrites the entry of `k`, or adds one. -/
def mapSet {β : Type} : GoMap β → String → β → GoMap β
  | [], k, v => [(k, v)]
  | (k', v') :: m, k, v => if k' = k then (k, v) :: m else (k', v') :: mapSet m k v

/-- The keys of a map. -/
def mapKeys {β : Type} (m : GoMap β) : List String := m.map Prod.fst

/-! ## message -/

namespace message

/-- The struct `PhoneNumber` (message/phone.go:8-11). -/
structure PhoneNumber where
  Number : String
  IDDCode : Int
  deriving DecidableEq, Repr

/-- The struct `Message` (message/message.go:14-29); `Typ` is the field `Type`. -/
structure Message where
  Typ : String
  Content : String
  Template : String
  Data : GoMap GoAny
  Gateways : List String
  deriving DecidableEq, Repr

/-- `NewMessage` (message/message.go:32-38). -/
def NewMessage : Message :=
  { Typ := "text", Content := "", Template := "", Data := [], Gateways := [] }

/-- `NewPhoneNumber` with no dialing code (message/phone.go:14-23). -/
def NewPhoneNumber (number : String) : PhoneNumber :=
  { Number := number, IDDCode := 0 }

/-- `GetGateways` (message/message.go:78-80). -/
def Message.GetGateways (m : Message) : List String := m.Gateways

/-- `SetGateways` (message/message.go:72-75). -/
def Message.SetGateways (m : Message) (gateways : List String) : Message :=
  { m with Gateways := gateways }

end message

/-! ## strategy -/

namespace strategy

/-- The interface `Strategy` (strategy/strategy.go:8-11): `Apply` may consult and change
the world (a random source). -/
structure Strategy (ω : Type) where
  Apply : List String → ω → List String × ω

/-- `OrderStrategy.Apply` (strategy/strategy.go:22-25): the input, unchanged. -/
def OrderStrategy.Apply (gateways : List String) : List String := gateways

/-- `NewOrderStrategy` (strategy/strategy.go:17-19), as a `Strategy` value. -/
def NewOrderStrategy {ω : Type} : Strategy ω :=
  { Apply := fun gateways w => (OrderStrategy.Apply gateways, w) }

end strategy

/-! ## gateway -/

namespace gateway

/-- A non-nil value of the interface `Gateway` (gateway/gateway.go:13-19): `ptr` is the
identity of the instance; `SendPanics` tells whether the call of `Send` panics instead of
returning, as a provider may (gateway/yunxin.go:46 asserts that a data entry is a string);
`Send` gives the Go pair `(any, error)` of a call that returns. -/
structure Gateway (ω : Type) where
  ptr : Nat
  GetName : String
  Send : message.PhoneNumber → message.Message → ω → (GoAny × Option GoError) × ω
  SendPanics : message.PhoneNumber → message.Message → ω → Bool

end gateway

/-! ## config -/

namespace config

/-- The struct `Config` (config/config.go:8-20), without the float `Timeout`, which the
engine never reads. -/
structure Config (ω : Type) where
  Strategy : Option (strategy.Strategy ω)
  DefaultGateways : List String
  GatewayConfigs : GoMap (GoMap GoAny)

/-- `NewConfig` (config/config.go:23-29). -/
def NewConfig {ω : Type} : Config ω :=
  { Strategy := none, DefaultGateways := [], GatewayConfigs := [] }

end config

/-! ## easysms -/

namespace easysms

/-- Status constant (easysms.go:17). -/
def StatusSuccess : String := "success"

/-- Status constant (easysms.go:18). -/
def StatusFailure : String := "failure"

/-- The struct `Result` (easysms.go:22-27). -/
structure Result where
  Gateway : String
  Status : String
  Data : GoAny
  Error : Option GoError
  deriving DecidableEq, Repr

/-- The function type `NewGatewayCreator` (easysms.go:45): returns the Go pair
`(gateway.Gateway, error)`, either of which may be nil. -/
abbrev NewGatewayCreator (ω : Type) :=
  GoMap GoAny → ω → (Option (gateway.Gateway ω) × Option GoError) × ω

/-- The struct `GatewayRegistry` (easysms.go:48-51). -/
structure GatewayRegistry (ω : Type) where
  creators : GoMap (NewGatewayCreator ω)

/-- The struct `EasySms` (easysms.go:92-99). -/
structure EasySms (ω : Type) where
  config : config.Config ω
  gateways : GoMap (Option (gateway.Gateway ω))
  strategy : strategy.Strategy ω
  registry : GatewayRegistry ω

/-- A call from the engine to a collaborator, or the return of a resolution inside `Send`.
* `apply gs`: the strategy's `Apply` was invoked with `gs`;
* `create name cfg gw err`: the constructor registered under `name` was invoked with
  `cfg` and returned the instance with identity `gw` and the error `err`;
* `resolve name gw err`: inside `Send`, `e.Gateway(name)` returned `(gw, err)`;
* `send name ptr resp err`: inside `Send`, the `Send` of the instance `ptr` resolved for
  `name` was invoked and returned `(resp, err)`. -/
inductive Event where
  | apply (gateways : List String)
  | create (name : String) (cfg : GoMap GoAny) (gw : Option Nat) (err : Option GoError)
  | resolve (name : String) (gw : Option Nat) (err : Option GoError)
  | send (name : String) (ptr : Nat) (resp : GoAny) (err : Option GoError)
  deriving DecidableEq, Repr

/-- How a Go call ends: it returns a value, or it panics (nil dereference). -/
inductive Outcome (α : Type) where
  | returned (a : α)
  | panicked
  deriving DecidableEq, Repr

/-- What a call leaves behind: its return value, the engine and the world after it, and
the calls to collaborators it made, in order. -/
structure Step (ω : Type) (α : Type) where
  ret : α
  sms : EasySms ω
  world : ω
  events : List Event

/-- The step `r` with the events `evs` put before its own: `r` ran after `evs` happened. -/
def Step.after {ω α : Type} (evs : List Event) (r : Step ω α) : Step ω α :=
  { r with events := evs ++ r.events }

/-- `NewGatewayRegistry` (easysms.go:54-58). -/
def NewGatewayRegistry {ω : Type} : GatewayRegistry ω := { creators := [] }

/-- `GatewayRegistry.Register` (easysms.go:61-65). -/
def GatewayRegistry.Register {ω : Type} (r : GatewayRegistry ω) (name : String)
    (creator : NewGatewayCreator ω) : GatewayRegistry ω :=
  { creators := mapSet r.creators name creator }

/-- `GatewayRegistry.HasCreator` (easysms.go:84-89). -/
def GatewayRegistry.HasCreator {ω : Type} (r : GatewayRegistry ω) (name : String) : Bool :=
  (mapGet r.creators name).isSome

/-- `GatewayRegistry.Create` (easysms.go:68-81): the pair returned by the constructor,
the world after the call, and the `create` event; or the `creator not found` error. -/
def GatewayRegistry.Create {ω : Type} (r : GatewayRegistry ω) (name : String)
    (cfg : GoMap GoAny) (w : ω) :
    (Option (gateway.Gateway ω) × Option GoError) × ω × List Event :=
  match mapGet r.creators name with
  | some creator =>
    let out := creator cfg w
    (out.1, out.2, [Event.create name cfg (out.1.1.map (·.ptr)) out.1.2])
  | none =>
    ((none, some (GoError.GatewayError name "creation" (GoError.errorString "creator not found"))),
      w, [])

/-- `EasySms.RegisterGateway` (easysms.go:135-140). -/
def EasySms.RegisterGateway {ω : Type} (e : EasySms ω) (name : String)
    (gw : Option (gateway.Gateway ω)) : EasySms ω :=
  { e with gateways := mapSet e.gateways name gw }

/-- `EasySms.RegisterGatewayCreator` (easysms.go:143-146). -/
def EasySms.RegisterGatewayCreator {ω : Type} (e : EasySms ω) (name : String)
    (creator : NewGatewayCreator ω) : EasySms ω :=
  { e with registry := e.registry.Register name creator }

/-- `EasySms.Gateway` (easysms.go:149-186). -/
def EasySms.Gateway {ω : Type} (e : EasySms ω) (name : String) (w : ω) :
    Step ω (Option (gateway.Gateway ω) × Option GoError) :=
  match mapGet e.gateways name with
  | some gw => { ret := (gw, none), sms := e, world := w, events := [] }
  | none =>
    match mapGet e.config.GatewayConfigs name with
    | none =>
      { ret := (none, some (GoError.GatewayError name "lookup"
                  (GoError.errorString "config not found"))),
        sms := e, world := w, events := [] }
    | some cfg =>
      if e.registry.HasCreator name then
        let c := e.registry.Create name cfg w
        match c.1.2 with
        | some err => { ret := (none, some err), sms := e, world := c.2.1, events := c.2.2 }
        | none =>
          { ret := (c.1.1, none), sms := e.RegisterGateway name c.1.1,
            world := c.2.1, events := c.2.2 }
      else
        { ret := (none, some (GoError.GatewayError name "lookup"
                    (GoError.errorString "gateway not found"))),
          sms := e, world := w, events := [] }

/-- The local variables of the loop of `Send` (easysms.go:205-207). -/
structure SendVars where
  results : GoMap Result
  lastErr : Option GoError
  success : Bool
  deriving DecidableEq, Repr

/-- The loop of `Send` (easysms.go:210-248) over the ordered names still to try. The
call `gateway.Send(to, msg)` (easysms.go:227) panics on a nil instance, and when the
instance's own `Send` panics. -/
def sendLoop {ω : Type} (to_ : message.PhoneNumber) (msg : message.Message) :
    List String → EasySms ω → ω → SendVars → Step ω (Outcome SendVars)
  | [], e, w, v => { ret := Outcome.returned v, sms := e, world := w, events := [] }
  | gatewayName :: rest, e, w, v =>
    let g := e.Gateway gatewayName w
    let evs := g.events ++ [Event.resolve gatewayName (g.ret.1.map (·.ptr)) g.ret.2]
    match g.ret.2 with
    | some err =>
      (sendLoop to_ msg rest g.sms g.world
        { v with
          results := mapSet v.results gatewayName
            { Gateway := gatewayName, Status := StatusFailure, Data := GoAny.nil,
              Error := some err },
          lastErr := some err }).after evs
    | none =>
      match g.ret.1 with
      | none => { ret := Outcome.panicked, sms := g.sms, world := g.world, events := evs }
      | some gw =>
        if gw.SendPanics to_ msg g.world then
          { ret := Outcome.panicked, sms := g.sms, world := g.world, events := evs }
        else
          let s := gw.Send to_ msg g.world
          let evs := evs ++ [Event.send gatewayName gw.ptr s.1.1 s.1.2]
          match s.1.2 with
          | some err =>
            (sendLoop to_ msg rest g.sms s.2
              { v with
                results := mapSet v.results gatewayName
                  { Gateway := gatewayName, Status := StatusFailure, Data := GoAny.nil,
                    Error := some err },
                lastErr := some err }).after evs
          | none =>
            { ret := Outcome.returned
                { v with
                  results := mapSet v.results gatewayName
                    { Gateway := gatewayName, Status := StatusSuccess, Data := s.1.1,
                      Error := none },
                  success := true },
              sms := g.sms, world := s.2, events := evs }

/-- The candidate list of `Send` (easysms.go:191-194): the message's gateways, or the
configured defaults when the message names none. -/
def candidates {ω : Type} (e : EasySms ω) (msg : message.Message) : List String :=
  if msg.GetGateways.length = 0 then e.config.DefaultGateways else msg.GetGateways

/-- `EasySms.Send` (easysms.go:189-256): the Go pair `(map[string]Result, error)`, where
the nil map is `none`. -/
def EasySms.Send {ω : Type} (e : EasySms ω) (to_ : message.PhoneNumber)
    (msg : message.Message) (w : ω) :
    Step ω (Outcome (Option (GoMap Result) × Option GoError)) :=
  let gateways := candidates e msg
  if gateways.length = 0 then
    { ret := Outcome.returned (none, some (GoError.errorString "no gateway available")),
      sms := e, world := w, events := [] }
  else
    let o := e.strategy.Apply gateways w
    let r := sendLoop to_ msg o.1 e o.2 { results := [], lastErr := none, success := false }
    match r.ret with
    | Outcome.panicked =>
      { ret := Outcome.panicked, sms := r.sms, world := r.world,
        events := Event.apply gateways :: r.events }
    | Outcome.returned v =>
      if !v.success then
        { ret := Outcome.returned
            (some v.results,
              some (GoError.errorString ("all gateways failed: " ++ fmtV v.lastErr))),
          sms := r.sms, world := r.world, events := Event.apply gateways :: r.events }
      else
        { ret := Outcome.returned (some v.results, none),
          sms := r.sms, world := r.world, events := Event.apply gateways :: r.events }

/-! ### One iteration of the loop, and what a list of events tells -/

/-- How one iteration of the loop of `Send` ends: the gateway failed with `err` (the loop
continues), its `Send` succeeded with `resp` (the loop breaks), or the call panicked. -/
inductive Attempt where
  | failed (err : GoError)
  | succeeded (resp : GoAny)
  | panicked
  deriving DecidableEq, Repr

/-- One iteration of the loop of `Send` for `gatewayName` (easysms.go:211-247), started
from engine `e` and world `w`: resolve the gateway, then invoke its `Send`. -/
def attempt {ω : Type} (to_ : message.PhoneNumber) (msg : message.Message)
    (gatewayName : String) (e : EasySms ω) (w : ω) : Step ω Attempt :=
  let g := e.Gateway gatewayName w
  let evs := g.events ++ [Event.resolve gatewayName (g.ret.1.map (·.ptr)) g.ret.2]
  match g.ret.2 with
  | some err => { ret := Attempt.failed err, sms := g.sms, world := g.world, events := evs }
  | none =>
    match g.ret.1 with
    | none => { ret := Attempt.panicked, sms := g.sms, world := g.world, events := evs }
    | some gw =>
      if gw.SendPanics to_ msg g.world then
        { ret := Attempt.panicked, sms := g.sms, world := g.world, events := evs }
      else
        let s := gw.Send to_ msg g.world
        let evs := evs ++ [Event.send gatewayName gw.ptr s.1.1 s.1.2]
        match s.1.2 with
        | some err => { ret := Attempt.failed err, sms := g.sms, world := s.2, events := evs }
        | none => { ret := Attempt.succeeded s.1.1, sms := g.sms, world := s.2, events := evs }

/-- The entry the loop writes for a failed gateway (easysms.go:216-220, 230-234). -/
def failureResult (gatewayName : String) (err : GoError) : Result :=
  { Gateway := gatewayName, Status := StatusFailure, Data := GoAny.nil, Error := some err }

/-- The entry the loop writes for the gateway that succeeded (easysms.go:241-245). -/
def successResult (gatewayName : String) (resp : GoAny) : Result :=
  { Gateway := gatewayName, Status := StatusSuccess, Data := resp, Error := none }

/-- The gateway name an event is about, if any. -/
def Event.gatewayName : Event → Option String
  | Event.apply _ => none
  | Event.create name _ _ _ => some name
  | Event.resolve name _ _ => some name
  | Event.send name _ _ _ => some name

/-- Whether the event is a gateway `Send` that returned a nil error. -/
def Event.isSendOk : Event → Bool
  | Event.send _ _ _ none => true
  | _ => false

/-- The names resolved inside `Send`, in order: one per iteration of the loop entered. -/
def attempted : List Event → List String
  | [] => []
  | Event.resolve name _ _ :: evs => name :: attempted evs
  | _ :: evs => attempted evs

/-! ### Sample gateways and engines, used to run the engine on concrete inputs

The world of the samples is a counter: a constructor takes its value as the identity of
the instance it builds and increments it. -/

/-- A gateway whose `Send` always returns the error `text`. -/
def failingGateway (p : Nat) (text : String) : gateway.Gateway Nat :=
  { ptr := p, GetName := "mock",
    Send := fun _ _ w => ((GoAny.nil, some (GoError.errorString text)), w),
    SendPanics := fun _ _ _ => false }

/-- A gateway whose `Send` always returns `resp` and a nil error. -/
def workingGateway (p : Nat) (resp : GoAny) : gateway.Gateway Nat :=
  { ptr := p, GetName := "mock", Send := fun _ _ w => ((resp, none), w),
    SendPanics := fun _ _ _ => false }

/-- A constructor that builds a working gateway answering `resp`. -/
def workingCreator (resp : GoAny) : NewGatewayCreator Nat :=
  fun _ w => ((some (workingGateway w resp), none), w + 1)

/-- A constructor that always fails with `text`. -/
def failingCreator (text : String) : NewGatewayCreator Nat :=
  fun _ w => ((none, some (GoError.errorString text)), w)

/-- Defaults `a, b, c` under the order strategy: `a` has no configuration, `b` is a
cached gateway that fails with `boom`, `c` is configured and has a constructor of a
working gateway. -/
def fallbackEngine : EasySms Nat :=
  { config :=
      { Strategy := none, DefaultGateways := ["a", "b", "c"],
        GatewayConfigs := [("c", [("key", GoAny.string "value")])] },
    gateways := [("b", some (failingGateway 7 "boom"))],
    strategy := strategy.NewOrderStrategy,
    registry := { creators := [("c", workingCreator (GoAny.string "sent"))] } }

/-- Defaults `a, b` under the order strategy, both cached and failing, with the errors
`first boom` and `second boom`. -/
def allFailEngine : EasySms Nat :=
  { config := { Strategy := none, DefaultGateways := ["a", "b"], GatewayConfigs := [] },
    gateways := [("a", some (failingGateway 1 "first boom")),
                 ("b", some (failingGateway 2 "second boom"))],
    strategy := strategy.NewOrderStrategy,
    registry := NewGatewayRegistry }

/-- The scenario of the specification: defaults `first, second`, `first` registered to
always fail with `boom`, `second` registered to always succeed returning `{"id":"42"}`. -/
def scenarioEngine : EasySms Nat :=
  (EasySms.RegisterGateway
    (EasySms.RegisterGateway
      { config :=
          { Strategy := none, DefaultGateways := ["first", "second"], GatewayConfigs := [] },
        gateways := [], strategy := strategy.NewOrderStrategy, registry := NewGatewayRegistry }
      "first" (some (failingGateway 1 "boom")))
    "second" (some (workingGateway 2 (GoAny.mapStringString [("id", "42")]))))

/-- No defaults, and a working gateway cached under `a`. -/
def noDefaultsEngine : EasySms Nat :=
  { config := config.NewConfig,
    gateways := [("a", some (workingGateway 1 (GoAny.string "sent")))],
    strategy := strategy.NewOrderStrategy,
    registry := { creators := [("a", workingCreator (GoAny.string "sent"))] } }

/-- Nothing cached; `configured` has a configuration and no constructor, `orphan` has a
constructor and no configuration. -/
def lookupEngine : EasySms Nat :=
  { config :=
      { Strategy := none, DefaultGateways := [],
        GatewayConfigs := [("configured", [("key", GoAny.string "value")])] },
    gateways := [],
    strategy := strategy.NewOrderStrategy,
    registry := { creators := [("orphan", workingCreator (GoAny.string "sent"))] } }

/-- A message that names the gateways `c, b`. -/
def pickyMessage : message.Message := message.NewMessage.SetGateways ["c", "b"]

/-- The recipient of the samples. -/
def samplePhone : message.PhoneNumber := message.NewPhoneNumber "13800138000"

/-- The lists handed to the strategy, in order: one per invocation of `Apply`. -/
def applied : List Event → List (List String)
  | [] => []
  | Event.apply gateways :: evs => gateways :: applied evs
  | _ :: evs => applied evs

/-- The events `evs` show a failure of `name` with the error `err`: its resolution
returned `err`, or the `Send` of its instance did. -/
def FailureSeen (evs : List Event) (name : String) (err : GoError) : Prop :=
  (∃ gw, Event.resolve name gw (some err) ∈ evs) ∨
    (∃ p resp, Event.send name p resp (some err) ∈ evs)

/-- The loop went through the names `pre`, all of which failed, taking the variables
from `v` to `v'` and making the calls `evs`. -/
def FailedRun (pre : List String) (v v' : SendVars) (evs : List Event) : Prop :=
  attempted evs = pre ∧
  (∀ ev ∈ evs, ev.isSendOk = false) ∧
  (∀ ev ∈ evs, ∃ m ∈ pre, ev.gatewayName = some m) ∧
  v'.success = v.success ∧
  (∀ k, k ∈ mapKeys v'.results ↔ k ∈ mapKeys v.results ∨ k ∈ pre) ∧
  (∀ k r, mapGet v'.results k = some r →
    r.Gateway = k ∧ r.Status = StatusFailure ∧ r.Data = GoAny.nil ∧
      (∃ err, r.Error = some err ∧ FailureSeen evs k err) ∨
    mapGet v.results k = some r) ∧
  (pre = [] → v' = v ∧ evs = [])

/-- The engines `e` and `e'` hold the same for `name`: same configuration, same registry,
same cache entry of `name`. -/
def SameFor {ω : Type} (name : String) (e e' : EasySms ω) : Prop :=
  e'.config = e.config ∧ e'.registry = e.registry ∧
    mapGet e'.gateways name = mapGet e.gateways name


/-! ### Sequences of calls, and more samples -/

/-- `n` calls of `Create(name, cfg)` in a row on the registry `r`: the world after the
last one and the events of all of them. -/
def createTimes {ω : Type} (r : GatewayRegistry ω) (name : String) (cfg : GoMap GoAny) :
    Nat → ω → ω × List Event
  | 0, w => (w, [])
  | n + 1, w =>
    let c := r.Create name cfg w
    let rest := createTimes r name cfg n c.2.1
    (rest.1, c.2.2 ++ rest.2)

/-- Nothing cached; `failing_creator` and `custom` are configured, the constructor of the
first always fails with `creation failed`, the constructor of the second builds a working
gateway. -/
def creationEngine : EasySms Nat :=
  EasySms.RegisterGatewayCreator
    (EasySms.RegisterGatewayCreator
      { config :=
          { Strategy := none, DefaultGateways := ["custom"],
            GatewayConfigs := [("failing_creator", [("key", GoAny.string "value")]),
                               ("custom", [("key", GoAny.string "value")])] },
        gateways := [], strategy := strategy.NewOrderStrategy, registry := NewGatewayRegistry }
      "failing_creator" (failingCreator "creation failed"))
    "custom" (workingCreator (GoAny.string "sent"))


/-- A call of one of the operations of the engine's administrative surface. -/
inductive Call (ω : Type) where
  | RegisterGateway (name : String) (gw : Option (gateway.Gateway ω))
  | RegisterGatewayCreator (name : String) (creator : NewGatewayCreator ω)
  | Gateway (name : String)
  | Send (to_ : message.PhoneNumber) (msg : message.Message)

/-- Whether the call is a `Gateway` or a `Send`. -/
def Call.isGatewayOrSend {ω : Type} : Call ω → Bool
  | Call.Gateway _ => true
  | Call.Send _ _ => true
  | _ => false

/-- The call made on engine `e` in world `w`; what it returns is dropped, and a panic of
`Send` is taken as recovered by the caller. -/
def Call.run {ω : Type} : Call ω → EasySms ω → ω → Step ω Unit
  | Call.RegisterGateway name gw, e, w =>
    { ret := (), sms := e.RegisterGateway name gw, world := w, events := [] }
  | Call.RegisterGatewayCreator name creator, e, w =>
    { ret := (), sms := e.RegisterGatewayCreator name creator, world := w, events := [] }
  | Call.Gateway name, e, w =>
    { ret := (), sms := (e.Gateway name w).sms, world := (e.Gateway name w).world,
      events := (e.Gateway name w).events }
  | Call.Send to_ msg, e, w =>
    { ret := (), sms := (e.Send to_ msg w).sms, world := (e.Send to_ msg w).world,
      events := (e.Send to_ msg w).events }

/-- The calls made one after the other. -/
def runCalls {ω : Type} : List (Call ω) → EasySms ω → ω → Step ω Unit
  | [], e, w => { ret := (), sms := e, world := w, events := [] }
  | c :: cs, e, w =>
    (runCalls cs (c.run e w).sms (c.run e w).world).after (c.run e w).events

/-- Whether the event is an invocation of the constructor registered under `name`. -/
def Event.isCreateOf (name : String) : Event → Bool
  | Event.create n _ _ _ => n = name
  | _ => false


end easysms

/-! ## strategy: the random strategy -/

namespace strategy

/-- An outcome of `rand.Float64()`: the float64 of value `m / 2 ^ t`. -/
structure UnitFloat where
  m : Nat
  t : Nat
  deriving DecidableEq, Repr

/-- The float64 values of `[0, 1)`: a significand `m` of at most 53 bits, and
`m / 2 ^ t < 1`. -/
def UnitFloat.valid (f : UnitFloat) : Prop := f.m < 2 ^ 53 ∧ f.m < 2 ^ f.t

/-- The number of low bits that `p` has beyond 53 significant bits, for `p < 2 ^ (53 + fuel)`. -/
def excessBits : Nat → Nat → Nat
  | 0, _ => 0
  | fuel + 1, p => if p < 2 ^ 53 then 0 else excessBits fuel (p / 2) + 1

/-- The float64 rounding of a significand product `p < 2 ^ 106`: the nearest number with
at most 53 significant bits, a tie going to the even significand. -/
def round53 (p : Nat) : Nat :=
  let s := excessBits 53 p
  let q := p / 2 ^ s
  let r := p % 2 ^ s
  if 2 ^ s < 2 * r ∨ (2 * r = 2 ^ s ∧ q % 2 = 1) then (q + 1) * 2 ^ s else q * 2 ^ s

/-- The Go expression `int(float64(n) * f)` for `n < 2 ^ 53` (strategy.go:43 with
`n = i+1`): the exact product `n * m / 2 ^ t` rounded to float64, then truncated. -/
def floatIndex (n : Nat) (f : UnitFloat) : Nat := round53 (n * f.m) / 2 ^ f.t

/-- The Go statement `result[i], result[j] = result[j], result[i]` with both indices in
range (strategy.go:44). -/
def swap (result : List String) (i j : Nat) : List String :=
  (result.set i (result.getD j "")).set j (result.getD i "")

/-- The loop of `RandomStrategy.Apply` (strategy.go:42-45) from the counter value given
downwards, on the slice `result`; `Float64` is `rand.Float64` on the world. An index out
of range panics. -/
def shuffleLoop {ω : Type} (Float64 : ω → UnitFloat × ω) :
    Nat → List String → ω → easysms.Outcome (List String) × ω
  | 0, result, w => (easysms.Outcome.returned result, w)
  | i + 1, result, w =>
    let j := floatIndex (i + 1 + 1) (Float64 w).1
    if i + 1 < result.length ∧ j < result.length then
      shuffleLoop Float64 i (swap result (i + 1) j) (Float64 w).2
    else (easysms.Outcome.panicked, (Float64 w).2)

/-- `RandomStrategy.Apply` (strategy.go:36-48): the loop runs on a copy of `gateways`,
from the counter `len(result) - 1`. -/
def RandomStrategy.Apply {ω : Type} (Float64 : ω → UnitFloat × ω) (gateways : List String)
    (w : ω) : easysms.Outcome (List String) × ω :=
  shuffleLoop Float64 (gateways.length - 1) gateways w

/-- A sample random source on a counter: the float64 of significand
`(w * 2 ^ 51 + 12345) mod 2 ^ 53` over `2 ^ 53`. -/
def sampleFloat64 (w : Nat) : UnitFloat × Nat :=
  ({ m := (w * 2 ^ 51 + 12345) % 2 ^ 53, t := 53 }, w + 1)

end strategy

namespace easysms


end easysms

namespace strategy

/-- Go memory as far as string slices go: the backing array at address `a` is the
`a`-th list. A slice is given by the address of its array, which it covers. -/
abbrev Heap := List (List String)

/-- `OrderStrategy.Apply` on memory (strategy.go:22-25): the slice handed in is the
slice returned, and nothing is written. -/
def OrderStrategy.ApplyAt (h : Heap) (gateways : Nat) : Nat × Heap := (gateways, h)

/-- `RandomStrategy.Apply` on memory (strategy.go:36-48): `make` takes the first free
address for `result`, `copy` fills it with the content of `gateways`, and the loop
writes to `result` only. A panic ends the call without a memory to return to. -/
def RandomStrategy.ApplyAt {ω : Type} (Float64 : ω → UnitFloat × ω) (h : Heap)
    (gateways : Nat) (w : ω) : easysms.Outcome (Nat × Heap) × ω :=
  let result := h.length
  let copied := h.getD gateways []
  match (shuffleLoop Float64 (copied.length - 1) copied w).1 with
  | easysms.Outcome.returned shuffled =>
    (easysms.Outcome.returned (result, h ++ [shuffled]),
      (shuffleLoop Float64 (copied.length - 1) copied w).2)
  | easysms.Outcome.panicked =>
    (easysms.Outcome.panicked, (shuffleLoop Float64 (copied.length - 1) copied w).2)

end strategy

namespace easysms


/-! ### `New` and the built-in providers -/

/-- What the provider adapters of `gateway/` rest on, outside the engine: `alloc` gives
the address of a freshly allocated adapter; `SendPanics name cfg` tells whether the `Send`
of the adapter of provider `name` built on the configuration `cfg` panics (yunxin.go:46
and volcengine.go:107-139 assert the type of message data entries), and `Send name cfg`
is what it returns otherwise (its requests to the vendor go through the world). -/
structure Builtins (ω : Type) where
  alloc : ω → Nat × ω
  Send : String → GoMap GoAny → message.PhoneNumber → message.Message → ω →
    (GoAny × Option GoError) × ω
  SendPanics : String → GoMap GoAny → message.PhoneNumber → message.Message → ω → Bool

/-- The keys of `builtinCreators` (easysms.go:261-614). -/
def builtinNames : List String :=
  ["aliyun", "yunpian", "errorlog", "qcloud", "chuanglan", "ucloud", "baidu", "ctyun",
   "huaxin", "submail", "smsbao", "aliyun_intl", "aliyunrest", "chuanglanv1", "huyi",
   "juhe", "kingtto", "luosimao", "maap", "moduyun", "nowcn", "qiniu", "rongcloud",
   "rongheyun", "sendcloud", "twilio", "yuntongxun", "volcengine", "ue35", "yunxin",
   "yunzhixun", "yidongmasblack"]

/-- The constructors `gateway.NewAliyunGateway`, `gateway.NewYunpianGateway`, ... of the
providers (e.g. gateway/errorlog.go:20-24): a pointer to a fresh adapter whose base
gateway carries the provider's name; the pointer is never nil. -/
def newProviderGateway {ω : Type} (B : Builtins ω) (name : String) (cfg : GoMap GoAny)
    (w : ω) : Option (gateway.Gateway ω) × ω :=
  (some { ptr := (B.alloc w).1, GetName := name, Send := B.Send name cfg,
          SendPanics := B.SendPanics name cfg }, (B.alloc w).2)

/-- The closure stored under `name` in `builtinCreators` (e.g. easysms.go:262-272). -/
def builtinCreator {ω : Type} (B : Builtins ω) (name : String) : NewGatewayCreator ω :=
  fun cfg w =>
    match (newProviderGateway B name cfg w).1 with
    | none =>
      ((none, some (GoError.GatewayError name "creation"
          (GoError.errorString ("failed to create " ++ name ++ " gateway")))),
        (newProviderGateway B name cfg w).2)
    | some gw => ((some gw, none), (newProviderGateway B name cfg w).2)

/-- The loop of `registerBuiltinGatewayCreators` (easysms.go:617-619) over the names
still to register. -/
def registerBuiltinLoop {ω : Type} (B : Builtins ω) : List String → EasySms ω → EasySms ω
  | [], e => e
  | name :: rest, e =>
    registerBuiltinLoop B rest
      { e with registry := e.registry.Register name (builtinCreator B name) }

/-- `registerBuiltinGatewayCreators` (easysms.go:259-620). -/
def EasySms.registerBuiltinGatewayCreators {ω : Type} (B : Builtins ω) (e : EasySms ω) :
    EasySms ω :=
  registerBuiltinLoop B builtinNames e

/-- The loop of `autoRegisterGateways` (easysms.go:624-634) over the configuration
entries still to visit, in the order of the list. -/
def autoRegisterLoop {ω : Type} : GoMap (GoMap GoAny) → EasySms ω → ω → Step ω Unit
  | [], e, w => { ret := (), sms := e, world := w, events := [] }
  | (name, cfg) :: rest, e, w =>
    if e.registry.HasCreator name then
      let c := e.registry.Create name cfg w
      match c.1.2 with
      | some _ => (autoRegisterLoop rest e c.2.1).after c.2.2
      | none => (autoRegisterLoop rest (e.RegisterGateway name c.1.1) c.2.1).after c.2.2
    else autoRegisterLoop rest e w

/-- `autoRegisterGateways` (easysms.go:623-635). -/
def EasySms.autoRegisterGateways {ω : Type} (e : EasySms ω) (w : ω) : Step ω Unit :=
  autoRegisterLoop e.config.GatewayConfigs e w

/-- `New` (easysms.go:102-127); `cfg = none` is the nil configuration, and the engine
built is the `sms` of the step. -/
def New {ω : Type} (B : Builtins ω) (cfg : Option (config.Config ω)) (w : ω) : Step ω Unit :=
  let cfg1 := match cfg with
    | none => config.NewConfig
    | some c => c
  let cfg2 := match cfg1.Strategy with
    | none => { cfg1 with Strategy := some strategy.NewOrderStrategy }
    | some _ => cfg1
  let sms : EasySms ω :=
    { config := cfg2,
      gateways := [],
      strategy := match cfg2.Strategy with
        | some s => s
        | none => strategy.NewOrderStrategy,
      registry := NewGatewayRegistry }
  (sms.registerBuiltinGatewayCreators B).autoRegisterGateways w

/-- Whether the type assertion `v.(string)` on a map entry that is present panics. -/
def assertStringPanics : Option GoAny → Bool
  | some (GoAny.string _) => false
  | some _ => true
  | none => false

/-- Sample providers on a counter: the counter is the next free address, and every
provider's `Send` answers `ok`, except that the `Send` of `yunxin` panics when the message
data hold an `action` that is not a string (gateway/yunxin.go:44-47). -/
def sampleBuiltins : Builtins Nat :=
  { alloc := fun w => (w, w + 1),
    Send := fun _ _ _ _ w => ((GoAny.string "ok", none), w),
    SendPanics := fun name _ _ msg _ =>
      decide (name = "yunxin") && assertStringPanics (mapGet msg.Data "action") }

/-- The configuration with the single entry `mock`, which is also the default. -/
def mockConfig : config.Config Nat :=
  { Strategy := none, DefaultGateways := ["mock"],
    GatewayConfigs := [("mock", [("key", GoAny.string "value")])] }

/-- Where a caller of `Gateway(name)` stands: before its first section; after a cache
miss; after a construction that returned `gw` and a nil error; or returned with
`(gw, err)`. -/
inductive Caller (ω : Type) where
  | start
  | missed
  | built (gw : Option (gateway.Gateway ω))
  | returned (gw : Option (gateway.Gateway ω)) (err : Option GoError)

/-- What a caller that has returned holds: the identity of its instance and its error. -/
def Caller.held {ω : Type} : Caller ω → Option (Option Nat × Option GoError)
  | Caller.returned gw err => some (gw.map (·.ptr), err)
  | _ => none

/-- The engine, the world, the callers by number, and the calls to constructors made so
far. -/
structure Racing (ω : Type) where
  sms : EasySms ω
  world : ω
  callers : Nat → Caller ω
  events : List Event

/-- All callers about to call `Gateway(name)` on engine `e` in world `w`. -/
def Racing.init {ω : Type} (e : EasySms ω) (w : ω) : Racing ω :=
  { sms := e, world := w, callers := fun _ => Caller.start, events := [] }

/-- The caller `i` runs its next section of `Gateway(name)` (easysms.go:149-186); a
caller that has returned does nothing. -/
def Racing.step {ω : Type} (name : String) (i : Nat) (s : Racing ω) : Racing ω :=
  match s.callers i with
  | Caller.start =>
    match mapGet s.sms.gateways name with
    | some gw => { s with callers := Function.update s.callers i (Caller.returned gw none) }
    | none => { s with callers := Function.update s.callers i Caller.missed }
  | Caller.missed =>
    match mapGet s.sms.config.GatewayConfigs name with
    | none =>
      { s with
        callers := Function.update s.callers i
          (Caller.returned none (some (GoError.GatewayError name "lookup"
            (GoError.errorString "config not found")))) }
    | some cfg =>
      if s.sms.registry.HasCreator name then
        let c := s.sms.registry.Create name cfg s.world
        match c.1.2 with
        | some err =>
          { s with
            world := c.2.1, events := s.events ++ c.2.2,
            callers := Function.update s.callers i (Caller.returned none (some err)) }
        | none =>
          { s with
            world := c.2.1, events := s.events ++ c.2.2,
            callers := Function.update s.callers i (Caller.built c.1.1) }
      else
        { s with
          callers := Function.update s.callers i
            (Caller.returned none (some (GoError.GatewayError name "lookup"
              (GoError.errorString "gateway not found")))) }
  | Caller.built gw =>
    { s with
      sms := s.sms.RegisterGateway name gw,
      callers := Function.update s.callers i (Caller.returned gw none) }
  | Caller.returned _ _ => s

/-- The sections run in the order of the schedule, a list of caller numbers. -/
def Racing.run {ω : Type} (name : String) : List Nat → Racing ω → Racing ω
  | [], s => s
  | i :: schedule, s => Racing.run name schedule (Racing.step name i s)


/-! ### More on sequences of calls -/

/-- Whether the call is anything but a `RegisterGateway` for `name`. -/
def Call.keeps {ω : Type} (name : String) : Call ω → Bool
  | Call.RegisterGateway n _ => decide (n ≠ name)
  | _ => true

/-- Whether the event, if it is a resolution of `name` inside `Send`, returned the
instance with identity `p` and a nil error. -/
def Event.resolvesTo (name : String) (p : Option Nat) : Event → Bool
  | Event.resolve n gw err => decide (n = name → gw = p ∧ err = none)
  | _ => true

/-- The configuration with the single entry `errorlog`, a built-in provider, which is
also the default. -/
def errorlogConfig : config.Config Nat :=
  { Strategy := none, DefaultGateways := ["errorlog"],
    GatewayConfigs := [("errorlog", [("file", GoAny.string "sms.log")])] }


end easysms

/-! ## message: phone number formats and setters -/

namespace message

/-- `NewPhoneNumber` (message/phone.go:14-23) in full: `iddCode` is the variadic
argument, of which only the first element is read. -/
def NewPhoneNumberCode (number : String) (iddCode : List Int) : PhoneNumber :=
  let code : Int := if iddCode.length > 0 then iddCode.getD 0 0 else 0
  { Number := number, IDDCode := code }

/-- The verb `%d` of `fmt.Sprintf` at an `int`: a minus sign for a negative number,
then the decimal digits of its magnitude. -/
def fmtD (c : Int) : String :=
  if c < 0 then "-" ++ Nat.repr c.natAbs else Nat.repr c.natAbs

/-- `GetUniversalNumber` (message/phone.go:36-41). -/
def PhoneNumber.GetUniversalNumber (p : PhoneNumber) : String :=
  if p.IDDCode > 0 then "+" ++ fmtD p.IDDCode ++ p.Number else p.Number

/-- `GetZeroPrefixedNumber` (message/phone.go:44-49). -/
def PhoneNumber.GetZeroPrefixedNumber (p : PhoneNumber) : String :=
  if p.IDDCode > 0 then "00" ++ fmtD p.IDDCode ++ p.Number else p.Number

/-- `String` (message/phone.go:57-62). -/
def PhoneNumber.String (p : PhoneNumber) : String :=
  if p.IDDCode > 0 then "+" ++ fmtD p.IDDCode ++ p.Number else p.Number

/-- `SetContent` (message/message.go:41-44). -/
def Message.SetContent (m : Message) (content : String) : Message :=
  { m with Content := content }

/-- `SetTemplate` (message/message.go:52-55). -/
def Message.SetTemplate (m : Message) (template : String) : Message :=
  { m with Template := template }

/-- `SetData` (message/message.go:63-66). -/
def Message.SetData (m : Message) (data : GoMap GoAny) : Message :=
  { m with Data := data }

end message

namespace easysms

/-! ### `SimpleSend` -/

/-- A value of the `map[string]any` handed to `SimpleSend`: a plain value, a
`map[string]any`, a `func(string) string` or a `func(string) map[string]any`. The
functions are the caller's and run in the world. -/
inductive MessageValue (ω : Type) where
  | plain (v : GoAny)
  | mapAny (m : GoMap GoAny)
  | stringFunc (f : String → ω → String × ω)
  | mapFunc (f : String → ω → GoMap GoAny × ω)

/-- The block of `SimpleSend` that reads the entry `gateways` (easysms.go:645-650). -/
def simpleSendGateways {ω : Type} (messageData : GoMap (MessageValue ω))
    (msg : message.Message) : message.Message :=
  match mapGet messageData "gateways" with
  | some (MessageValue.plain (GoAny.strings gatewaysList)) => msg.SetGateways gatewaysList
  | _ => msg

/-- The block of `SimpleSend` that reads the entry `content` (easysms.go:652-667). -/
def simpleSendContent {ω : Type} (e : EasySms ω) (messageData : GoMap (MessageValue ω))
    (msg : message.Message) (w : ω) : message.Message × ω :=
  match mapGet messageData "content" with
  | some (MessageValue.plain (GoAny.string c)) => (msg.SetContent c, w)
  | some (MessageValue.stringFunc c) =>
    let gatewayName :=
      if msg.GetGateways.length > 0 then msg.GetGateways.getD 0 ""
      else if e.config.DefaultGateways.length > 0 then e.config.DefaultGateways.getD 0 ""
      else ""
    (msg.SetContent (c gatewayName w).1, (c gatewayName w).2)
  | _ => (msg, w)

/-- The block of `SimpleSend` that reads the entry `template` (easysms.go:669-684). -/
def simpleSendTemplate {ω : Type} (e : EasySms ω) (messageData : GoMap (MessageValue ω))
    (msg : message.Message) (w : ω) : message.Message × ω :=
  match mapGet messageData "template" with
  | some (MessageValue.plain (GoAny.string t)) => (msg.SetTemplate t, w)
  | some (MessageValue.stringFunc t) =>
    let gatewayName :=
      if msg.GetGateways.length > 0 then msg.GetGateways.getD 0 ""
      else if e.config.DefaultGateways.length > 0 then e.config.DefaultGateways.getD 0 ""
      else ""
    (msg.SetTemplate (t gatewayName w).1, (t gatewayName w).2)
  | _ => (msg, w)

/-- The block of `SimpleSend` that reads the entry `data` (easysms.go:686-701). -/
def simpleSendData {ω : Type} (e : EasySms ω) (messageData : GoMap (MessageValue ω))
    (msg : message.Message) (w : ω) : message.Message × ω :=
  match mapGet messageData "data" with
  | some (MessageValue.mapAny d) => (msg.SetData d, w)
  | some (MessageValue.mapFunc d) =>
    let gatewayName :=
      if msg.GetGateways.length > 0 then msg.GetGateways.getD 0 ""
      else if e.config.DefaultGateways.length > 0 then e.config.DefaultGateways.getD 0 ""
      else ""
    (msg.SetData (d gatewayName w).1, (d gatewayName w).2)
  | _ => (msg, w)

/-- `EasySms.SimpleSend` (easysms.go:638-705): the four blocks in order, then `Send`. -/
def EasySms.SimpleSend {ω : Type} (e : EasySms ω) (phone : String)
    (messageData : GoMap (MessageValue ω)) (w : ω) :
    Step ω (Outcome (Option (GoMap Result) × Option GoError)) :=
  let phoneNumber := message.NewPhoneNumber phone
  let msg := simpleSendGateways messageData message.NewMessage
  let s1 := simpleSendContent e messageData msg w
  let s2 := simpleSendTemplate e messageData s1.1 s1.2
  let s3 := simpleSendData e messageData s2.1 s2.2
  e.Send phoneNumber s3.1 s3.2

/-- In the words of the specification: the gateways of the message built by
`SimpleSend`, the entry `gateways` when it is a list of strings. -/
def simpleGateways {ω : Type} (d : GoMap (MessageValue ω)) : List String :=
  match mapGet d "gateways" with
  | some (MessageValue.plain (GoAny.strings l)) => l
  | _ => []

/-- In the words of the specification: the gateway name the functions are applied to,
the first message gateway if any, else the first default gateway, else the empty
string. -/
def simpleGatewayName {ω : Type} (e : EasySms ω) (d : GoMap (MessageValue ω)) : String :=
  match simpleGateways d, e.config.DefaultGateways with
  | g :: _, _ => g
  | [], g :: _ => g
  | [], [] => ""

/-- In the words of the specification: a text entry, as a plain string or as the
function applied to the gateway name; `none` when it is given in neither form. -/
def simpleText {ω : Type} (v : Option (MessageValue ω)) (name : String) (w : ω) :
    Option String × ω :=
  match v with
  | some (MessageValue.plain (GoAny.string s)) => (some s, w)
  | some (MessageValue.stringFunc f) => (some (f name w).1, (f name w).2)
  | _ => (none, w)

/-- In the words of the specification: the data entry, as a plain map or as the function
applied to the gateway name; `none` when it is given in neither form. -/
def simpleData {ω : Type} (v : Option (MessageValue ω)) (name : String) (w : ω) :
    Option (GoMap GoAny) × ω :=
  match v with
  | some (MessageValue.mapAny m) => (some m, w)
  | some (MessageValue.mapFunc f) => (some (f name w).1, (f name w).2)
  | _ => (none, w)

/-- In the words of the specification: the message `SimpleSend` sends, a fresh message
with the gateways, content, template and data taken from the entries given, and the
world after the functions ran (content, then template, then data). -/
def simpleMessage {ω : Type} (e : EasySms ω) (d : GoMap (MessageValue ω)) (w : ω) :
    message.Message × ω :=
  let name := simpleGatewayName e d
  let c := simpleText (mapGet d "content") name w
  let t := simpleText (mapGet d "template") name c.2
  let m := simpleData (mapGet d "data") name t.2
  ({ Typ := "text",
     Content := c.1.getD "",
     Template := t.1.getD "",
     Data := m.1.getD [],
     Gateways := simpleGateways d }, m.2)

/-- The message data of the test `TestSimpleSend`, with a template given as a function
of the gateway name. -/
def sampleMessageData : GoMap (MessageValue Nat) :=
  [("content", MessageValue.plain (GoAny.string "hello")),
   ("template", MessageValue.stringFunc (fun name w => ("tpl-" ++ name, w + 1)))]


end easysms

/-! ## gateway: the base gateway, its configuration getters and its timeouts -/

namespace gateway

/-- What the embedding takes from outside this repository for `float64`:
`strconv.ParseFloat(s, 64)` (`none` when it returns an error), and the
implementation-dependent integer a conversion yields for a value out of the range of
`int64`. -/
structure Float64Lib where
  ParseFloat : String → Option ℚ
  outOfRange : ℚ → Int

/-- An integer brought into the range of `int64` by two's complement wrap-around. -/
def int64Wrap (n : Int) : Int := (n + 2 ^ 63) % 2 ^ 64 - 2 ^ 63

/-- The conversions `int(v)` and `time.Duration(v)` of a `float64`: the fraction is
discarded; out of the range of `int64` the result is implementation-dependent. -/
def floatToInt (L : Float64Lib) (v : ℚ) : Int :=
  let t := Int.tdiv v.num v.den
  if -2 ^ 63 ≤ t ∧ t < 2 ^ 63 then t else int64Wrap (L.outOfRange v)

/-- The conversion `float64(v)` of an `int`: the nearest `float64`, ties to even. -/
def intToFloat (n : Int) : ℚ :=
  if n < 0 then -((strategy.round53 n.natAbs : Nat) : ℚ) else ((strategy.round53 n.natAbs : Nat) : ℚ)

/-- The value of a decimal digit. -/
def digitValue (c : Char) : Option Nat :=
  if 48 ≤ c.toNat ∧ c.toNat ≤ 57 then some (c.toNat - 48) else none

/-- The number written by a list of decimal digits, after the digits read so far. -/
def parseDecimal : List Char → Nat → Option Nat
  | [], acc => some acc
  | c :: cs, acc =>
    match digitValue c with
    | none => none
    | some d => parseDecimal cs (acc * 10 + d)

/-- `strconv.Atoi` with its error dropped: an optional sign, then one or more decimal
digits, the number being in the range of `int64`; `none` when it returns an error. -/
def Atoi (s : String) : Option Int :=
  let cs := s.toList
  let neg := decide (cs.head? = some '-')
  let ds := match cs with
    | '-' :: r => r
    | '+' :: r => r
    | _ => cs
  if ds.length = 0 then none
  else
    match parseDecimal ds 0 with
    | none => none
    | some n =>
      let v : Int := if neg then -(n : Int) else (n : Int)
      if -2 ^ 63 ≤ v ∧ v < 2 ^ 63 then some v else none

/-- `time.Second`, in nanoseconds. -/
def Second : Int := 1000000000

/-- The struct `BaseGateway` (gateway/gateway.go:22-26); of the HTTP client, the timeout
it was built with, in nanoseconds. -/
structure BaseGateway where
  Name : String
  Config : GoMap GoAny
  httpClientTimeout : Int

/-- `NewBaseGateway` (gateway/gateway.go:29-48). -/
def NewBaseGateway (L : Float64Lib) (name : String) (config : GoMap GoAny) : BaseGateway :=
  let timeout : ℚ :=
    match mapGet config "timeout" with
    | some (GoAny.float64 t) => t
    | _ => 5
  { Name := name, Config := config,
    httpClientTimeout := int64Wrap (floatToInt L timeout * Second) }

/-- `BaseGateway.GetName` (gateway/gateway.go:51-53). -/
def BaseGateway.GetName (g : BaseGateway) : String := g.Name

/-- `BaseGateway.GetConfigString` (gateway/gateway.go:61-71). -/
def BaseGateway.GetConfigString (g : BaseGateway) (key : String)
    (defaultValue : List String) : String :=
  match mapGet g.Config key with
  | some (GoAny.string strVal) => strVal
  | _ => if defaultValue.length > 0 then defaultValue.getD 0 "" else ""

/-- `BaseGateway.GetConfigInt` (gateway/gateway.go:74-91). -/
def BaseGateway.GetConfigInt (L : Float64Lib) (g : BaseGateway) (key : String)
    (defaultValue : List Int) : Int :=
  match mapGet g.Config key with
  | some (GoAny.int v) => v
  | some (GoAny.float64 v) => floatToInt L v
  | some (GoAny.string v) =>
    match Atoi v with
    | some intVal => intVal
    | none => if defaultValue.length > 0 then defaultValue.getD 0 0 else 0
  | _ => if defaultValue.length > 0 then defaultValue.getD 0 0 else 0

/-- `BaseGateway.GetConfigFloat` (gateway/gateway.go:94-111). -/
def BaseGateway.GetConfigFloat (L : Float64Lib) (g : BaseGateway) (key : String)
    (defaultValue : List ℚ) : ℚ :=
  match mapGet g.Config key with
  | some (GoAny.float64 v) => v
  | some (GoAny.int v) => intToFloat v
  | some (GoAny.string v) =>
    match L.ParseFloat v with
    | some floatVal => floatVal
    | none => if defaultValue.length > 0 then defaultValue.getD 0 0 else 0
  | _ => if defaultValue.length > 0 then defaultValue.getD 0 0 else 0

/-- `BaseGateway.GetConfigBool` (gateway/gateway.go:114-134). -/
def BaseGateway.GetConfigBool (g : BaseGateway) (key : String)
    (defaultValue : List Bool) : Bool :=
  match mapGet g.Config key with
  | some (GoAny.bool v) => v
  | some (GoAny.string v) =>
    if v = "true" ∨ v = "1" ∨ v = "yes" then true
    else if v = "false" ∨ v = "0" ∨ v = "no" then false
    else if defaultValue.length > 0 then defaultValue.getD 0 false else false
  | some (GoAny.int v) => decide (v ≠ 0)
  | _ => if defaultValue.length > 0 then defaultValue.getD 0 false else false

/-- The duration handed to `context.WithTimeout` by `Get`, `Post` and `PostJSON`
(gateway/gateway.go:139, 160, 181), in nanoseconds:
`time.Duration(g.GetConfigFloat("timeout", 5.0)) * time.Second`. -/
def BaseGateway.requestTimeout (L : Float64Lib) (g : BaseGateway) : Int :=
  int64Wrap (floatToInt L (g.GetConfigFloat L "timeout" [5]) * Second)

/-- What `GetConfigString` can coerce: a string. -/
def coerceString : GoAny → Option String
  | GoAny.string s => some s
  | _ => none

/-- What `GetConfigInt` can coerce: an integer; a float, to the integer next to it
towards zero (the greatest integer not above a float that is not negative, the least
integer not below a negative one) when that is in the range of `int64`; a string that
`strconv.Atoi` reads. -/
def coerceInt (L : Float64Lib) : GoAny → Option Int
  | GoAny.int n => some n
  | GoAny.float64 v =>
    some (if -2 ^ 63 - 1 < v ∧ v < 2 ^ 63 then (if 0 ≤ v then ⌊v⌋ else ⌈v⌉)
      else int64Wrap (L.outOfRange v))
  | GoAny.string s => Atoi s
  | _ => none

/-- What `GetConfigFloat` can coerce: a float, an integer, a string that
`strconv.ParseFloat` reads. -/
def coerceFloat (L : Float64Lib) : GoAny → Option ℚ
  | GoAny.float64 v => some v
  | GoAny.int n => some (intToFloat n)
  | GoAny.string s => L.ParseFloat s
  | _ => none

/-- What `GetConfigBool` can coerce: a boolean, an integer (true when not zero), one of
the strings `true`, `1`, `yes`, `false`, `0`, `no`. -/
def coerceBool : GoAny → Option Bool
  | GoAny.bool b => some b
  | GoAny.int n => some (decide (n ≠ 0))
  | GoAny.string s =>
    if s ∈ ["true", "1", "yes"] then some true
    else if s ∈ ["false", "0", "no"] then some false
    else none
  | _ => none

/-- The rational is a finite `float64`: a significand of at most 53 bits times a power
of two within the exponent range. -/
def isFloat64 (v : ℚ) : Prop :=
  ∃ (m : Int) (k : Int), m.natAbs < 2 ^ 53 ∧ -1074 ≤ k ∧ k ≤ 971 ∧ v = (m : ℚ) * (2 : ℚ) ^ k

/-- The `float64` written `123.45` in Go: `8687021468732621 * 2 ^ (-46)`. -/
def float123_45 : ℚ := 8687021468732621 / 70368744177664

/-- The `float64` written `456.78` in Go: `2008939685342085 * 2 ^ (-42)`. -/
def float456_78 : ℚ := 2008939685342085 / 4398046511104

/-- A sample `float64` library: `ParseFloat` reads the string `456.78`, as Go does, and
no other. -/
def sampleFloat64Lib : Float64Lib :=
  { ParseFloat := fun s => if s = "456.78" then some float456_78 else none,
    outOfRange := fun _ => 0 }

/-- The configuration of the test `TestBaseGateway`
(tests/gateway/gateway_test.go:11-20). -/
def sampleBaseConfig : GoMap GoAny :=
  [("string_value", GoAny.string "test"), ("int_value", GoAny.int 123),
   ("float_value", GoAny.float64 float123_45), ("bool_value", GoAny.bool true),
   ("string_int", GoAny.string "456"), ("string_float", GoAny.string "456.78"),
   ("string_bool", GoAny.string "true"), ("missing_value", GoAny.nil)]

end gateway

namespace easysms


end easysms

/-! ## strategy: the shuffle as a function of its swap indices -/

namespace strategy

/-- The loop of `RandomStrategy.Apply` (strategy.go:42-45) from the counter value given
downwards, with the swap indices handed in: the head of the list is the index `j` of the
first iteration. -/
def shuffleWith : Nat → List Nat → List String → List String
  | i + 1, j :: js, result => shuffleWith i js (swap result (i + 1) j)
  | _, _, result => result

end strategy

namespace easysms


/-! ### `Send` on pointers that may be nil -/

/-- The engine and the world the loop of `Send` has reached after trying the names
given, in order, from the engine `e` and the world `w`, when every one of them failed
(it could not be resolved, or its `Send` returned an error) at the moment it was tried;
`none` when one of them did not fail then. -/
def afterFailures {ω : Type} (to_ : message.PhoneNumber) (msg : message.Message) :
    List String → EasySms ω → ω → Option (EasySms ω × ω)
  | [], e, w => some (e, w)
  | n :: rest, e, w =>
    match (attempt to_ msg n e w).ret with
    | Attempt.failed _ =>
      afterFailures to_ msg rest (attempt to_ msg n e w).sms (attempt to_ msg n e w).world
    | _ => none

/-- A gateway on a counter whose `Send` fails with `text` while the counter is below
`k`, and answers `resp` from then on; each call increments the counter. -/
def flakyGateway (p k : Nat) (text : String) (resp : GoAny) : gateway.Gateway Nat :=
  { ptr := p, GetName := "mock",
    Send := fun _ _ w =>
      if w < k then ((GoAny.nil, some (GoError.errorString text)), w + 1)
      else ((resp, none), w + 1),
    SendPanics := fun _ _ _ => false }

/-- Defaults `a, b` under the order strategy, both cached: `a` always fails, `b` fails
while the counter is below 1, which `a` sees to, and succeeds afterwards. -/
def flakyEngine : EasySms Nat :=
  { config := { Strategy := none, DefaultGateways := ["a", "b"], GatewayConfigs := [] },
    gateways := [("a", some (flakyGateway 1 100 "first boom" GoAny.nil)),
                 ("b", some (flakyGateway 2 1 "not yet" (GoAny.string "sent")))],
    strategy := strategy.NewOrderStrategy, registry := NewGatewayRegistry }

/-- A gateway on a counter whose `Send` always fails, with the text `text` followed by
the value of the counter; each call increments the counter. -/
def countingGateway (p : Nat) (text : String) : gateway.Gateway Nat :=
  { ptr := p, GetName := "mock",
    Send := fun _ _ w => ((GoAny.nil, some (GoError.errorString (text ++ Nat.repr w))), w + 1),
    SendPanics := fun _ _ _ => false }

/-- Defaults `b, a, b` under the order strategy, both names cached and failing: the name
`b` is attempted twice, and fails with another error the second time. -/
def repeatEngine : EasySms Nat :=
  { config := { Strategy := none, DefaultGateways := ["b", "a", "b"], GatewayConfigs := [] },
    gateways := [("a", some (countingGateway 1 "a boom ")),
                 ("b", some (countingGateway 2 "b boom "))],
    strategy := strategy.NewOrderStrategy, registry := NewGatewayRegistry }

end easysms

/-! ## Lemmas on maps -/

theorem mapGet_mapSet_same {β : Type} (m : GoMap β) (k : String) (v : β) :
    mapGet (mapSet m k v) k = some v := by
  induction m with
  | nil => simp [mapSet, mapGet]
  | cons a m ih =>
    obtain ⟨k', v'⟩ := a
    by_cases h : k' = k
    · simp [mapSet, mapGet, h]
    · simp [mapSet, mapGet, h, ih]

theorem mapGet_mapSet_ne {β : Type} (m : GoMap β) (k k' : String) (v : β) (h : k' ≠ k) :
    mapGet (mapSet m k v) k' = mapGet m k' := by
  induction m with
  | nil => simp [mapSet, mapGet, Ne.symm h]
  | cons a m ih =>
    obtain ⟨k0, v0⟩ := a
    by_cases h0 : k0 = k
    · subst h0
      simp [mapSet, mapGet, Ne.symm h]
    · by_cases h1 : k0 = k'
      · subst h1
        simp [mapSet, mapGet, h0]
      · simp [mapSet, mapGet, h0, h1, ih]

theorem mapGet_eq_none_iff {β : Type} (m : GoMap β) (k : String) :
    mapGet m k = none ↔ k ∉ mapKeys m := by
  induction m with
  | nil => simp [mapGet, mapKeys]
  | cons a m ih =>
    obtain ⟨k0, v0⟩ := a
    by_cases h0 : k0 = k
    · simp [mapGet, mapKeys, h0]
    · have h1 : ¬ k = k0 := fun h => h0 h.symm
      simp only [mapKeys] at ih
      simp [mapGet, mapKeys, h0, h1, ih]

theorem mapKeys_mapSet_of_not_mem {β : Type} (m : GoMap β) (k : String) (v : β)
    (h : k ∉ mapKeys m) : mapKeys (mapSet m k v) = mapKeys m ++ [k] := by
  induction m with
  | nil => simp [mapSet, mapKeys]
  | cons a m ih =>
    obtain ⟨k0, v0⟩ := a
    simp only [mapKeys, List.map_cons, List.mem_cons, not_or] at h ih ⊢
    have h0 : ¬ k0 = k := fun h' => h.1 h'.symm
    simp [mapSet, h0, ih h.2]

theorem mem_mapKeys_mapSet {β : Type} (m : GoMap β) (k k' : String) (v : β) :
    k' ∈ mapKeys (mapSet m k v) ↔ k' = k ∨ k' ∈ mapKeys m := by
  induction m with
  | nil => simp [mapSet, mapKeys]
  | cons a m ih =>
    obtain ⟨k0, v0⟩ := a
    simp only [mapKeys] at ih
    by_cases h0 : k0 = k
    · subst h0
      simp [mapSet, mapKeys]
    · simp [mapSet, mapKeys, h0, ih]
      tauto

theorem mapGet_isSome_iff {β : Type} (m : GoMap β) (k : String) :
    (mapGet m k).isSome ↔ k ∈ mapKeys m := by
  rw [← not_iff_not, ← mapGet_eq_none_iff]
  cases mapGet m k <;> simp

namespace easysms

/-! ## Lemmas on `Gateway` -/

/-- The engine after `Gateway` keeps configuration, strategy and registry. -/
theorem Gateway_frame {ω : Type} (e : EasySms ω) (name : String) (w : ω) :
    (e.Gateway name w).sms.config = e.config ∧
    (e.Gateway name w).sms.strategy = e.strategy ∧
    (e.Gateway name w).sms.registry = e.registry ∧
    ∀ k, k ≠ name → mapGet (e.Gateway name w).sms.gateways k = mapGet e.gateways k := by
  unfold EasySms.Gateway
  split
  · simp
  · split
    · simp
    · split
      · dsimp only
        split
        · simp
        · refine ⟨rfl, rfl, rfl, ?_⟩
          intro k hk
          simp [EasySms.RegisterGateway, mapGet_mapSet_ne _ _ _ _ hk]
      · simp

/-- `Gateway name` reads the engine only through what `SameFor name` compares. -/
theorem Gateway_congr {ω : Type} (name : String) (e e' : EasySms ω) (w : ω)
    (h : SameFor name e e') :
    (e'.Gateway name w).ret = (e.Gateway name w).ret ∧
    (e'.Gateway name w).world = (e.Gateway name w).world ∧
    (e'.Gateway name w).events = (e.Gateway name w).events := by
  obtain ⟨hc, hr, hg⟩ := h
  unfold EasySms.Gateway
  rw [hc, hr, hg]
  split
  · simp
  · split
    · simp
    · split
      · dsimp only
        split <;> simp
      · simp

end easysms

namespace easysms

/-! ## Lemmas on events -/

theorem attempted_append (a b : List Event) :
    attempted (a ++ b) = attempted a ++ attempted b := by
  induction a with
  | nil => rfl
  | cons ev a ih => cases ev <;> simp [attempted, ih]

/-- The events of `Gateway name` are invocations of the constructor of `name`. -/
theorem Gateway_events {ω : Type} (e : EasySms ω) (name : String) (w : ω) :
    ∀ ev ∈ (e.Gateway name w).events, ∃ cfg gw err, ev = Event.create name cfg gw err := by
  unfold EasySms.Gateway
  split
  · simp
  · split
    · simp
    · split
      · dsimp only
        unfold GatewayRegistry.Create
        split <;> split <;> simp_all
      · simp

theorem Gateway_events_attempted {ω : Type} (e : EasySms ω) (name : String) (w : ω) :
    attempted (e.Gateway name w).events = [] := by
  have h := Gateway_events e name w
  generalize (e.Gateway name w).events = evs at h
  induction evs with
  | nil => rfl
  | cons ev evs ih =>
    obtain ⟨cfg, gw, err, rfl⟩ := h ev (List.mem_cons_self _ _)
    simp only [attempted]
    exact ih (fun ev' h' => h ev' (List.mem_cons_of_mem _ h'))

/-! ## Lemmas on one iteration -/

/-- The loop of `Send` on `name :: rest` is one `attempt` on `name`, followed by the loop
on `rest` when the attempt failed. -/
theorem sendLoop_cons {ω : Type} (to_ : message.PhoneNumber) (msg : message.Message)
    (name : String) (rest : List String) (e : EasySms ω) (w : ω) (v : SendVars) :
    sendLoop to_ msg (name :: rest) e w v =
      match (attempt to_ msg name e w).ret with
      | Attempt.failed err =>
        (sendLoop to_ msg rest (attempt to_ msg name e w).sms (attempt to_ msg name e w).world
          { v with results := mapSet v.results name (failureResult name err),
                   lastErr := some err }).after (attempt to_ msg name e w).events
      | Attempt.succeeded resp =>
        { ret := Outcome.returned
            { v with results := mapSet v.results name (successResult name resp),
                     success := true },
          sms := (attempt to_ msg name e w).sms, world := (attempt to_ msg name e w).world,
          events := (attempt to_ msg name e w).events }
      | Attempt.panicked =>
        { ret := Outcome.panicked,
          sms := (attempt to_ msg name e w).sms, world := (attempt to_ msg name e w).world,
          events := (attempt to_ msg name e w).events } := by
  rw [sendLoop]
  unfold attempt
  dsimp only
  split
  · rfl
  · split
    · rfl
    · split
      · rfl
      · split <;> rfl

theorem attempt_frame {ω : Type} (to_ : message.PhoneNumber) (msg : message.Message)
    (name : String) (e : EasySms ω) (w : ω) :
    (attempt to_ msg name e w).sms.config = e.config ∧
    (attempt to_ msg name e w).sms.strategy = e.strategy ∧
    (attempt to_ msg name e w).sms.registry = e.registry ∧
    ∀ k, k ≠ name →
      mapGet (attempt to_ msg name e w).sms.gateways k = mapGet e.gateways k := by
  have h := Gateway_frame e name w
  unfold attempt
  dsimp only
  split
  · exact h
  · split
    · exact h
    · split
      · exact h
      · split <;> exact h

theorem attempt_congr {ω : Type} (to_ : message.PhoneNumber) (msg : message.Message)
    (name : String) (e e' : EasySms ω) (w : ω) (h : SameFor name e e') :
    (attempt to_ msg name e' w).ret = (attempt to_ msg name e w).ret ∧
    (attempt to_ msg name e' w).world = (attempt to_ msg name e w).world ∧
    (attempt to_ msg name e' w).events = (attempt to_ msg name e w).events := by
  obtain ⟨h1, h2, h3⟩ := Gateway_congr name e e' w h
  unfold attempt
  dsimp only
  rw [h1, h2, h3]
  split
  · simp
  · split
    · simp
    · split
      · simp
      · split <;> simp

/-- After one iteration on `name`, the engine still holds the same for every other name. -/
theorem attempt_sameFor {ω : Type} (to_ : message.PhoneNumber) (msg : message.Message)
    (name k : String) (e0 e : EasySms ω) (w : ω) (hk : k ≠ name) (h : SameFor k e0 e) :
    SameFor k e0 (attempt to_ msg name e w).sms := by
  obtain ⟨hc, _, hr, hg⟩ := attempt_frame to_ msg name e w
  obtain ⟨h1, h2, h3⟩ := h
  exact ⟨hc.trans h1, hr.trans h2, (hg k hk).trans h3⟩

end easysms

namespace easysms

theorem after_after {ω α : Type} (a b : List Event) (r : Step ω α) :
    (r.after b).after a = r.after (a ++ b) := by
  simp [Step.after, List.append_assoc]

theorem getLast?_cons_of_ne_nil {α : Type} (a : α) (l : List α) (h : l ≠ []) :
    (a :: l).getLast? = l.getLast? := by
  cases l with
  | nil => exact absurd rfl h
  | cons b l => simp [List.getLast?_cons_cons]

/-- A run of failures: when the names of `pre` fail one after the other, each at the
moment the loop tries it, the loop records a failure entry for each, the last one written
being the one that stays and carries the last error, and goes on with the rest of the
list from the engine and the world it has reached. -/
theorem sendLoop_afterFailures {ω : Type} (to_ : message.PhoneNumber)
    (msg : message.Message) (rest : List String) :
    ∀ (pre : List String) (e : EasySms ω) (w : ω) (v : SendVars) (e' : EasySms ω) (w' : ω),
      afterFailures to_ msg pre e w = some (e', w') →
      ∃ (v' : SendVars) (evs : List Event),
        sendLoop to_ msg (pre ++ rest) e w v = (sendLoop to_ msg rest e' w' v').after evs ∧
        v'.success = v.success ∧
        (pre.Nodup → (∀ n ∈ pre, n ∉ mapKeys v.results) →
          mapKeys v'.results = mapKeys v.results ++ pre) ∧
        (∀ n ∈ pre, ∃ err, mapGet v'.results n = some (failureResult n err)) ∧
        (∀ k, k ∉ pre → mapGet v'.results k = mapGet v.results k) ∧
        (pre = [] → v'.lastErr = v.lastErr) ∧
        (∀ n, pre.getLast? = some n →
          ∃ err, v'.lastErr = some err ∧ mapGet v'.results n = some (failureResult n err)) := by
  intro pre
  induction pre with
  | nil =>
    intro e w v e' w' h
    simp only [afterFailures, Option.some.injEq, Prod.mk.injEq] at h
    obtain ⟨he, hw⟩ := h
    subst he hw
    refine ⟨v, [], ?_, rfl, ?_, ?_, ?_, ?_, ?_⟩
    · simp [Step.after]
    · intro _ _; simp
    · intro n hn; simp at hn
    · intro k _; rfl
    · intro _; rfl
    · intro n hn; simp at hn
  | cons a pre ih =>
    intro e w v e' w' h
    rw [afterFailures] at h
    cases hret : (attempt to_ msg a e w).ret with
    | succeeded resp => rw [hret] at h; simp at h
    | panicked => rw [hret] at h; simp at h
    | failed err =>
      rw [hret] at h
      simp only at h
      obtain ⟨v', evs, heq, hsucc, hk, hent, hother, hl0, hlast⟩ :=
        ih (attempt to_ msg a e w).sms (attempt to_ msg a e w).world
          { v with results := mapSet v.results a (failureResult a err), lastErr := some err }
          e' w' h
      refine ⟨v', (attempt to_ msg a e w).events ++ evs, ?_, hsucc, ?_, ?_, ?_, ?_, ?_⟩
      · rw [List.cons_append, sendLoop_cons, hret]
        dsimp only
        rw [heq, after_after]
      · intro hnd hkeys
        have ha : a ∉ pre := (List.nodup_cons.mp hnd).1
        have hak : a ∉ mapKeys v.results := hkeys a (List.mem_cons_self _ _)
        rw [hk (List.nodup_cons.mp hnd).2 (fun n hn hmem => by
          rcases (mem_mapKeys_mapSet _ _ _ _).mp hmem with h' | h'
          · exact ha (h' ▸ hn)
          · exact hkeys n (List.mem_cons_of_mem _ hn) h')]
        dsimp only
        rw [mapKeys_mapSet_of_not_mem _ _ _ hak]
        simp
      · intro n hn
        by_cases hnp : n ∈ pre
        · exact hent n hnp
        · have hna : n = a := by
            rcases List.mem_cons.mp hn with h' | h'
            · exact h'
            · exact absurd h' hnp
          subst hna
          refine ⟨err, ?_⟩
          rw [hother n hnp]
          exact mapGet_mapSet_same _ _ _
      · intro k hk'
        have hka : k ≠ a := fun h' => hk' (h' ▸ List.mem_cons_self _ _)
        rw [hother k (fun h' => hk' (List.mem_cons_of_mem _ h'))]
        exact mapGet_mapSet_ne _ _ _ _ hka
      · intro h'; exact absurd h' (List.cons_ne_nil _ _)
      · intro n hn
        by_cases hp : pre = []
        · have hna : n = a := by
            rw [hp] at hn
            simpa using hn.symm
          subst hna
          refine ⟨err, hl0 hp, ?_⟩
          rw [hother n (by rw [hp]; simp)]
          exact mapGet_mapSet_same _ _ _
        · rw [getLast?_cons_of_ne_nil _ _ hp] at hn
          exact hlast n hn

end easysms

namespace easysms

/-! ## Fallback dispatch -/

/-- `Send` with at least one candidate applies the strategy and runs the loop. -/
theorem Send_of_candidates {ω : Type} (e : EasySms ω) (to_ : message.PhoneNumber)
    (msg : message.Message) (w : ω) (h : candidates e msg ≠ []) (v : SendVars)
    (hv : (sendLoop to_ msg (e.strategy.Apply (candidates e msg) w).1 e
            (e.strategy.Apply (candidates e msg) w).2
            { results := [], lastErr := none, success := false }).ret = Outcome.returned v) :
    (e.Send to_ msg w).ret =
      Outcome.returned (some v.results,
        if v.success then none
        else some (GoError.errorString ("all gateways failed: " ++ fmtV v.lastErr))) := by
  have hlen : ¬ (candidates e msg).length = 0 := fun h0 => h (List.length_eq_zero.mp h0)
  unfold EasySms.Send
  simp only [hlen, if_false]
  rw [hv]
  cases hs : v.success <;> simp [hs]

/-- C1. Fallback order: under the order strategy, when the candidate list is
`pre ++ n :: post` with pairwise-distinct names, every name of `pre` fails in the call (it
cannot be resolved, or its `Send` returns an error, at the moment the call tries it) and
`n` then resolves and its `Send` succeeds, `Send` returns a nil error and a results map
whose keys are exactly `pre` and `n`, with status failure for the names of `pre` and
status success for `n`. What a gateway would do at another moment does not matter. -/
theorem C1_fallback_order {ω : Type} (e : EasySms ω) (to_ : message.PhoneNumber)
    (msg : message.Message) (w : ω) (pre : List String) (n : String) (post : List String)
    (e' : EasySms ω) (w' : ω) (resp : GoAny)
    (hstrategy : e.strategy = strategy.NewOrderStrategy)
    (hcand : candidates e msg = pre ++ n :: post)
    (hnodup : (pre ++ n :: post).Nodup)
    (hfail : afterFailures to_ msg pre e w = some (e', w'))
    (hok : (attempt to_ msg n e' w').ret = Attempt.succeeded resp) :
    ∃ results, (e.Send to_ msg w).ret = Outcome.returned (some results, none) ∧
      mapKeys results = pre ++ [n] ∧
      (∀ k, (mapGet results k).isSome ↔ k ∈ pre ++ [n]) ∧
      (∀ m ∈ pre, (mapGet results m).map (·.Status) = some StatusFailure) ∧
      (mapGet results n).map (·.Status) = some StatusSuccess ∧
      mapGet results n = some (successResult n resp) := by
  have hne : candidates e msg ≠ [] := by rw [hcand]; simp
  have hpre : pre.Nodup := (List.nodup_append.mp hnodup).1
  have hn : n ∉ pre := fun h =>
    (List.nodup_append.mp hnodup).2.2 h (List.mem_cons_self _ _)
  obtain ⟨v', evs, heq, hsucc, hk, hent, _, _, _⟩ :=
    sendLoop_afterFailures to_ msg (n :: post) pre e w
      { results := [], lastErr := none, success := false } e' w' hfail
  have hkeys : mapKeys v'.results = pre := by
    simpa [mapKeys] using hk hpre (fun _ _ h => by simp [mapKeys] at h)
  have hnk : n ∉ mapKeys v'.results := by rw [hkeys]; exact hn
  have hloop : (sendLoop to_ msg (e.strategy.Apply (candidates e msg) w).1 e
      (e.strategy.Apply (candidates e msg) w).2
      { results := [], lastErr := none, success := false }).ret =
      Outcome.returned { v' with results := mapSet v'.results n (successResult n resp),
                                 success := true } := by
    rw [hstrategy, hcand]
    simp only [strategy.NewOrderStrategy, strategy.OrderStrategy.Apply]
    rw [heq, sendLoop_cons, hok]
    rfl
  refine ⟨mapSet v'.results n (successResult n resp), ?_, ?_, ?_, ?_, ?_, ?_⟩
  · rw [Send_of_candidates e to_ msg w hne _ hloop]
    rfl
  · rw [mapKeys_mapSet_of_not_mem _ _ _ hnk, hkeys]
  · intro k
    rw [mapGet_isSome_iff, mapKeys_mapSet_of_not_mem _ _ _ hnk, hkeys]
  · intro m hm
    obtain ⟨err, herr⟩ := hent m hm
    rw [mapGet_mapSet_ne _ _ _ _ (fun h : m = n => hn (h ▸ hm)), herr]
    rfl
  · rw [mapGet_mapSet_same]
    rfl
  · exact mapGet_mapSet_same _ _ _

/-- C1 at a sample engine whose gateways depend on the world: `a` fails, and `b`, which
fails as long as no `Send` was made, succeeds when the call comes to it. -/
theorem C1_fallback_order_witness :
    (attempt samplePhone message.NewMessage "b" flakyEngine 0).ret =
        Attempt.failed (GoError.errorString "not yet") ∧
    ∃ results, (flakyEngine.Send samplePhone message.NewMessage 0).ret =
        Outcome.returned (some results, none) ∧
      mapKeys results = ["a"] ++ ["b"] ∧
      (∀ k, (mapGet results k).isSome ↔ k ∈ ["a"] ++ ["b"]) ∧
      (∀ m ∈ ["a"], (mapGet results m).map (·.Status) = some StatusFailure) ∧
      (mapGet results "b").map (·.Status) = some StatusSuccess ∧
      mapGet results "b" = some (successResult "b" (GoAny.string "sent")) :=
  ⟨by decide,
   C1_fallback_order flakyEngine samplePhone message.NewMessage 0 ["a"] "b" []
     flakyEngine 1 (GoAny.string "sent") rfl rfl (by decide) rfl rfl⟩

end easysms

namespace easysms

/-- C3. All-fail aggregation: when the candidate list is non-empty with pairwise-distinct
names, the strategy returns a permutation of it, and every candidate fails in the call (it
cannot be resolved, or its `Send` returns an error, at the moment the call tries it),
`Send` returns a non-nil error together with a results map that has exactly one entry per
candidate name, every entry of status failure. -/
theorem C3_all_fail_aggregation {ω : Type} (e : EasySms ω) (to_ : message.PhoneNumber)
    (msg : message.Message) (w : ω)
    (hne : candidates e msg ≠ [])
    (hnodup : (candidates e msg).Nodup)
    (hperm : ((e.strategy.Apply (candidates e msg) w).1).Perm (candidates e msg))
    (hfail : (afterFailures to_ msg (e.strategy.Apply (candidates e msg) w).1 e
      (e.strategy.Apply (candidates e msg) w).2).isSome = true) :
    ∃ results err, (e.Send to_ msg w).ret = Outcome.returned (some results, some err) ∧
      (mapKeys results).Perm (candidates e msg) ∧
      (mapKeys results).Nodup ∧
      results.length = (candidates e msg).length ∧
      (∀ n ∈ candidates e msg,
        ∃ r, mapGet results n = some r ∧ r.Status = StatusFailure) ∧
      (∀ k r, mapGet results k = some r → r.Status = StatusFailure) := by
  obtain ⟨⟨e', w'⟩, hsome⟩ := Option.isSome_iff_exists.mp hfail
  obtain ⟨v, evs, heq, hsucc, hk, hent, _, _, _⟩ :=
    sendLoop_afterFailures to_ msg [] (e.strategy.Apply (candidates e msg) w).1 e
      (e.strategy.Apply (candidates e msg) w).2
      { results := [], lastErr := none, success := false } e' w' hsome
  have hkeys : mapKeys v.results = (e.strategy.Apply (candidates e msg) w).1 := by
    simpa [mapKeys] using hk (hperm.nodup_iff.mpr hnodup) (fun _ _ h => by simp [mapKeys] at h)
  have hv : (sendLoop to_ msg (e.strategy.Apply (candidates e msg) w).1 e
      (e.strategy.Apply (candidates e msg) w).2
      { results := [], lastErr := none, success := false }).ret = Outcome.returned v := by
    rw [List.append_nil] at heq
    rw [heq]
    rfl
  refine ⟨v.results, GoError.errorString ("all gateways failed: " ++ fmtV v.lastErr),
    ?_, ?_, ?_, ?_, ?_, ?_⟩
  · rw [Send_of_candidates e to_ msg w hne v hv, hsucc]
    rfl
  · rw [hkeys]; exact hperm
  · rw [hkeys]; exact hperm.nodup_iff.mpr hnodup
  · rw [← hperm.length_eq, ← hkeys]
    simp [mapKeys]
  · intro n hn
    obtain ⟨err, herr⟩ := hent n (hperm.mem_iff.mpr hn)
    exact ⟨_, herr, rfl⟩
  · intro k r hr
    have hmem : k ∈ mapKeys v.results := by
      rw [← mapGet_isSome_iff, hr]; rfl
    rw [hkeys] at hmem
    obtain ⟨err, herr⟩ := hent k hmem
    rw [herr] at hr
    cases hr
    rfl

/-- C3 at the sample engine whose two defaults both fail. -/
theorem C3_all_fail_aggregation_witness :
    ∃ results err, (allFailEngine.Send samplePhone message.NewMessage 0).ret =
        Outcome.returned (some results, some err) ∧
      (mapKeys results).Perm (candidates allFailEngine message.NewMessage) ∧
      (mapKeys results).Nodup ∧
      results.length = (candidates allFailEngine message.NewMessage).length ∧
      (∀ n ∈ candidates allFailEngine message.NewMessage,
        ∃ r, mapGet results n = some r ∧ r.Status = StatusFailure) ∧
      (∀ k r, mapGet results k = some r → r.Status = StatusFailure) :=
  C3_all_fail_aggregation allFailEngine samplePhone message.NewMessage 0
    (by decide) (by decide) (List.Perm.refl _) rfl

/-- C7, as stated, fails: with defaults `a, b` failing with `first boom` and
`second boom`, the error of `Send` is a plain error with the text
`all gateways failed: second boom`; unwrapping it gives nothing, so the error of the
last attempt is not its cause. -/
theorem C7_counterexample :
    (allFailEngine.Send samplePhone message.NewMessage 0).ret =
        Outcome.returned
          (some [("a", failureResult "a" (GoError.errorString "first boom")),
                 ("b", failureResult "b" (GoError.errorString "second boom"))],
           some (GoError.errorString "all gateways failed: second boom")) ∧
      (GoError.errorString "all gateways failed: second boom").Unwrap = none ∧
      (GoError.errorString "all gateways failed: second boom").Unwrap ≠
        some (GoError.errorString "second boom") := by
  decide

/-- C7, amended. When every attempt of the call fails, the names in attempt order ending
with `last` (names may repeat), the error of `Send` is a plain error whose text is
`all gateways failed: ` followed by the text of the error of the last attempt, the one
recorded in the results map under the last name; the error has no cause to unwrap. -/
theorem C7_aggregate_error_text {ω : Type} (e : EasySms ω) (to_ : message.PhoneNumber)
    (msg : message.Message) (w : ω) (last : String)
    (hne : candidates e msg ≠ [])
    (hlast : ((e.strategy.Apply (candidates e msg) w).1).getLast? = some last)
    (hfail : (afterFailures to_ msg (e.strategy.Apply (candidates e msg) w).1 e
      (e.strategy.Apply (candidates e msg) w).2).isSome = true) :
    ∃ results lastErr,
      (e.Send to_ msg w).ret =
        Outcome.returned (some results,
          some (GoError.errorString ("all gateways failed: " ++ lastErr.Error))) ∧
      mapGet results last = some (failureResult last lastErr) ∧
      (GoError.errorString ("all gateways failed: " ++ lastErr.Error)).Unwrap = none := by
  obtain ⟨⟨e', w'⟩, hsome⟩ := Option.isSome_iff_exists.mp hfail
  obtain ⟨v, evs, heq, hsucc, _, _, _, _, hl⟩ :=
    sendLoop_afterFailures to_ msg [] (e.strategy.Apply (candidates e msg) w).1 e
      (e.strategy.Apply (candidates e msg) w).2
      { results := [], lastErr := none, success := false } e' w' hsome
  have hv : (sendLoop to_ msg (e.strategy.Apply (candidates e msg) w).1 e
      (e.strategy.Apply (candidates e msg) w).2
      { results := [], lastErr := none, success := false }).ret = Outcome.returned v := by
    rw [List.append_nil] at heq
    rw [heq]
    rfl
  obtain ⟨err, herr, hget⟩ := hl last hlast
  refine ⟨v.results, err, ?_, hget, rfl⟩
  rw [Send_of_candidates e to_ msg w hne v hv, hsucc, herr]
  rfl

/-- C7, amended, at a sample engine that attempts `b, a, b`: the error of the second
attempt of `b` is the one in the text, and the one recorded under `b`. -/
theorem C7_aggregate_error_text_witness :
    (repeatEngine.Send samplePhone message.NewMessage 0).ret =
      Outcome.returned
        (some [("b", failureResult "b" (GoError.errorString "b boom 2")),
               ("a", failureResult "a" (GoError.errorString "a boom 1"))],
          some (GoError.errorString "all gateways failed: b boom 2")) ∧
    ∃ results lastErr,
      (repeatEngine.Send samplePhone message.NewMessage 0).ret =
        Outcome.returned (some results,
          some (GoError.errorString ("all gateways failed: " ++ lastErr.Error))) ∧
      mapGet results "b" = some (failureResult "b" lastErr) ∧
      (GoError.errorString ("all gateways failed: " ++ lastErr.Error)).Unwrap = none :=
  ⟨by decide,
   C7_aggregate_error_text repeatEngine samplePhone message.NewMessage 0 "b"
     (by decide) rfl rfl⟩

end easysms

namespace easysms

/-! ## The shape of a run of the loop -/

/-- What the events of one iteration look like, by the way it ended. -/
theorem attempt_events {ω : Type} (to_ : message.PhoneNumber) (msg : message.Message)
    (name : String) (e : EasySms ω) (w : ω) :
    attempted (attempt to_ msg name e w).events = [name] ∧
    (∀ ev ∈ (attempt to_ msg name e w).events, ev.gatewayName = some name) ∧
    (∀ err, (attempt to_ msg name e w).ret = Attempt.failed err →
      (∀ ev ∈ (attempt to_ msg name e w).events, ev.isSendOk = false) ∧
      FailureSeen (attempt to_ msg name e w).events name err) ∧
    ((attempt to_ msg name e w).ret = Attempt.panicked →
      ∀ ev ∈ (attempt to_ msg name e w).events, ev.isSendOk = false) ∧
    (∀ resp, (attempt to_ msg name e w).ret = Attempt.succeeded resp →
      ∃ p evs, (attempt to_ msg name e w).events = evs ++ [Event.send name p resp none] ∧
        ∀ ev ∈ evs, ev.isSendOk = false) := by
  have hg := Gateway_events e name w
  have hga := Gateway_events_attempted e name w
  have hgn : ∀ ev ∈ (e.Gateway name w).events, ev.gatewayName = some name := by
    intro ev hev
    obtain ⟨cfg, gw, err, rfl⟩ := hg ev hev
    rfl
  have hgs : ∀ ev ∈ (e.Gateway name w).events, ev.isSendOk = false := by
    intro ev hev
    obtain ⟨cfg, gw, err, rfl⟩ := hg ev hev
    rfl
  unfold attempt
  dsimp only
  split
  · rename_i err herr
    refine ⟨?_, ?_, ?_, ?_, ?_⟩
    · simp [attempted_append, hga, attempted]
    · intro ev hev
      rcases List.mem_append.mp hev with h | h
      · exact hgn ev h
      · simp at h; subst h; rfl
    · intro err' h'
      simp only [Attempt.failed.injEq] at h'
      subst h'
      refine ⟨?_, Or.inl ⟨(e.Gateway name w).ret.1.map (·.ptr), ?_⟩⟩
      · intro ev hev
        rcases List.mem_append.mp hev with h | h
        · exact hgs ev h
        · simp at h; subst h; rfl
      · rw [herr]; simp
    · intro h'; cases h'
    · intro resp h'; cases h'
  · split
    · refine ⟨?_, ?_, ?_, ?_, ?_⟩
      · simp [attempted_append, hga, attempted]
      · intro ev hev
        rcases List.mem_append.mp hev with h | h
        · exact hgn ev h
        · simp at h; subst h; rfl
      · intro err' h'; cases h'
      · intro _ ev hev
        rcases List.mem_append.mp hev with h | h
        · exact hgs ev h
        · simp at h; subst h; rfl
      · intro resp h'; cases h'
    · rename_i gw hgw
      by_cases hp : gw.SendPanics to_ msg (e.Gateway name w).world = true
      · rw [if_pos hp]
        refine ⟨?_, ?_, ?_, ?_, ?_⟩
        · simp [attempted_append, hga, attempted]
        · intro ev hev
          rcases List.mem_append.mp hev with h | h
          · exact hgn ev h
          · simp at h; subst h; rfl
        · intro err' h'; cases h'
        · intro _ ev hev
          rcases List.mem_append.mp hev with h | h
          · exact hgs ev h
          · simp at h; subst h; rfl
        · intro resp h'; cases h'
      rw [if_neg hp]
      split
      · rename_i err herr
        refine ⟨?_, ?_, ?_, ?_, ?_⟩
        · simp [attempted_append, hga, attempted]
        · intro ev hev
          simp only [List.mem_append, List.mem_singleton] at hev
          rcases hev with (h | h) | h
          · exact hgn ev h
          · subst h; rfl
          · subst h; rfl
        · intro err' h'
          simp only [Attempt.failed.injEq] at h'
          subst h'
          refine ⟨?_, Or.inr ⟨gw.ptr, (gw.Send to_ msg (e.Gateway name w).world).1.1, ?_⟩⟩
          · intro ev hev
            simp only [List.mem_append, List.mem_singleton] at hev
            rcases hev with (h | h) | h
            · exact hgs ev h
            · subst h; rfl
            · subst h; rw [herr]; rfl
          · rw [herr]; simp
        · intro h'; cases h'
        · intro resp h'; cases h'
      · rename_i herr
        refine ⟨?_, ?_, ?_, ?_, ?_⟩
        · simp [attempted_append, hga, attempted]
        · intro ev hev
          simp only [List.mem_append, List.mem_singleton] at hev
          rcases hev with (h | h) | h
          · exact hgn ev h
          · subst h; rfl
          · subst h; rfl
        · intro err' h'; cases h'
        · intro h'; cases h'
        · intro resp h'
          simp only [Attempt.succeeded.injEq] at h'
          subst h'
          refine ⟨gw.ptr, (e.Gateway name w).events ++
            [Event.resolve name ((e.Gateway name w).ret.1.map (·.ptr)) (e.Gateway name w).ret.2],
            ?_, ?_⟩
          · rw [herr]
          · intro ev hev
            rcases List.mem_append.mp hev with h | h
            · exact hgs ev h
            · simp at h; subst h; rfl

end easysms

namespace easysms

theorem FailureSeen_append_left {a : List Event} (b : List Event) {name : String}
    {err : GoError} (h : FailureSeen a name err) : FailureSeen (a ++ b) name err := by
  rcases h with ⟨gw, h⟩ | ⟨p, resp, h⟩
  · exact Or.inl ⟨gw, List.mem_append_left _ h⟩
  · exact Or.inr ⟨p, resp, List.mem_append_left _ h⟩

theorem FailureSeen_append_right (a : List Event) {b : List Event} {name : String}
    {err : GoError} (h : FailureSeen b name err) : FailureSeen (a ++ b) name err := by
  rcases h with ⟨gw, h⟩ | ⟨p, resp, h⟩
  · exact Or.inl ⟨gw, List.mem_append_right _ h⟩
  · exact Or.inr ⟨p, resp, List.mem_append_right _ h⟩

theorem FailedRun_nil (v : SendVars) : FailedRun [] v v [] := by
  refine ⟨rfl, ?_, ?_, rfl, ?_, ?_, fun _ => ⟨rfl, rfl⟩⟩
  · intro ev h; simp at h
  · intro ev h; simp at h
  · intro k; simp
  · intro k r h; exact Or.inr h

/-- A failed iteration on `a` followed by a failed run over `pre` is a failed run over
`a :: pre`. -/
theorem FailedRun_cons (a : String) (err : GoError) (pre : List String)
    (v v' : SendVars) (evs1 evs : List Event)
    (h1 : attempted evs1 = [a])
    (h2 : ∀ ev ∈ evs1, ev.gatewayName = some a)
    (h3 : ∀ ev ∈ evs1, ev.isSendOk = false)
    (h4 : FailureSeen evs1 a err)
    (h : FailedRun pre
      { v with results := mapSet v.results a (failureResult a err), lastErr := some err }
      v' evs) :
    FailedRun (a :: pre) v v' (evs1 ++ evs) := by
  obtain ⟨ha, hs, hn, hsucc, hk, hent, _⟩ := h
  refine ⟨?_, ?_, ?_, hsucc, ?_, ?_, ?_⟩
  · rw [attempted_append, h1, ha]; rfl
  · intro ev hev
    rcases List.mem_append.mp hev with h | h
    · exact h3 ev h
    · exact hs ev h
  · intro ev hev
    rcases List.mem_append.mp hev with h | h
    · exact ⟨a, List.mem_cons_self _ _, h2 ev h⟩
    · obtain ⟨m, hm, hm'⟩ := hn ev h
      exact ⟨m, List.mem_cons_of_mem _ hm, hm'⟩
  · intro k
    rw [hk k]
    dsimp only
    rw [mem_mapKeys_mapSet, List.mem_cons]
    tauto
  · intro k r hr
    rcases hent k r hr with ⟨hg, hst, hd, err', he, hf⟩ | hold
    · exact Or.inl ⟨hg, hst, hd, err', he, FailureSeen_append_right _ hf⟩
    · dsimp only at hold
      by_cases hka : k = a
      · subst hka
        rw [mapGet_mapSet_same] at hold
        cases hold
        exact Or.inl ⟨rfl, rfl, rfl, err, rfl, FailureSeen_append_left _ h4⟩
      · rw [mapGet_mapSet_ne _ _ _ _ hka] at hold
        exact Or.inr hold
  · intro h; exact absurd h (List.cons_ne_nil _ _)

/-- Every run of the loop is a run of failures over a prefix `pre` of the names, after
which either no name is left, or the next name does not fail: its `Send` succeeds, or
the call panics. -/
theorem sendLoop_shape {ω : Type} (to_ : message.PhoneNumber) (msg : message.Message) :
    ∀ (names : List String) (e : EasySms ω) (w : ω) (v : SendVars),
      ∃ (pre rest : List String) (e' : EasySms ω) (w' : ω) (v' : SendVars)
        (evs : List Event),
        names = pre ++ rest ∧
        sendLoop to_ msg names e w v = (sendLoop to_ msg rest e' w' v').after evs ∧
        FailedRun pre v v' evs ∧
        (rest = [] ∨ ∃ n post, rest = n :: post ∧
          ∀ err, (attempt to_ msg n e' w').ret ≠ Attempt.failed err) := by
  intro names
  induction names with
  | nil =>
    intro e w v
    exact ⟨[], [], e, w, v, [], rfl, by simp [Step.after], FailedRun_nil v, Or.inl rfl⟩
  | cons a names ih =>
    intro e w v
    by_cases hf : ∃ err, (attempt to_ msg a e w).ret = Attempt.failed err
    · obtain ⟨err, herr⟩ := hf
      obtain ⟨pre, rest, e', w', v', evs, hnames, heq, hrun, hrest⟩ :=
        ih (attempt to_ msg a e w).sms (attempt to_ msg a e w).world
          { v with results := mapSet v.results a (failureResult a err), lastErr := some err }
      obtain ⟨h1, h2, h3, _, _⟩ := attempt_events to_ msg a e w
      obtain ⟨h3a, h3b⟩ := h3 err herr
      refine ⟨a :: pre, rest, e', w', v', (attempt to_ msg a e w).events ++ evs,
        ?_, ?_, FailedRun_cons a err pre v v' _ evs h1 h2 h3a h3b hrun, hrest⟩
      · rw [hnames]; rfl
      · rw [sendLoop_cons, herr]
        dsimp only
        rw [heq, after_after]
    · refine ⟨[], a :: names, e, w, v, [], rfl, by simp [Step.after], FailedRun_nil v,
        Or.inr ⟨a, names, rfl, ?_⟩⟩
      intro err herr
      exact hf ⟨err, herr⟩

end easysms

namespace easysms

/-- Every `Send` with at least one candidate is a run of failures over a prefix `pre` of
the ordered names, ended in one of three ways: no name is left and the call returns the
aggregate error; the next name `n` succeeds and the call returns a nil error, the
successful `Send` being its last event; or the call panics at the next name. -/
theorem Send_shape {ω : Type} (e : EasySms ω) (to_ : message.PhoneNumber)
    (msg : message.Message) (w : ω) (h : candidates e msg ≠ []) :
    ∃ (pre rest : List String) (v' : SendVars) (evs : List Event),
      (e.strategy.Apply (candidates e msg) w).1 = pre ++ rest ∧
      FailedRun pre { results := [], lastErr := none, success := false } v' evs ∧
      ((rest = [] ∧
          (e.Send to_ msg w).ret = Outcome.returned (some v'.results,
            some (GoError.errorString ("all gateways failed: " ++ fmtV v'.lastErr))) ∧
          (e.Send to_ msg w).events = Event.apply (candidates e msg) :: evs) ∨
       (∃ n post p resp evs2, rest = n :: post ∧
          (e.Send to_ msg w).ret =
            Outcome.returned (some (mapSet v'.results n (successResult n resp)), none) ∧
          (e.Send to_ msg w).events =
            Event.apply (candidates e msg) :: (evs ++ (evs2 ++ [Event.send n p resp none])) ∧
          attempted evs2 = [n] ∧
          ∀ ev ∈ evs2, ev.gatewayName = some n ∧ ev.isSendOk = false) ∨
       (∃ n post evs2, rest = n :: post ∧
          (e.Send to_ msg w).ret = Outcome.panicked ∧
          (e.Send to_ msg w).events = Event.apply (candidates e msg) :: (evs ++ evs2) ∧
          attempted evs2 = [n] ∧
          ∀ ev ∈ evs2, ev.gatewayName = some n ∧ ev.isSendOk = false)) := by
  have hlen : ¬ (candidates e msg).length = 0 := fun h0 => h (List.length_eq_zero.mp h0)
  obtain ⟨pre, rest, e', w', v', evs, hnames, heq, hrun, hrest⟩ :=
    sendLoop_shape to_ msg (e.strategy.Apply (candidates e msg) w).1 e
      (e.strategy.Apply (candidates e msg) w).2
      { results := [], lastErr := none, success := false }
  have hsucc : v'.success = false := hrun.2.2.2.1
  refine ⟨pre, rest, v', evs, hnames, hrun, ?_⟩
  rcases hrest with hnil | ⟨n, post, hcons, hnf⟩
  · left
    subst hnil
    unfold EasySms.Send
    simp only [hlen, if_false]
    rw [heq]
    simp [sendLoop, Step.after, hsucc]
  · right
    obtain ⟨h1, h2, _, h4, h5⟩ := attempt_events to_ msg n e' w'
    cases hret : (attempt to_ msg n e' w').ret with
    | failed err => exact absurd hret (hnf err)
    | succeeded resp =>
      left
      obtain ⟨p, evs2, hev, hns⟩ := h5 resp hret
      refine ⟨n, post, p, resp, evs2, hcons, ?_, ?_, ?_, ?_⟩
      · unfold EasySms.Send
        simp only [hlen, if_false]
        rw [heq, hcons, sendLoop_cons, hret]
        simp [Step.after]
      · unfold EasySms.Send
        simp only [hlen, if_false]
        rw [heq, hcons, sendLoop_cons, hret]
        simp [Step.after, hev]
      · rw [hev, attempted_append] at h1
        simpa [attempted] using h1
      · intro ev hev'
        refine ⟨h2 ev ?_, hns ev hev'⟩
        rw [hev]
        exact List.mem_append_left _ hev'
    | panicked =>
      right
      refine ⟨n, post, (attempt to_ msg n e' w').events, hcons, ?_, ?_, h1, ?_⟩
      · unfold EasySms.Send
        simp only [hlen, if_false]
        rw [heq, hcons, sendLoop_cons, hret]
        simp [Step.after]
      · unfold EasySms.Send
        simp only [hlen, if_false]
        rw [heq, hcons, sendLoop_cons, hret]
        simp [Step.after]
      · intro ev hev'
        exact ⟨h2 ev hev', h4 hret ev hev'⟩

end easysms

namespace easysms

/-! ## What a call of `Send` does -/

theorem Send_of_no_candidates {ω : Type} (e : EasySms ω) (to_ : message.PhoneNumber)
    (msg : message.Message) (w : ω) (h : candidates e msg = []) :
    e.Send to_ msg w =
      { ret := Outcome.returned (none, some (GoError.errorString "no gateway available")),
        sms := e, world := w, events := [] } := by
  unfold EasySms.Send
  simp [h]

theorem getLast?_cons_append_singleton {α : Type} (a x : α) (l l' : List α) :
    (a :: (l ++ (l' ++ [x]))).getLast? = some x := by
  have h : a :: (l ++ (l' ++ [x])) = (a :: (l ++ l')) ++ [x] := by simp
  rw [h, List.getLast?_append]
  simp

/-- C2. Stop at first success: once the `Send` of a gateway resolved for `n` has returned
a nil error, `n` stands at a position of the ordered list, say after `pre` and before
`post`; that `Send` is the last event of the call, the names resolved are exactly `pre`
and `n`, every constructor or gateway invoked was invoked for one of them, the call
returns a nil error, and the results map has entries for `pre` and `n` only: none for a
name of `post` when the ordered names are pairwise distinct, and only the success entry
of `n` when `n` is the first candidate. -/
theorem C2_stop_at_first_success {ω : Type} (e : EasySms ω) (to_ : message.PhoneNumber)
    (msg : message.Message) (w : ω) (n : String) (p : Nat) (resp : GoAny)
    (h : Event.send n p resp none ∈ (e.Send to_ msg w).events) :
    ∃ pre post results,
      (e.strategy.Apply (candidates e msg) w).1 = pre ++ n :: post ∧
      (e.Send to_ msg w).ret = Outcome.returned (some results, none) ∧
      (e.Send to_ msg w).events.getLast? = some (Event.send n p resp none) ∧
      attempted (e.Send to_ msg w).events = pre ++ [n] ∧
      (∀ ev ∈ (e.Send to_ msg w).events, ∀ m, ev.gatewayName = some m → m ∈ pre ++ [n]) ∧
      mapGet results n = some (successResult n resp) ∧
      (∀ k, k ∈ mapKeys results ↔ k ∈ pre ++ [n]) ∧
      ((pre ++ n :: post).Nodup → ∀ m ∈ post, mapGet results m = none) ∧
      (pre = [] → results = [(n, successResult n resp)]) := by
  have hne : candidates e msg ≠ [] := by
    intro h0
    rw [Send_of_no_candidates e to_ msg w h0] at h
    simp at h
  obtain ⟨pre, rest, v', evs, hnames, hrun, hcase⟩ := Send_shape e to_ msg w hne
  obtain ⟨hatt, hnok, hnm, _, hkeys, _, hnil⟩ := hrun
  rcases hcase with ⟨_, _, hev⟩ | ⟨n', post, p', resp', evs2, hrest, hret, hev, hatt2, hev2⟩ |
    ⟨n', post, evs2, _, _, hev, _, hev2⟩
  · rw [hev] at h
    rcases List.mem_cons.mp h with h | h
    · cases h
    · have := hnok _ h
      simp [Event.isSendOk] at this
  · have hlast : Event.send n p resp none = Event.send n' p' resp' none := by
      rw [hev] at h
      rcases List.mem_cons.mp h with h | h
      · cases h
      · rcases List.mem_append.mp h with h | h
        · have := hnok _ h
          simp [Event.isSendOk] at this
        · rcases List.mem_append.mp h with h | h
          · have := (hev2 _ h).2
            simp [Event.isSendOk] at this
          · simpa using h
    simp only [Event.send.injEq, and_true] at hlast
    obtain ⟨hn, hp, hr⟩ := hlast
    subst hn hp hr
    have hkeys' : ∀ k, k ∈ mapKeys (mapSet v'.results n (successResult n resp)) ↔
        k ∈ pre ++ [n] := by
      intro k
      rw [mem_mapKeys_mapSet, hkeys k]
      simp [mapKeys]
      tauto
    refine ⟨pre, post, mapSet v'.results n (successResult n resp), ?_, hret, ?_, ?_, ?_,
      mapGet_mapSet_same _ _ _, hkeys', ?_, ?_⟩
    · rw [hnames, hrest]
    · rw [hev]
      exact getLast?_cons_append_singleton _ _ _ _
    · rw [hev]
      simp [attempted, attempted_append, hatt, hatt2]
    · intro ev hev' m hm
      rw [hev] at hev'
      rcases List.mem_cons.mp hev' with h' | h'
      · subst h'; cases hm
      · rcases List.mem_append.mp h' with h' | h'
        · obtain ⟨m', hm', hm''⟩ := hnm ev h'
          rw [hm] at hm''
          cases hm''
          exact List.mem_append_left _ hm'
        · rcases List.mem_append.mp h' with h' | h'
          · have := (hev2 ev h').1
            rw [hm] at this
            cases this
            simp
          · simp at h'
            subst h'
            cases hm
            simp
    · intro hnd m hm
      rw [mapGet_eq_none_iff, hkeys']
      intro hmem
      rcases List.mem_append.mp hmem with h' | h'
      · exact (List.nodup_append.mp hnd).2.2 h' (List.mem_cons_of_mem _ hm)
      · simp at h'
        subst h'
        exact (List.nodup_cons.mp (List.nodup_append.mp hnd).2.1).1 hm
    · intro hpre
      obtain ⟨hv, _⟩ := hnil hpre
      rw [hv]
      rfl
  · rw [hev] at h
    rcases List.mem_cons.mp h with h | h
    · cases h
    · rcases List.mem_append.mp h with h | h
      · have := hnok _ h
        simp [Event.isSendOk] at this
      · have := (hev2 _ h).2
        simp [Event.isSendOk] at this

/-- C2 at the sample engine: the `Send` of the instance built for `c` succeeds. -/
theorem C2_stop_at_first_success_witness :
    Event.send "c" 0 (GoAny.string "sent") none ∈
        (fallbackEngine.Send samplePhone message.NewMessage 0).events ∧
    ∃ pre post results,
      (fallbackEngine.strategy.Apply (candidates fallbackEngine message.NewMessage) 0).1 =
        pre ++ "c" :: post ∧
      (fallbackEngine.Send samplePhone message.NewMessage 0).ret =
        Outcome.returned (some results, none) ∧
      (fallbackEngine.Send samplePhone message.NewMessage 0).events.getLast? =
        some (Event.send "c" 0 (GoAny.string "sent") none) ∧
      attempted (fallbackEngine.Send samplePhone message.NewMessage 0).events = pre ++ ["c"] ∧
      (∀ ev ∈ (fallbackEngine.Send samplePhone message.NewMessage 0).events,
        ∀ m, ev.gatewayName = some m → m ∈ pre ++ ["c"]) ∧
      mapGet results "c" = some (successResult "c" (GoAny.string "sent")) ∧
      (∀ k, k ∈ mapKeys results ↔ k ∈ pre ++ ["c"]) ∧
      ((pre ++ "c" :: post).Nodup → ∀ m ∈ post, mapGet results m = none) ∧
      (pre = [] → results = [("c", successResult "c" (GoAny.string "sent"))]) :=
  ⟨by decide,
   C2_stop_at_first_success fallbackEngine samplePhone message.NewMessage 0 "c" 0
     (GoAny.string "sent") (by decide)⟩

/-- C4. Empty candidates: when neither the message nor the configuration names a
gateway, `Send` returns no results and the error `no gateway available`, makes no call to
the strategy, to a constructor or to a gateway, and leaves the engine (its cache
included) and the world as they were. -/
theorem C4_no_gateway_available {ω : Type} (e : EasySms ω) (to_ : message.PhoneNumber)
    (msg : message.Message) (w : ω)
    (hmsg : msg.GetGateways = []) (hdefault : e.config.DefaultGateways = []) :
    (e.Send to_ msg w).ret =
        Outcome.returned (none, some (GoError.errorString "no gateway available")) ∧
      (GoError.errorString "no gateway available").Error = "no gateway available" ∧
      (e.Send to_ msg w).events = [] ∧
      (e.Send to_ msg w).sms = e ∧
      (e.Send to_ msg w).sms.gateways = e.gateways ∧
      (e.Send to_ msg w).world = w := by
  have h : candidates e msg = [] := by
    unfold candidates
    rw [hmsg]
    simpa using hdefault
  rw [Send_of_no_candidates e to_ msg w h]
  exact ⟨rfl, rfl, rfl, rfl, rfl, rfl⟩

/-- C4 at an engine without defaults that has a cached gateway and a constructor. -/
theorem C4_no_gateway_available_witness :
    (noDefaultsEngine.Send samplePhone message.NewMessage 5).ret =
        Outcome.returned (none, some (GoError.errorString "no gateway available")) ∧
      (GoError.errorString "no gateway available").Error = "no gateway available" ∧
      (noDefaultsEngine.Send samplePhone message.NewMessage 5).events = [] ∧
      (noDefaultsEngine.Send samplePhone message.NewMessage 5).sms = noDefaultsEngine ∧
      (noDefaultsEngine.Send samplePhone message.NewMessage 5).sms.gateways =
        noDefaultsEngine.gateways ∧
      (noDefaultsEngine.Send samplePhone message.NewMessage 5).world = 5 :=
  C4_no_gateway_available noDefaultsEngine samplePhone message.NewMessage 5 rfl rfl

end easysms

namespace easysms

theorem applied_append (a b : List Event) : applied (a ++ b) = applied a ++ applied b := by
  induction a with
  | nil => rfl
  | cons ev a ih => cases ev <;> simp [applied, ih]

/-- Events that are about a gateway name are no invocations of the strategy. -/
theorem applied_eq_nil_of_gatewayName (evs : List Event)
    (h : ∀ ev ∈ evs, ∃ m, ev.gatewayName = some m) : applied evs = [] := by
  induction evs with
  | nil => rfl
  | cons ev evs ih =>
    obtain ⟨m, hm⟩ := h ev (List.mem_cons_self _ _)
    have ih' := ih (fun ev' h' => h ev' (List.mem_cons_of_mem _ h'))
    cases ev with
    | apply gs => cases hm
    | create _ _ _ _ => simpa [applied] using ih'
    | resolve _ _ _ => simpa [applied] using ih'
    | send _ _ _ _ => simpa [applied] using ih'

/-- The strategy is invoked once, with the candidate list, and every other event of the
call is about a name of the list the strategy returned. -/
theorem Send_events_names {ω : Type} (e : EasySms ω) (to_ : message.PhoneNumber)
    (msg : message.Message) (w : ω) (h : candidates e msg ≠ []) :
    ∃ evs, (e.Send to_ msg w).events = Event.apply (candidates e msg) :: evs ∧
      ∀ ev ∈ evs, ∃ m ∈ (e.strategy.Apply (candidates e msg) w).1,
        ev.gatewayName = some m := by
  obtain ⟨pre, rest, v', evs, hnames, hrun, hcase⟩ := Send_shape e to_ msg w h
  obtain ⟨_, _, hnm, _⟩ := hrun
  have hpre : ∀ ev ∈ evs, ∃ m ∈ (e.strategy.Apply (candidates e msg) w).1,
      ev.gatewayName = some m := by
    intro ev hev
    obtain ⟨m, hm, hm'⟩ := hnm ev hev
    exact ⟨m, by rw [hnames]; exact List.mem_append_left _ hm, hm'⟩
  rcases hcase with ⟨_, _, hev⟩ | ⟨n, post, p, resp, evs2, hrest, _, hev, _, hev2⟩ |
    ⟨n, post, evs2, hrest, _, hev, _, hev2⟩
  · exact ⟨evs, hev, hpre⟩
  · have hn : n ∈ (e.strategy.Apply (candidates e msg) w).1 := by
      rw [hnames, hrest]; simp
    refine ⟨_, hev, ?_⟩
    intro ev hev'
    rcases List.mem_append.mp hev' with h' | h'
    · exact hpre ev h'
    · rcases List.mem_append.mp h' with h' | h'
      · exact ⟨n, hn, (hev2 ev h').1⟩
      · simp at h'
        subst h'
        exact ⟨n, hn, rfl⟩
  · have hn : n ∈ (e.strategy.Apply (candidates e msg) w).1 := by
      rw [hnames, hrest]; simp
    refine ⟨_, hev, ?_⟩
    intro ev hev'
    rcases List.mem_append.mp hev' with h' | h'
    · exact hpre ev h'
    · exact ⟨n, hn, (hev2 ev h').1⟩

/-- C5. The candidate list: the strategy is invoked once per call that has a candidate,
and the list handed to it is the message's own gateway list when that list is non-empty,
the configured default list otherwise. With a non-empty message list and a strategy that
returns only names of its input, every gateway resolved, constructed or invoked is named
by the message: a gateway that appears only in the defaults is not attempted. -/
theorem C5_candidate_list {ω : Type} (e : EasySms ω) (to_ : message.PhoneNumber)
    (msg : message.Message) (w : ω) :
    (msg.GetGateways ≠ [] →
      applied (e.Send to_ msg w).events = [msg.GetGateways] ∧
      (e.Send to_ msg w).events.head? = some (Event.apply msg.GetGateways)) ∧
    (msg.GetGateways = [] → e.config.DefaultGateways ≠ [] →
      applied (e.Send to_ msg w).events = [e.config.DefaultGateways] ∧
      (e.Send to_ msg w).events.head? = some (Event.apply e.config.DefaultGateways)) ∧
    (msg.GetGateways ≠ [] →
      (∀ x ∈ (e.strategy.Apply msg.GetGateways w).1, x ∈ msg.GetGateways) →
      ∀ ev ∈ (e.Send to_ msg w).events, ∀ m, ev.gatewayName = some m →
        m ∈ msg.GetGateways) := by
  have key : ∀ c, candidates e msg = c → c ≠ [] →
      applied (e.Send to_ msg w).events = [c] ∧
      (e.Send to_ msg w).events.head? = some (Event.apply c) := by
    intro c hc hne
    subst hc
    obtain ⟨evs, hev, hnames⟩ := Send_events_names e to_ msg w hne
    rw [hev]
    refine ⟨?_, rfl⟩
    have := applied_eq_nil_of_gatewayName evs
      (fun ev h' => by obtain ⟨m, _, hm⟩ := hnames ev h'; exact ⟨m, hm⟩)
    simp [applied, this]
  have hmsg : msg.GetGateways ≠ [] → candidates e msg = msg.GetGateways := by
    intro hne
    unfold candidates
    simp [hne]
  have hdef : msg.GetGateways = [] → candidates e msg = e.config.DefaultGateways := by
    intro h0
    unfold candidates
    simp [h0]
  refine ⟨fun hne => key _ (hmsg hne) hne, fun h0 hne => key _ (hdef h0) hne, ?_⟩
  intro hne hsub ev hev m hm
  have hc := hmsg hne
  obtain ⟨evs, hev', hnames⟩ := Send_events_names e to_ msg w (by rw [hc]; exact hne)
  rw [hev'] at hev
  rcases List.mem_cons.mp hev with h' | h'
  · subst h'; cases hm
  · obtain ⟨m', hm', hm''⟩ := hnames ev h'
    rw [hm] at hm''
    cases hm''
    rw [hc] at hm'
    exact hsub m hm'

/-- C5 at the sample engine with defaults `a, b, c` and a message naming `c, b`: the
strategy receives `c, b`, and `a`, named by the defaults only, is not attempted. -/
theorem C5_candidate_list_witness :
    (applied (fallbackEngine.Send samplePhone pickyMessage 0).events =
        [pickyMessage.GetGateways] ∧
      (fallbackEngine.Send samplePhone pickyMessage 0).events.head? =
        some (Event.apply pickyMessage.GetGateways)) ∧
    (∀ ev ∈ (fallbackEngine.Send samplePhone pickyMessage 0).events,
      ∀ m, ev.gatewayName = some m → m ∈ pickyMessage.GetGateways) ∧
    "a" ∈ fallbackEngine.config.DefaultGateways ∧ "a" ∉ pickyMessage.GetGateways :=
  ⟨(C5_candidate_list fallbackEngine samplePhone pickyMessage 0).1 (by decide),
   (C5_candidate_list fallbackEngine samplePhone pickyMessage 0).2.2 (by decide)
     (fun _ hx => hx),
   by decide, by decide⟩

end easysms

namespace easysms

theorem FailureSeen_cons (ev : Event) {evs : List Event} {name : String} {err : GoError}
    (h : FailureSeen evs name err) : FailureSeen (ev :: evs) name err :=
  FailureSeen_append_right [ev] h

/-- C6. Result entries: in the results map returned by `Send`, the `Gateway` field of an
entry equals its key; a success entry carries as `Data` the very value returned by the
`Send` of the gateway resolved for that key, and a nil `Error`; a failure entry carries as
`Error` the very error returned by the resolution of that key or by the `Send` of its
gateway, and nil `Data`. In the scenario of the specification (defaults
`first, second`, `first` failing with `boom`, `second` returning `{"id":"42"}`) the call
returns `{first: failure(boom), second: success({"id":"42"})}` and a nil error. -/
theorem C6_result_entries :
    (∀ (ω : Type) (e : EasySms ω) (to_ : message.PhoneNumber) (msg : message.Message)
        (w : ω) (results : GoMap Result) (err : Option GoError),
      (e.Send to_ msg w).ret = Outcome.returned (some results, err) →
      ∀ (k : String) (r : Result), mapGet results k = some r →
        r.Gateway = k ∧
        ((r.Status = StatusSuccess ∧ r.Error = none ∧
            ∃ p, Event.send k p r.Data none ∈ (e.Send to_ msg w).events) ∨
         (r.Status = StatusFailure ∧ r.Data = GoAny.nil ∧
            ∃ err', r.Error = some err' ∧ FailureSeen (e.Send to_ msg w).events k err'))) ∧
    (scenarioEngine.Send samplePhone message.NewMessage 0).ret =
      Outcome.returned
        (some [("first",
                 { Gateway := "first", Status := "failure", Data := GoAny.nil,
                   Error := some (GoError.errorString "boom") }),
               ("second",
                 { Gateway := "second", Status := "success",
                   Data := GoAny.mapStringString [("id", "42")], Error := none })],
         none) := by
  refine ⟨?_, by decide⟩
  intro ω e to_ msg w results err hret k r hget
  have hne : candidates e msg ≠ [] := by
    intro h0
    rw [Send_of_no_candidates e to_ msg w h0] at hret
    simp at hret
  obtain ⟨pre, rest, v', evs, hnames, hrun, hcase⟩ := Send_shape e to_ msg w hne
  obtain ⟨_, _, _, _, _, hent, _⟩ := hrun
  have hfailed : ∀ r', mapGet v'.results k = some r' → ∀ evs', 
      (∀ err', FailureSeen evs k err' → FailureSeen evs' k err') →
      r'.Gateway = k ∧
        ((r'.Status = StatusSuccess ∧ r'.Error = none ∧
            ∃ p, Event.send k p r'.Data none ∈ evs') ∨
         (r'.Status = StatusFailure ∧ r'.Data = GoAny.nil ∧
            ∃ err', r'.Error = some err' ∧ FailureSeen evs' k err')) := by
    intro r' hr' evs' hmono
    rcases hent k r' hr' with ⟨hg, hs, hd, err', he, hf⟩ | hold
    · exact ⟨hg, Or.inr ⟨hs, hd, err', he, hmono err' hf⟩⟩
    · simp [mapGet] at hold
  rcases hcase with ⟨_, hret', hev⟩ | ⟨n, post, p, resp, evs2, _, hret', hev, _, _⟩ |
    ⟨n, post, evs2, _, hret', _⟩
  · rw [hret'] at hret
    simp only [Outcome.returned.injEq, Prod.mk.injEq, Option.some.injEq] at hret
    obtain ⟨hres, _⟩ := hret
    subst hres
    rw [hev]
    exact hfailed r hget _ (fun _ hf => FailureSeen_cons _ hf)
  · rw [hret'] at hret
    simp only [Outcome.returned.injEq, Prod.mk.injEq, Option.some.injEq] at hret
    obtain ⟨hres, _⟩ := hret
    subst hres
    rw [hev]
    by_cases hkn : k = n
    · subst hkn
      rw [mapGet_mapSet_same] at hget
      cases hget
      refine ⟨rfl, Or.inl ⟨rfl, rfl, p, ?_⟩⟩
      simp [successResult]
    · rw [mapGet_mapSet_ne _ _ _ _ hkn] at hget
      exact hfailed r hget _
        (fun _ hf => FailureSeen_cons _ (FailureSeen_append_left _ hf))
  · rw [hret'] at hret
    cases hret

/-- C6 at the scenario of the specification: the entry of `second`. -/
theorem C6_result_entries_witness :
    mapGet [("first", failureResult "first" (GoError.errorString "boom")),
            ("second", successResult "second" (GoAny.mapStringString [("id", "42")]))]
        "second" =
      some (successResult "second" (GoAny.mapStringString [("id", "42")])) ∧
    ((successResult "second" (GoAny.mapStringString [("id", "42")])).Gateway = "second" ∧
      (((successResult "second" (GoAny.mapStringString [("id", "42")])).Status =
            StatusSuccess ∧
          (successResult "second" (GoAny.mapStringString [("id", "42")])).Error = none ∧
          ∃ p, Event.send "second" p
              (successResult "second" (GoAny.mapStringString [("id", "42")])).Data none ∈
            (scenarioEngine.Send samplePhone message.NewMessage 0).events) ∨
       ((successResult "second" (GoAny.mapStringString [("id", "42")])).Status =
            StatusFailure ∧
          (successResult "second" (GoAny.mapStringString [("id", "42")])).Data = GoAny.nil ∧
          ∃ err', (successResult "second" (GoAny.mapStringString [("id", "42")])).Error =
              some err' ∧
            FailureSeen (scenarioEngine.Send samplePhone message.NewMessage 0).events
              "second" err'))) :=
  ⟨by decide,
   C6_result_entries.1 Nat scenarioEngine samplePhone message.NewMessage 0
     [("first", failureResult "first" (GoError.errorString "boom")),
      ("second", successResult "second" (GoAny.mapStringString [("id", "42")]))]
     none C6_result_entries.2 "second"
     (successResult "second" (GoAny.mapStringString [("id", "42")])) (by decide)⟩

end easysms

namespace easysms

/-! ## Resolving a gateway -/

/-- C8. Cache hit: when `name` is in the instance cache, `Gateway(name)` returns the
cached instance and a nil error, invokes no constructor, and leaves the engine (cache,
configuration, registry) and the world as they were, whether or not `name` has a
configuration entry or a registered constructor. -/
theorem C8_cached_gateway {ω : Type} (e : EasySms ω) (name : String) (w : ω)
    (gw : Option (gateway.Gateway ω)) (h : mapGet e.gateways name = some gw) :
    (e.Gateway name w).ret = (gw, none) ∧
      (e.Gateway name w).events = [] ∧
      (e.Gateway name w).sms = e ∧
      (e.Gateway name w).sms.gateways = e.gateways ∧
      (e.Gateway name w).sms.registry = e.registry ∧
      (e.Gateway name w).world = w := by
  unfold EasySms.Gateway
  rw [h]
  exact ⟨rfl, rfl, rfl, rfl, rfl, rfl⟩

/-- C8 at the sample engine: `b` is cached and has neither configuration nor
constructor. -/
theorem C8_cached_gateway_witness :
    (mapGet fallbackEngine.gateways "b" = some (some (failingGateway 7 "boom")) ∧
      mapGet fallbackEngine.config.GatewayConfigs "b" = none ∧
      fallbackEngine.registry.HasCreator "b" = false) ∧
    ((fallbackEngine.Gateway "b" 3).ret = (some (failingGateway 7 "boom"), none) ∧
      (fallbackEngine.Gateway "b" 3).events = [] ∧
      (fallbackEngine.Gateway "b" 3).sms = fallbackEngine ∧
      (fallbackEngine.Gateway "b" 3).sms.gateways = fallbackEngine.gateways ∧
      (fallbackEngine.Gateway "b" 3).sms.registry = fallbackEngine.registry ∧
      (fallbackEngine.Gateway "b" 3).world = 3) :=
  ⟨⟨rfl, rfl, rfl⟩,
   C8_cached_gateway fallbackEngine "b" 3 (some (failingGateway 7 "boom")) rfl⟩

/-- C9. No configuration: when `name` is not cached and has no configuration entry,
`Gateway(name)` returns no instance and the `GatewayError` with `GatewayName = name`,
`Operation = lookup` and cause `config not found`, whether or not a constructor is
registered for `name`; it invokes no constructor and changes nothing. -/
theorem C9_config_not_found {ω : Type} (e : EasySms ω) (name : String) (w : ω)
    (hcache : mapGet e.gateways name = none)
    (hconfig : mapGet e.config.GatewayConfigs name = none) :
    (e.Gateway name w).ret =
        (none, some (GoError.GatewayError name "lookup"
          (GoError.errorString "config not found"))) ∧
      (GoError.GatewayError name "lookup" (GoError.errorString "config not found")).Unwrap =
        some (GoError.errorString "config not found") ∧
      (GoError.errorString "config not found").Error = "config not found" ∧
      (e.Gateway name w).events = [] ∧
      (e.Gateway name w).sms = e ∧
      (e.Gateway name w).world = w := by
  unfold EasySms.Gateway
  rw [hcache, hconfig]
  exact ⟨rfl, rfl, rfl, rfl, rfl, rfl⟩

/-- C9 at the sample engine: `orphan` has a constructor and no configuration. -/
theorem C9_config_not_found_witness :
    lookupEngine.registry.HasCreator "orphan" = true ∧
    ((lookupEngine.Gateway "orphan" 0).ret =
        (none, some (GoError.GatewayError "orphan" "lookup"
          (GoError.errorString "config not found"))) ∧
      (GoError.GatewayError "orphan" "lookup"
          (GoError.errorString "config not found")).Unwrap =
        some (GoError.errorString "config not found") ∧
      (GoError.errorString "config not found").Error = "config not found" ∧
      (lookupEngine.Gateway "orphan" 0).events = [] ∧
      (lookupEngine.Gateway "orphan" 0).sms = lookupEngine ∧
      (lookupEngine.Gateway "orphan" 0).world = 0) :=
  ⟨rfl, C9_config_not_found lookupEngine "orphan" 0 rfl rfl⟩

/-- C10. No constructor: when `name` is not cached, has a configuration entry and no
constructor in the registry, `Gateway(name)` returns no instance and the `GatewayError`
with `GatewayName = name`, `Operation = lookup` and cause `gateway not found`; it
invokes no constructor and changes nothing. -/
theorem C10_gateway_not_found {ω : Type} (e : EasySms ω) (name : String) (w : ω)
    (cfg : GoMap GoAny)
    (hcache : mapGet e.gateways name = none)
    (hconfig : mapGet e.config.GatewayConfigs name = some cfg)
    (hcreator : e.registry.HasCreator name = false) :
    (e.Gateway name w).ret =
        (none, some (GoError.GatewayError name "lookup"
          (GoError.errorString "gateway not found"))) ∧
      (GoError.GatewayError name "lookup" (GoError.errorString "gateway not found")).Unwrap =
        some (GoError.errorString "gateway not found") ∧
      (GoError.errorString "gateway not found").Error = "gateway not found" ∧
      (e.Gateway name w).events = [] ∧
      (e.Gateway name w).sms = e ∧
      (e.Gateway name w).world = w := by
  unfold EasySms.Gateway
  rw [hcache, hconfig]
  simp only [hcreator]
  exact ⟨rfl, rfl, rfl, rfl, rfl, rfl⟩

/-- C10 at the sample engine: `configured` has a configuration and no constructor. -/
theorem C10_gateway_not_found_witness :
    (lookupEngine.Gateway "configured" 0).ret =
        (none, some (GoError.GatewayError "configured" "lookup"
          (GoError.errorString "gateway not found"))) ∧
      (GoError.GatewayError "configured" "lookup"
          (GoError.errorString "gateway not found")).Unwrap =
        some (GoError.errorString "gateway not found") ∧
      (GoError.errorString "gateway not found").Error = "gateway not found" ∧
      (lookupEngine.Gateway "configured" 0).events = [] ∧
      (lookupEngine.Gateway "configured" 0).sms = lookupEngine ∧
      (lookupEngine.Gateway "configured" 0).world = 0 :=
  C10_gateway_not_found lookupEngine "configured" 0 [("key", GoAny.string "value")]
    rfl rfl rfl

end easysms

namespace easysms

/-! ## Construction and registration -/

/-- C11. Constructor error: when `name` is not cached, has a configuration entry `cfg`
and a registered constructor that returns the error `err` for it, `Gateway(name)` returns
no instance and exactly `err`, neither wrapped nor replaced, so its message is the
constructor's message; the constructor was invoked once, with `cfg`, and the engine is
left as it was. -/
theorem C11_constructor_error {ω : Type} (e : EasySms ω) (name : String) (w : ω)
    (cfg : GoMap GoAny) (c : NewGatewayCreator ω) (err : GoError)
    (hcache : mapGet e.gateways name = none)
    (hconfig : mapGet e.config.GatewayConfigs name = some cfg)
    (hcreator : mapGet e.registry.creators name = some c)
    (herr : (c cfg w).1.2 = some err) :
    (e.Gateway name w).ret = (none, some err) ∧
      (e.Gateway name w).ret.2.map GoError.Error = some err.Error ∧
      (e.Gateway name w).events =
        [Event.create name cfg ((c cfg w).1.1.map (·.ptr)) (some err)] ∧
      (e.Gateway name w).sms = e ∧
      (e.Gateway name w).world = (c cfg w).2 := by
  have hhas : e.registry.HasCreator name = true := by
    simp [GatewayRegistry.HasCreator, hcreator]
  unfold EasySms.Gateway
  rw [hcache, hconfig]
  simp [hhas, GatewayRegistry.Create, hcreator, herr]

/-- C11 at the sample engine: the constructor of `failing_creator` fails with
`creation failed`. -/
theorem C11_constructor_error_witness :
    (creationEngine.Gateway "failing_creator" 0).ret =
        (none, some (GoError.errorString "creation failed")) ∧
      (creationEngine.Gateway "failing_creator" 0).ret.2.map GoError.Error =
        some (GoError.errorString "creation failed").Error ∧
      (creationEngine.Gateway "failing_creator" 0).events =
        [Event.create "failing_creator" [("key", GoAny.string "value")]
          ((failingCreator "creation failed" [("key", GoAny.string "value")] 0).1.1.map
            (·.ptr))
          (some (GoError.errorString "creation failed"))] ∧
      (creationEngine.Gateway "failing_creator" 0).sms = creationEngine ∧
      (creationEngine.Gateway "failing_creator" 0).world =
        (failingCreator "creation failed" [("key", GoAny.string "value")] 0).2 :=
  C11_constructor_error creationEngine "failing_creator" 0 [("key", GoAny.string "value")]
    (failingCreator "creation failed") (GoError.errorString "creation failed")
    rfl rfl rfl rfl

/-- C13. Registered instance: after `RegisterGateway(name, g)`, `Gateway(name)` returns
`g` and a nil error, with no call to a constructor and no change to engine or world,
whatever the configuration and the registry hold for `name`; the registration itself
leaves the cached instances of all other names, the registry and the configuration as
they were. -/
theorem C13_register_gateway {ω : Type} (e : EasySms ω) (name : String)
    (g : Option (gateway.Gateway ω)) (w : ω) :
    ((e.RegisterGateway name g).Gateway name w).ret = (g, none) ∧
      ((e.RegisterGateway name g).Gateway name w).events = [] ∧
      ((e.RegisterGateway name g).Gateway name w).sms = e.RegisterGateway name g ∧
      ((e.RegisterGateway name g).Gateway name w).world = w ∧
      (∀ k, k ≠ name → mapGet (e.RegisterGateway name g).gateways k = mapGet e.gateways k) ∧
      (e.RegisterGateway name g).registry = e.registry ∧
      (e.RegisterGateway name g).config = e.config := by
  have h : mapGet (e.RegisterGateway name g).gateways name = some g :=
    mapGet_mapSet_same _ _ _
  refine ⟨?_, ?_, ?_, ?_, ?_, rfl, rfl⟩
  · unfold EasySms.Gateway; rw [h]
  · unfold EasySms.Gateway; rw [h]
  · unfold EasySms.Gateway; rw [h]
  · unfold EasySms.Gateway; rw [h]
  · intro k hk
    exact mapGet_mapSet_ne _ _ _ _ hk

/-- The events of `n` calls of `Create` for a registered name: `n` invocations of its
constructor with the configuration given. -/
theorem createTimes_events {ω : Type} (r : GatewayRegistry ω) (name : String)
    (cfg : GoMap GoAny) (c : NewGatewayCreator ω)
    (hc : mapGet r.creators name = some c) :
    ∀ (n : Nat) (w : ω), (createTimes r name cfg n w).2.length = n ∧
      ∀ ev ∈ (createTimes r name cfg n w).2, ∃ gw err, ev = Event.create name cfg gw err := by
  intro n
  induction n with
  | zero => intro w; simp [createTimes]
  | succ n ih =>
    intro w
    obtain ⟨hlen, hev⟩ := ih (r.Create name cfg w).2.1
    have hcr : (r.Create name cfg w).2.2 =
        [Event.create name cfg ((c cfg w).1.1.map (·.ptr)) (c cfg w).1.2] := by
      simp [GatewayRegistry.Create, hc]
    refine ⟨?_, ?_⟩
    · simp only [createTimes, List.length_append, hlen, hcr]
      simp
      omega
    · intro ev hmem
      simp only [createTimes, List.mem_append] at hmem
      rcases hmem with h | h
      · rw [hcr] at h
        simp at h
        exact ⟨_, _, h⟩
      · exact hev ev h

/-- C14. `Create`: when a constructor `c` is registered under `name`, `Create(name, cfg)`
invokes `c` once with `cfg` and returns the pair `c` returned, unchanged, the world being
the one `c` left; nothing is stored, so `n` calls of `Create` invoke `c` `n` times. When no
constructor is registered under `name`, `Create` returns no gateway and the
`GatewayError` with `GatewayName = name`, `Operation = creation` and cause
`creator not found`, without any call. -/
theorem C14_registry_create {ω : Type} (r : GatewayRegistry ω) (name : String)
    (cfg : GoMap GoAny) (w : ω) :
    (∀ c, mapGet r.creators name = some c →
      (r.Create name cfg w).1 = (c cfg w).1 ∧
      (r.Create name cfg w).2.1 = (c cfg w).2 ∧
      (r.Create name cfg w).2.2 =
        [Event.create name cfg ((c cfg w).1.1.map (·.ptr)) (c cfg w).1.2] ∧
      ∀ n, (createTimes r name cfg n w).2.length = n ∧
        ∀ ev ∈ (createTimes r name cfg n w).2,
          ∃ gw err, ev = Event.create name cfg gw err) ∧
    (mapGet r.creators name = none →
      (r.Create name cfg w).1 =
        (none, some (GoError.GatewayError name "creation"
          (GoError.errorString "creator not found"))) ∧
      (GoError.GatewayError name "creation"
          (GoError.errorString "creator not found")).Unwrap =
        some (GoError.errorString "creator not found") ∧
      (r.Create name cfg w).2.1 = w ∧
      (r.Create name cfg w).2.2 = []) := by
  refine ⟨?_, ?_⟩
  · intro c hc
    refine ⟨?_, ?_, ?_, fun n => createTimes_events r name cfg c hc n w⟩ <;>
      simp [GatewayRegistry.Create, hc]
  · intro hc
    simp [GatewayRegistry.Create, hc, GoError.Unwrap]

/-- C14 at the registry of the sample engine: three calls of `Create` for `custom`
invoke its constructor three times, building three instances; `Create` for a name
without constructor fails. -/
theorem C14_registry_create_witness :
    ((creationEngine.registry.Create "custom" [] 0).1 =
        (workingCreator (GoAny.string "sent") [] 0).1 ∧
      (creationEngine.registry.Create "custom" [] 0).2.1 =
        (workingCreator (GoAny.string "sent") [] 0).2 ∧
      (creationEngine.registry.Create "custom" [] 0).2.2 =
        [Event.create "custom" [] ((workingCreator (GoAny.string "sent") [] 0).1.1.map
          (·.ptr)) (workingCreator (GoAny.string "sent") [] 0).1.2] ∧
      ∀ n, (createTimes creationEngine.registry "custom" [] n 0).2.length = n ∧
        ∀ ev ∈ (createTimes creationEngine.registry "custom" [] n 0).2,
          ∃ gw err, ev = Event.create "custom" [] gw err) ∧
    (createTimes creationEngine.registry "custom" [] 3 0).2 =
      [Event.create "custom" [] (some 0) none, Event.create "custom" [] (some 1) none,
       Event.create "custom" [] (some 2) none] ∧
    ((creationEngine.registry.Create "unknown" [] 0).1 =
        (none, some (GoError.GatewayError "unknown" "creation"
          (GoError.errorString "creator not found"))) ∧
      (GoError.GatewayError "unknown" "creation"
          (GoError.errorString "creator not found")).Unwrap =
        some (GoError.errorString "creator not found") ∧
      (creationEngine.registry.Create "unknown" [] 0).2.1 = 0 ∧
      (creationEngine.registry.Create "unknown" [] 0).2.2 = []) :=
  ⟨(C14_registry_create creationEngine.registry "custom" [] 0).1 _ rfl,
   by decide,
   (C14_registry_create creationEngine.registry "unknown" [] 0).2 rfl⟩

/-- C15. Last write wins: after `Register(name, c1)` and then `Register(name, c2)`,
`HasCreator(name)` is true, the registry holds `c2` for `name`, and `Create(name, cfg)`
returns what `c2` returns, leaves the world `c2` leaves and makes one invocation of a
constructor, whatever `c1` is; for every other name the registry holds what it held. -/
theorem C15_register_overwrites {ω : Type} (r : GatewayRegistry ω) (name : String)
    (c1 c2 : NewGatewayCreator ω) (cfg : GoMap GoAny) (w : ω) :
    ((r.Register name c1).Register name c2).HasCreator name = true ∧
      mapGet ((r.Register name c1).Register name c2).creators name = some c2 ∧
      (((r.Register name c1).Register name c2).Create name cfg w).1 = (c2 cfg w).1 ∧
      (((r.Register name c1).Register name c2).Create name cfg w).2.1 = (c2 cfg w).2 ∧
      (((r.Register name c1).Register name c2).Create name cfg w).2.2 =
        [Event.create name cfg ((c2 cfg w).1.1.map (·.ptr)) (c2 cfg w).1.2] ∧
      (∀ k, k ≠ name →
        mapGet ((r.Register name c1).Register name c2).creators k = mapGet r.creators k) ∧
      (∀ k cfg' w', k ≠ name →
        ((r.Register name c1).Register name c2).Create k cfg' w' = r.Create k cfg' w') := by
  have h : mapGet ((r.Register name c1).Register name c2).creators name = some c2 :=
    mapGet_mapSet_same _ _ _
  have hne : ∀ k, k ≠ name →
      mapGet ((r.Register name c1).Register name c2).creators k = mapGet r.creators k := by
    intro k hk
    simp only [GatewayRegistry.Register]
    rw [mapGet_mapSet_ne _ _ _ _ hk, mapGet_mapSet_ne _ _ _ _ hk]
  refine ⟨?_, h, ?_, ?_, ?_, hne, ?_⟩
  · simp [GatewayRegistry.HasCreator, h]
  · simp [GatewayRegistry.Create, h]
  · simp [GatewayRegistry.Create, h]
  · simp [GatewayRegistry.Create, h]
  · intro k cfg' w' hk
    simp only [GatewayRegistry.Create]
    rw [hne k hk]

/-! ## Strategies -/

/-- C17. Order strategy: `OrderStrategy.Apply` returns its input, the same names in the
same order, for every list, the empty list and one-element lists included; as a strategy
of the engine it also leaves the world as it was. -/
theorem C17_order_strategy_identity (gateways : List String) :
    strategy.OrderStrategy.Apply gateways = gateways ∧
      strategy.OrderStrategy.Apply [] = [] ∧
      (∀ a : String, strategy.OrderStrategy.Apply [a] = [a]) ∧
      (∀ (ω : Type) (w : ω),
        (strategy.NewOrderStrategy : strategy.Strategy ω).Apply gateways w = (gateways, w)) :=
  ⟨rfl, rfl, fun _ => rfl, fun _ _ => rfl⟩

end easysms

namespace easysms

/-! ## A cached instance stays -/

/-- A cache hit. -/
theorem Gateway_of_cached {ω : Type} (e : EasySms ω) (name : String) (w : ω)
    (g : Option (gateway.Gateway ω)) (h : mapGet e.gateways name = some g) :
    e.Gateway name w = { ret := (g, none), sms := e, world := w, events := [] } := by
  unfold EasySms.Gateway
  rw [h]

/-- With `name` cached, a `Gateway` call for any name keeps the cache entry of `name`
and does not invoke the constructor of `name`. -/
theorem Gateway_keeps_cached {ω : Type} (e : EasySms ω) (name : String)
    (g : Option (gateway.Gateway ω)) (h : mapGet e.gateways name = some g)
    (k : String) (w : ω) :
    mapGet (e.Gateway k w).sms.gateways name = some g ∧
      ∀ ev ∈ (e.Gateway k w).events, ev.isCreateOf name = false := by
  by_cases hk : k = name
  · subst hk
    rw [Gateway_of_cached e k w g h]
    exact ⟨h, by simp⟩
  · refine ⟨?_, ?_⟩
    · rw [(Gateway_frame e k w).2.2.2 name (fun h' => hk h'.symm)]
      exact h
    · intro ev hev
      obtain ⟨cfg, gw, err, rfl⟩ := Gateway_events e k w ev hev
      simp [Event.isCreateOf, hk]

/-- The same for one iteration of the loop of `Send`. -/
theorem attempt_keeps_cached {ω : Type} (to_ : message.PhoneNumber) (msg : message.Message)
    (e : EasySms ω) (name : String) (g : Option (gateway.Gateway ω))
    (h : mapGet e.gateways name = some g) (k : String) (w : ω) :
    mapGet (attempt to_ msg k e w).sms.gateways name = some g ∧
      ∀ ev ∈ (attempt to_ msg k e w).events, ev.isCreateOf name = false := by
  obtain ⟨h1, h2⟩ := Gateway_keeps_cached e name g h k w
  unfold attempt
  dsimp only
  split
  · refine ⟨h1, ?_⟩
    intro ev hev
    rcases List.mem_append.mp hev with h' | h'
    · exact h2 ev h'
    · simp at h'; subst h'; rfl
  · split
    · refine ⟨h1, ?_⟩
      intro ev hev
      rcases List.mem_append.mp hev with h' | h'
      · exact h2 ev h'
      · simp at h'; subst h'; rfl
    · split
      · refine ⟨h1, ?_⟩
        intro ev hev
        rcases List.mem_append.mp hev with h' | h'
        · exact h2 ev h'
        · simp at h'; subst h'; rfl
      · split <;>
        · refine ⟨h1, ?_⟩
          intro ev hev
          simp only [List.mem_append, List.mem_singleton] at hev
          rcases hev with (h' | h') | h'
          · exact h2 ev h'
          · subst h'; rfl
          · subst h'; rfl

/-- The same for the loop of `Send`. -/
theorem sendLoop_keeps_cached {ω : Type} (to_ : message.PhoneNumber)
    (msg : message.Message) (name : String) (g : Option (gateway.Gateway ω)) :
    ∀ (names : List String) (e : EasySms ω) (w : ω) (v : SendVars),
      mapGet e.gateways name = some g →
      mapGet (sendLoop to_ msg names e w v).sms.gateways name = some g ∧
        ∀ ev ∈ (sendLoop to_ msg names e w v).events, ev.isCreateOf name = false := by
  intro names
  induction names with
  | nil =>
    intro e w v h
    simp [sendLoop, h]
  | cons k names ih =>
    intro e w v h
    obtain ⟨h1, h2⟩ := attempt_keeps_cached to_ msg e name g h k w
    rw [sendLoop_cons]
    split
    · rename_i err _
      obtain ⟨h3, h4⟩ := ih (attempt to_ msg k e w).sms (attempt to_ msg k e w).world
        { v with results := mapSet v.results k (failureResult k err), lastErr := some err } h1
      refine ⟨h3, ?_⟩
      intro ev hev
      simp only [Step.after, List.mem_append] at hev
      rcases hev with h' | h'
      · exact h2 ev h'
      · exact h4 ev h'
    · exact ⟨h1, h2⟩
    · exact ⟨h1, h2⟩

/-- The same for `Send`. -/
theorem Send_keeps_cached {ω : Type} (e : EasySms ω) (name : String)
    (g : Option (gateway.Gateway ω)) (h : mapGet e.gateways name = some g)
    (to_ : message.PhoneNumber) (msg : message.Message) (w : ω) :
    mapGet (e.Send to_ msg w).sms.gateways name = some g ∧
      ∀ ev ∈ (e.Send to_ msg w).events, ev.isCreateOf name = false := by
  obtain ⟨h1, h2⟩ := sendLoop_keeps_cached to_ msg name g
    (e.strategy.Apply (candidates e msg) w).1 e (e.strategy.Apply (candidates e msg) w).2
    { results := [], lastErr := none, success := false } h
  have h2' : ∀ ev ∈ Event.apply (candidates e msg) ::
      (sendLoop to_ msg (e.strategy.Apply (candidates e msg) w).1 e
        (e.strategy.Apply (candidates e msg) w).2
        { results := [], lastErr := none, success := false }).events,
      ev.isCreateOf name = false := by
    intro ev hev
    rcases List.mem_cons.mp hev with h' | h'
    · subst h'; rfl
    · exact h2 ev h'
  unfold EasySms.Send
  dsimp only
  split
  · exact ⟨h, by simp⟩
  · split
    · exact ⟨h1, h2'⟩
    · split
      · exact ⟨h1, h2'⟩
      · exact ⟨h1, h2'⟩

/-- The same for any sequence of `Gateway` and `Send` calls. -/
theorem runCalls_keeps_cached {ω : Type} (name : String) (g : Option (gateway.Gateway ω)) :
    ∀ (calls : List (Call ω)) (e : EasySms ω) (w : ω),
      (∀ c ∈ calls, c.isGatewayOrSend = true) →
      mapGet e.gateways name = some g →
      mapGet (runCalls calls e w).sms.gateways name = some g ∧
        ∀ ev ∈ (runCalls calls e w).events, ev.isCreateOf name = false := by
  intro calls
  induction calls with
  | nil =>
    intro e w _ h
    simp [runCalls, h]
  | cons c calls ih =>
    intro e w hc h
    have hstep : mapGet (c.run e w).sms.gateways name = some g ∧
        ∀ ev ∈ (c.run e w).events, ev.isCreateOf name = false := by
      have hk := hc c (List.mem_cons_self _ _)
      cases c with
      | RegisterGateway k gw => simp [Call.isGatewayOrSend] at hk
      | RegisterGatewayCreator k cr => simp [Call.isGatewayOrSend] at hk
      | Gateway k => exact Gateway_keeps_cached e name g h k w
      | Send to_ msg => exact Send_keeps_cached e name g h to_ msg w
    obtain ⟨h1, h2⟩ := hstep
    obtain ⟨h3, h4⟩ := ih (c.run e w).sms (c.run e w).world
      (fun c' hc' => hc c' (List.mem_cons_of_mem _ hc')) h1
    refine ⟨h3, ?_⟩
    intro ev hev
    simp only [runCalls, Step.after, List.mem_append] at hev
    rcases hev with h' | h'
    · exact h2 ev h'
    · exact h4 ev h'

/-- C12. Construct once: when `name` is not cached, has the configuration entry `cfg`
and a registered constructor `c` that returns a nil error for it, the first
`Gateway(name)` invokes the constructor once, with `cfg`, returns the instance it built
and stores it in the cache under `name`; after any sequence of `Gateway` and `Send` calls
made from there, the constructor of `name` has not been invoked again, the cache still
holds that instance, and `Gateway(name)` returns it with a nil error and no call. -/
theorem C12_construct_once {ω : Type} (e : EasySms ω) (name : String) (w : ω)
    (cfg : GoMap GoAny) (c : NewGatewayCreator ω) (calls : List (Call ω)) (w' : ω)
    (hcache : mapGet e.gateways name = none)
    (hconfig : mapGet e.config.GatewayConfigs name = some cfg)
    (hcreator : mapGet e.registry.creators name = some c)
    (hok : (c cfg w).1.2 = none)
    (hcalls : ∀ k ∈ calls, k.isGatewayOrSend = true) :
    (e.Gateway name w).ret = ((c cfg w).1.1, none) ∧
      (e.Gateway name w).events = [Event.create name cfg ((c cfg w).1.1.map (·.ptr)) none] ∧
      (e.Gateway name w).world = (c cfg w).2 ∧
      mapGet (e.Gateway name w).sms.gateways name = some (c cfg w).1.1 ∧
      (∀ ev ∈ (runCalls calls (e.Gateway name w).sms (e.Gateway name w).world).events,
        ev.isCreateOf name = false) ∧
      mapGet (runCalls calls (e.Gateway name w).sms (e.Gateway name w).world).sms.gateways
        name = some (c cfg w).1.1 ∧
      ((runCalls calls (e.Gateway name w).sms (e.Gateway name w).world).sms.Gateway
        name w').ret = ((c cfg w).1.1, none) ∧
      ((runCalls calls (e.Gateway name w).sms (e.Gateway name w).world).sms.Gateway
        name w').events = [] := by
  have hhas : e.registry.HasCreator name = true := by
    simp [GatewayRegistry.HasCreator, hcreator]
  have hfirst : e.Gateway name w =
      { ret := ((c cfg w).1.1, none), sms := e.RegisterGateway name (c cfg w).1.1,
        world := (c cfg w).2,
        events := [Event.create name cfg ((c cfg w).1.1.map (·.ptr)) none] } := by
    unfold EasySms.Gateway
    rw [hcache, hconfig]
    simp [hhas, GatewayRegistry.Create, hcreator, hok]
  have hstored : mapGet (e.Gateway name w).sms.gateways name = some (c cfg w).1.1 := by
    rw [hfirst]
    exact mapGet_mapSet_same _ _ _
  obtain ⟨hkeep, hnone⟩ := runCalls_keeps_cached name (c cfg w).1.1 calls
    (e.Gateway name w).sms (e.Gateway name w).world hcalls hstored
  refine ⟨?_, ?_, ?_, hstored, hnone, hkeep, ?_, ?_⟩
  · rw [hfirst]
  · rw [hfirst]
  · rw [hfirst]
  · rw [Gateway_of_cached _ name w' _ hkeep]
  · rw [Gateway_of_cached _ name w' _ hkeep]

/-- C12 at the sample engine: `custom` is built once, with identity 0; a `Gateway`, a
`Send` over the default `custom` and another `Gateway` later, the cache still holds that
instance. -/
theorem C12_construct_once_witness :
    (creationEngine.Gateway "custom" 0).ret =
        ((workingCreator (GoAny.string "sent") [("key", GoAny.string "value")] 0).1.1, none) ∧
      (creationEngine.Gateway "custom" 0).events =
        [Event.create "custom" [("key", GoAny.string "value")]
          ((workingCreator (GoAny.string "sent") [("key", GoAny.string "value")] 0).1.1.map
            (·.ptr)) none] ∧
      (creationEngine.Gateway "custom" 0).world =
        (workingCreator (GoAny.string "sent") [("key", GoAny.string "value")] 0).2 ∧
      mapGet (creationEngine.Gateway "custom" 0).sms.gateways "custom" =
        some (workingCreator (GoAny.string "sent") [("key", GoAny.string "value")] 0).1.1 ∧
      (∀ ev ∈ (runCalls
            [Call.Gateway "custom", Call.Send samplePhone message.NewMessage,
             Call.Gateway "failing_creator"]
            (creationEngine.Gateway "custom" 0).sms
            (creationEngine.Gateway "custom" 0).world).events,
        ev.isCreateOf "custom" = false) ∧
      mapGet (runCalls
            [Call.Gateway "custom", Call.Send samplePhone message.NewMessage,
             Call.Gateway "failing_creator"]
            (creationEngine.Gateway "custom" 0).sms
            (creationEngine.Gateway "custom" 0).world).sms.gateways "custom" =
        some (workingCreator (GoAny.string "sent") [("key", GoAny.string "value")] 0).1.1 ∧
      ((runCalls
            [Call.Gateway "custom", Call.Send samplePhone message.NewMessage,
             Call.Gateway "failing_creator"]
            (creationEngine.Gateway "custom" 0).sms
            (creationEngine.Gateway "custom" 0).world).sms.Gateway "custom" 9).ret =
        ((workingCreator (GoAny.string "sent") [("key", GoAny.string "value")] 0).1.1, none) ∧
      ((runCalls
            [Call.Gateway "custom", Call.Send samplePhone message.NewMessage,
             Call.Gateway "failing_creator"]
            (creationEngine.Gateway "custom" 0).sms
            (creationEngine.Gateway "custom" 0).world).sms.Gateway "custom" 9).events = [] :=
  C12_construct_once creationEngine "custom" 0 [("key", GoAny.string "value")]
    (workingCreator (GoAny.string "sent"))
    [Call.Gateway "custom", Call.Send samplePhone message.NewMessage,
     Call.Gateway "failing_creator"] 9 rfl rfl rfl rfl
    (by
      intro k hk
      simp only [List.mem_cons, List.mem_singleton, List.not_mem_nil, or_false] at hk
      rcases hk with rfl | rfl | rfl <;> rfl)

end easysms

namespace strategy

/-! ## The index drawn by the random strategy -/

theorem excessBits_pos (fuel p : Nat) (h : 0 < excessBits fuel p) :
    2 ^ 52 * 2 ^ excessBits fuel p ≤ p := by
  induction fuel generalizing p with
  | zero => simp [excessBits] at h
  | succ fuel ih =>
    by_cases hp : p < 2 ^ 53
    · have e : excessBits (fuel + 1) p = 0 := if_pos hp
      omega
    · have e : excessBits (fuel + 1) p = excessBits fuel (p / 2) + 1 := if_neg hp
      rw [e]
      by_cases h0 : 0 < excessBits fuel (p / 2)
      · have := ih (p / 2) h0
        have h2 : 2 * (p / 2) ≤ p := Nat.mul_div_le p 2
        rw [pow_succ]
        omega
      · have h0' : excessBits fuel (p / 2) = 0 := by omega
        rw [h0']
        norm_num at hp ⊢
        omega

theorem round53_le (p : Nat) : 2 * round53 p ≤ 2 * p + 2 ^ excessBits 53 p := by
  unfold round53
  dsimp only
  have hdm : 2 ^ excessBits 53 p * (p / 2 ^ excessBits 53 p) + p % 2 ^ excessBits 53 p = p :=
    Nat.div_add_mod p _
  generalize 2 ^ excessBits 53 p = S at hdm ⊢
  generalize p / S = q at hdm ⊢
  generalize p % S = r at hdm ⊢
  have hq : S * q = q * S := Nat.mul_comm _ _
  split
  · rename_i hup
    have hr : S ≤ 2 * r := by
      rcases hup with h | ⟨h, _⟩ <;> omega
    rw [Nat.add_mul]
    omega
  · omega

theorem round53_of_no_excess (p : Nat) (h : excessBits 53 p = 0) : round53 p = p := by
  unfold round53
  simp [h, Nat.mod_one]

theorem unit_bound (m t : Nat) (h1 : m < 2 ^ 53) (h2 : m < 2 ^ t) :
    m * 2 ^ 53 + 2 ^ t ≤ 2 ^ 53 * 2 ^ t := by
  generalize 2 ^ t = T at h2 ⊢
  norm_num at h1 ⊢
  by_cases hT : T ≤ 9007199254740992
  · have : (m + 1) * 9007199254740992 ≤ T * 9007199254740992 :=
      Nat.mul_le_mul_right _ h2
    omega
  · have : 9007199254740991 * 9007199254740993 ≤ 9007199254740991 * T :=
      Nat.mul_le_mul_left _ (by omega)
    omega

/-- The index `int(float64(n) * f)` is below `n` for every float64 `f` of `[0, 1)`:
the rounding of the product never reaches `n`. -/
theorem floatIndex_lt (n : Nat) (f : UnitFloat) (hn : 0 < n) (hf : f.valid) :
    floatIndex n f < n := by
  obtain ⟨h1, h2⟩ := hf
  unfold floatIndex
  rw [Nat.div_lt_iff_lt_mul (Nat.pos_pow_of_pos _ (by norm_num))]
  have hb := unit_bound f.m f.t h1 h2
  have hp : n * f.m < n * 2 ^ f.t := Nat.mul_lt_mul_of_pos_left h2 hn
  have hb' : n * (f.m * 2 ^ 53 + 2 ^ f.t) ≤ n * (2 ^ 53 * 2 ^ f.t) :=
    Nat.mul_le_mul_left _ hb
  have e1 : n * (f.m * 2 ^ 53 + 2 ^ f.t) = n * f.m * 2 ^ 53 + n * 2 ^ f.t := by ring
  have e2 : n * (2 ^ 53 * 2 ^ f.t) = n * 2 ^ f.t * 2 ^ 53 := by ring
  rw [e1, e2] at hb'
  generalize n * f.m = p at hp hb' ⊢
  generalize n * 2 ^ f.t = N at hp hb' ⊢
  by_cases hs : 0 < excessBits 53 p
  · have h3 := excessBits_pos 53 p hs
    have h4 := round53_le p
    generalize 2 ^ excessBits 53 p = S at h3 h4
    norm_num at hb' h3
    omega
  · rw [round53_of_no_excess p (by omega)]
    exact hp

end strategy

namespace strategy

/-! ## The random strategy permutes -/

theorem swap_length (l : List String) (i j : Nat) : (swap l i j).length = l.length := by
  simp [swap]

/-- Exchanging two elements in range gives a permutation. -/
theorem swap_perm (l : List String) (i j : Nat) (hi : i < l.length) (hj : j < l.length) :
    (swap l i j).Perm l := by
  have hj' : j < (l.set i l[j]).length := by simpa using hj
  have e1 : l.getD j "" = l[j] := by simp [hj]
  have e2 : l.getD i "" = l[i] := by simp [hi]
  have e3 : (l.set i l[j])[j] = l[j] := by
    rw [List.getElem_set]
    split
    · rename_i h; subst h; rfl
    · rfl
  unfold swap
  rw [e1, e2, List.perm_iff_count]
  intro a
  rw [List.count_set _ _ _ _ hj', List.count_set _ _ _ _ hi, e3]
  have b1 := List.boole_getElem_le_count a l i hi
  have b2 := List.boole_getElem_le_count a l j hj
  split <;> split <;> simp_all

/-- The loop returns a permutation of the slice it was given, for every float64 of
`[0, 1)` the random source yields. -/
theorem shuffleLoop_perm {ω : Type} (Float64 : ω → UnitFloat × ω)
    (hvalid : ∀ w, (Float64 w).1.valid) :
    ∀ (i : Nat) (result : List String) (w : ω), (i = 0 ∨ i < result.length) →
      ∃ l, (shuffleLoop Float64 i result w).1 = easysms.Outcome.returned l ∧
        l.Perm result := by
  intro i
  induction i with
  | zero =>
    intro result w _
    exact ⟨result, rfl, List.Perm.refl _⟩
  | succ i ih =>
    intro result w hi
    have hi' : i + 1 < result.length := by omega
    have hj : floatIndex (i + 1 + 1) (Float64 w).1 < result.length := by
      have := floatIndex_lt (i + 1 + 1) (Float64 w).1 (by omega) (hvalid w)
      omega
    obtain ⟨l, hl, hperm⟩ :=
      ih (swap result (i + 1) (floatIndex (i + 1 + 1) (Float64 w).1)) (Float64 w).2
        (by rw [swap_length]; omega)
    refine ⟨l, ?_, hperm.trans (swap_perm result _ _ hi' hj)⟩
    rw [shuffleLoop]
    simp only [hi', hj, and_self, if_true]
    exact hl

/-- C16. Strategies permute: for every list of names (shorter than `2 ^ 53`, as every
Go slice is) and every float64 of `[0, 1)` the random source yields, on whatever world,
`OrderStrategy.Apply` and `RandomStrategy.Apply` each return a permutation of their input:
the same length, and every name as many times as in the input. -/
theorem C16_strategies_permute {ω : Type} (Float64 : ω → UnitFloat × ω)
    (gateways : List String) (w : ω)
    (hlen : gateways.length < 2 ^ 53)
    (hvalid : ∀ w', (Float64 w').1.valid) :
    ((OrderStrategy.Apply gateways).Perm gateways ∧
      (OrderStrategy.Apply gateways).length = gateways.length ∧
      ∀ a, (OrderStrategy.Apply gateways).count a = gateways.count a) ∧
    ∃ result, (RandomStrategy.Apply Float64 gateways w).1 = easysms.Outcome.returned result ∧
      result.Perm gateways ∧
      result.length = gateways.length ∧
      ∀ a, result.count a = gateways.count a := by
  have _ := hlen
  refine ⟨⟨List.Perm.refl _, rfl, fun _ => rfl⟩, ?_⟩
  obtain ⟨l, hl, hperm⟩ := shuffleLoop_perm Float64 hvalid (gateways.length - 1) gateways w
    (by omega)
  exact ⟨l, hl, hperm, hperm.length_eq, fun a => hperm.count_eq a⟩

theorem sampleFloat64_valid (w : Nat) : (sampleFloat64 w).1.valid := by
  have h : (w * 2 ^ 51 + 12345) % 2 ^ 53 < 2 ^ 53 := Nat.mod_lt _ (by norm_num)
  exact ⟨h, h⟩

/-- C16 at the list `aliyun, yunpian, custom` with the sample random source, which
shuffles it to `custom, yunpian, aliyun`. -/
theorem C16_strategies_permute_witness :
    (RandomStrategy.Apply sampleFloat64 ["aliyun", "yunpian", "custom"] 1).1 =
      easysms.Outcome.returned ["custom", "yunpian", "aliyun"] ∧
    (((OrderStrategy.Apply ["aliyun", "yunpian", "custom"]).Perm
        ["aliyun", "yunpian", "custom"] ∧
      (OrderStrategy.Apply ["aliyun", "yunpian", "custom"]).length =
        ["aliyun", "yunpian", "custom"].length ∧
      ∀ a, (OrderStrategy.Apply ["aliyun", "yunpian", "custom"]).count a =
        ["aliyun", "yunpian", "custom"].count a) ∧
    ∃ result, (RandomStrategy.Apply sampleFloat64 ["aliyun", "yunpian", "custom"] 1).1 =
        easysms.Outcome.returned result ∧
      result.Perm ["aliyun", "yunpian", "custom"] ∧
      result.length = ["aliyun", "yunpian", "custom"].length ∧
      ∀ a, result.count a = ["aliyun", "yunpian", "custom"].count a) :=
  ⟨by decide,
   C16_strategies_permute sampleFloat64 ["aliyun", "yunpian", "custom"] 1
     (by norm_num) sampleFloat64_valid⟩

end strategy

namespace strategy

/-- C18. No mutation of the input: on a memory `h` holding the caller's list at the
address `gateways`, `OrderStrategy.Apply` returns the very slice it was given and writes
nothing; `RandomStrategy.Apply` returns, for every float64 of `[0, 1)` the random source
yields, a slice at a fresh address holding the shuffled copy, and every array that was in
memory before the call, the caller's list among them, holds afterwards the same names
in the same order. -/
theorem C18_no_mutation {ω : Type} (Float64 : ω → UnitFloat × ω) (h : Heap)
    (gateways : Nat) (w : ω)
    (haddr : gateways < h.length)
    (hlen : (h.getD gateways []).length < 2 ^ 53)
    (hvalid : ∀ w', (Float64 w').1.valid) :
    ((OrderStrategy.ApplyAt h gateways).1 = gateways ∧
      (OrderStrategy.ApplyAt h gateways).2 = h ∧
      (OrderStrategy.ApplyAt h gateways).2.getD gateways [] = h.getD gateways []) ∧
    ∃ result h', (RandomStrategy.ApplyAt Float64 h gateways w).1 =
        easysms.Outcome.returned (result, h') ∧
      h'.getD gateways [] = h.getD gateways [] ∧
      (∀ a, a < h.length → h'.getD a [] = h.getD a []) ∧
      result ≠ gateways ∧
      (RandomStrategy.Apply Float64 (h.getD gateways []) w).1 =
        easysms.Outcome.returned (h'.getD result []) := by
  have _ := hlen
  refine ⟨⟨rfl, rfl, rfl⟩, ?_⟩
  obtain ⟨l, hl, _⟩ := shuffleLoop_perm Float64 hvalid ((h.getD gateways []).length - 1)
    (h.getD gateways []) w (by omega)
  have hold : ∀ a, a < h.length → (h ++ [l]).getD a [] = h.getD a [] := by
    intro a ha
    simp [List.getD_eq_getElem?_getD, List.getElem?_append_left ha]
  refine ⟨h.length, h ++ [l], ?_, hold gateways haddr, hold, by omega, ?_⟩
  · unfold RandomStrategy.ApplyAt
    simp only [hl]
  · unfold RandomStrategy.Apply
    rw [hl]
    simp [List.getD_eq_getElem?_getD]

/-- C18 on a memory of two arrays, the caller's list `aliyun, yunpian, custom` at
address 1. -/
theorem C18_no_mutation_witness :
    (RandomStrategy.ApplyAt sampleFloat64 [["x"], ["aliyun", "yunpian", "custom"]] 1 1).1 =
      easysms.Outcome.returned
        (2, [["x"], ["aliyun", "yunpian", "custom"], ["custom", "yunpian", "aliyun"]]) ∧
    (((OrderStrategy.ApplyAt [["x"], ["aliyun", "yunpian", "custom"]] 1).1 = 1 ∧
      (OrderStrategy.ApplyAt [["x"], ["aliyun", "yunpian", "custom"]] 1).2 =
        [["x"], ["aliyun", "yunpian", "custom"]] ∧
      (OrderStrategy.ApplyAt [["x"], ["aliyun", "yunpian", "custom"]] 1).2.getD 1 [] =
        List.getD [["x"], ["aliyun", "yunpian", "custom"]] 1 []) ∧
    ∃ result h',
      (RandomStrategy.ApplyAt sampleFloat64 [["x"], ["aliyun", "yunpian", "custom"]] 1 1).1 =
        easysms.Outcome.returned (result, h') ∧
      h'.getD 1 [] = List.getD [["x"], ["aliyun", "yunpian", "custom"]] 1 [] ∧
      (∀ a, a < List.length [["x"], ["aliyun", "yunpian", "custom"]] →
        h'.getD a [] = List.getD [["x"], ["aliyun", "yunpian", "custom"]] a []) ∧
      result ≠ 1 ∧
      (RandomStrategy.Apply sampleFloat64
          (List.getD [["x"], ["aliyun", "yunpian", "custom"]] 1 []) 1).1 =
        easysms.Outcome.returned (h'.getD result [])) :=
  ⟨by decide,
   C18_no_mutation sampleFloat64 [["x"], ["aliyun", "yunpian", "custom"]] 1 1
     (by decide) (by decide) sampleFloat64_valid⟩

end strategy

namespace easysms

/-! ## Calls that return -/

theorem mapGet_mapSet {β : Type} (m : GoMap β) (k k' : String) (v : β) :
    mapGet (mapSet m k v) k' = if k' = k then some v else mapGet m k' := by
  by_cases h : k' = k
  · subst h
    simp [mapGet_mapSet_same]
  · simp [h, mapGet_mapSet_ne _ _ _ _ h]

theorem registerBuiltinLoop_frame {ω : Type} (B : Builtins ω) :
    ∀ (names : List String) (e : EasySms ω),
      (registerBuiltinLoop B names e).gateways = e.gateways ∧
      (registerBuiltinLoop B names e).config = e.config ∧
      (registerBuiltinLoop B names e).strategy = e.strategy ∧
      ∀ k c, mapGet (registerBuiltinLoop B names e).registry.creators k = some c →
        mapGet e.registry.creators k = some c ∨ ∃ n, c = builtinCreator B n := by
  intro names
  induction names with
  | nil => intro e; exact ⟨rfl, rfl, rfl, fun _ _ h => Or.inl h⟩
  | cons n names ih =>
    intro e
    obtain ⟨h1, h2, h3, h4⟩ := ih
      { e with registry := e.registry.Register n (builtinCreator B n) }
    refine ⟨h1, h2, h3, ?_⟩
    intro k c hk
    rcases h4 k c hk with h | h
    · simp only [GatewayRegistry.Register] at h
      rw [mapGet_mapSet] at h
      split at h
      · simp only [Option.some.injEq] at h
        exact Or.inr ⟨n, h.symm⟩
      · exact Or.inl h
    · exact Or.inr h

end easysms

namespace easysms

end easysms

namespace easysms

/-! ## Callers racing on `Gateway(name)` -/

/-- One caller running its three sections alone is the call `Gateway(name)`. -/
theorem Gateway_as_sections {ω : Type} (e : EasySms ω) (name : String) (w : ω) (i : Nat) :
    (Racing.run name [i, i, i] (Racing.init e w)).sms = (e.Gateway name w).sms ∧
    (Racing.run name [i, i, i] (Racing.init e w)).world = (e.Gateway name w).world ∧
    (Racing.run name [i, i, i] (Racing.init e w)).events = (e.Gateway name w).events ∧
    (Racing.run name [i, i, i] (Racing.init e w)).callers i =
      Caller.returned (e.Gateway name w).ret.1 (e.Gateway name w).ret.2 := by
  unfold EasySms.Gateway
  cases h1 : mapGet e.gateways name with
  | some gw => simp [Racing.run, Racing.step, Racing.init, h1]
  | none =>
    cases h2 : mapGet e.config.GatewayConfigs name with
    | none => simp [Racing.run, Racing.step, Racing.init, h1, h2]
    | some cfg =>
      by_cases h3 : e.registry.HasCreator name = true
      · cases h4 : (e.registry.Create name cfg w).1.2 with
        | some err => simp [Racing.run, Racing.step, Racing.init, h1, h2, h3, h4]
        | none => simp [Racing.run, Racing.step, Racing.init, h1, h2, h3, h4]
      · simp [Racing.run, Racing.step, Racing.init, h1, h2, h3]

/-- What holds at every point of a race on `name`: an instance in the cache is held by a
caller that returned it, unless no caller has moved yet; and when a caller has returned
an instance, the cache holds one. -/
theorem Racing_step_keeps {ω : Type} (name : String) (i : Nat) (s : Racing ω)
    (h1 : ∀ g, mapGet s.sms.gateways name = some g →
      (∃ j, s.callers j = Caller.returned g none) ∨ (∀ j, s.callers j = Caller.start))
    (h2 : ∀ j gw, s.callers j = Caller.returned gw none →
      ∃ g, mapGet s.sms.gateways name = some g) :
    (∀ g, mapGet (Racing.step name i s).sms.gateways name = some g →
      (∃ j, (Racing.step name i s).callers j = Caller.returned g none) ∨
        (∀ j, (Racing.step name i s).callers j = Caller.start)) ∧
    (∀ j gw, (Racing.step name i s).callers j = Caller.returned gw none →
      ∃ g, mapGet (Racing.step name i s).sms.gateways name = some g) := by
  have keep : ∀ (c : Caller ω), s.callers i ≠ Caller.start →
      (∀ gw, s.callers i ≠ Caller.returned gw none) →
      (∀ gw, c ≠ Caller.returned gw none) →
      (∀ g, mapGet s.sms.gateways name = some g →
        (∃ j, Function.update s.callers i c j = Caller.returned g none) ∨
          (∀ j, Function.update s.callers i c j = Caller.start)) ∧
      (∀ j gw, Function.update s.callers i c j = Caller.returned gw none →
        ∃ g, mapGet s.sms.gateways name = some g) := by
    intro c hs hr hc
    refine ⟨?_, ?_⟩
    · intro g hg
      rcases h1 g hg with ⟨j, hj⟩ | hall
      · have hji : j ≠ i := fun h => hr g (h ▸ hj)
        exact Or.inl ⟨j, by rw [Function.update_noteq hji]; exact hj⟩
      · exact absurd (hall i) hs
    · intro j gw hj
      by_cases hji : j = i
      · subst hji
        rw [Function.update_same] at hj
        exact absurd hj (hc gw)
      · rw [Function.update_noteq hji] at hj
        exact h2 j gw hj
  unfold Racing.step
  split
  · rename_i hci
    split
    · rename_i gw hgw
      refine ⟨?_, ?_⟩
      · intro g hg
        have : gw = g := by
          have := hgw.symm.trans hg
          simpa using this
        subst this
        exact Or.inl ⟨i, by simp⟩
      · intro j gw' _
        exact ⟨gw, hgw⟩
    · rename_i hmiss
      refine ⟨?_, ?_⟩
      · intro g hg
        simp only at hg
        rw [hmiss] at hg
        cases hg
      · intro j gw hj
        by_cases hji : j = i
        · subst hji
          simp at hj
        · simp only [Function.update_noteq hji] at hj
          exact h2 j gw hj
  · rename_i hci
    have hs : s.callers i ≠ Caller.start := by rw [hci]; simp
    have hr : ∀ gw, s.callers i ≠ Caller.returned gw none := by intro gw; rw [hci]; simp
    split
    · exact keep _ hs hr (by simp)
    · split
      · dsimp only
        split
        · exact keep _ hs hr (by simp)
        · exact keep _ hs hr (by simp)
      · exact keep _ hs hr (by simp)
  · rename_i gw hci
    have hstored : mapGet (s.sms.RegisterGateway name gw).gateways name = some gw :=
      mapGet_mapSet_same _ _ _
    refine ⟨?_, ?_⟩
    · intro g hg
      simp only at hg
      rw [hstored] at hg
      simp only [Option.some.injEq] at hg
      subst hg
      exact Or.inl ⟨i, by simp⟩
    · intro j gw' _
      exact ⟨gw, hstored⟩
  · exact ⟨h1, h2⟩

theorem Racing_run_keeps {ω : Type} (name : String) :
    ∀ (schedule : List Nat) (s : Racing ω),
      (∀ g, mapGet s.sms.gateways name = some g →
        (∃ j, s.callers j = Caller.returned g none) ∨ (∀ j, s.callers j = Caller.start)) →
      (∀ j gw, s.callers j = Caller.returned gw none →
        ∃ g, mapGet s.sms.gateways name = some g) →
      (∀ g, mapGet (Racing.run name schedule s).sms.gateways name = some g →
        (∃ j, (Racing.run name schedule s).callers j = Caller.returned g none) ∨
          (∀ j, (Racing.run name schedule s).callers j = Caller.start)) ∧
      (∀ j gw, (Racing.run name schedule s).callers j = Caller.returned gw none →
        ∃ g, mapGet (Racing.run name schedule s).sms.gateways name = some g) := by
  intro schedule
  induction schedule with
  | nil => intro s h1 h2; exact ⟨h1, h2⟩
  | cons i schedule ih =>
    intro s h1 h2
    obtain ⟨h1', h2'⟩ := Racing_step_keeps name i s h1 h2
    exact ih (Racing.step name i s) h1' h2'

/-- C19, as stated, fails: two callers of `Gateway("custom")` that both miss the cache
before either stores each build an instance; both return without error, the first
holding the instance 0 and the second the instance 1, which is the one left in the
cache. -/
theorem C19_counterexample :
    ((Racing.run "custom" [0, 1, 0, 1, 0, 1] (Racing.init creationEngine 0)).callers 0).held =
      some (some 0, none) ∧
    ((Racing.run "custom" [0, 1, 0, 1, 0, 1] (Racing.init creationEngine 0)).callers 1).held =
      some (some 1, none) ∧
    (mapGet (Racing.run "custom" [0, 1, 0, 1, 0, 1]
        (Racing.init creationEngine 0)).sms.gateways "custom").map (·.map (·.ptr)) =
      some (some 1) := by
  decide

/-- C19, amended. At any point of a race of callers of `Gateway(name)`, in particular
once all have completed: when some caller has returned an instance without error, the
cache holds an instance for `name`, some caller holds that very instance, and every
`Gateway(name)` made afterwards, after any sequence of `Gateway` and `Send` calls,
returns it with a nil error and without constructing. -/
theorem C19_cache_convergence {ω : Type} (e : EasySms ω) (w : ω) (name : String)
    (schedule : List Nat) (i : Nat) (gw : Option (gateway.Gateway ω))
    (calls : List (Call ω)) (w1 w2 : ω)
    (hi : (Racing.run name schedule (Racing.init e w)).callers i = Caller.returned gw none)
    (hcalls : ∀ c ∈ calls, c.isGatewayOrSend = true) :
    ∃ g, mapGet (Racing.run name schedule (Racing.init e w)).sms.gateways name = some g ∧
      (∃ j, (Racing.run name schedule (Racing.init e w)).callers j = Caller.returned g none) ∧
      mapGet (runCalls calls (Racing.run name schedule (Racing.init e w)).sms
        w1).sms.gateways name = some g ∧
      ((runCalls calls (Racing.run name schedule (Racing.init e w)).sms w1).sms.Gateway
        name w2).ret = (g, none) ∧
      ((runCalls calls (Racing.run name schedule (Racing.init e w)).sms w1).sms.Gateway
        name w2).events = [] := by
  obtain ⟨h1, h2⟩ := Racing_run_keeps name schedule (Racing.init e w)
    (fun _ _ => Or.inr (fun _ => rfl))
    (fun j gw' hj => by simp [Racing.init] at hj)
  obtain ⟨g, hg⟩ := h2 i gw hi
  have hheld : ∃ j, (Racing.run name schedule (Racing.init e w)).callers j =
      Caller.returned g none := by
    rcases h1 g hg with h | h
    · exact h
    · rw [h i] at hi
      cases hi
  obtain ⟨hkeep, _⟩ := runCalls_keeps_cached name g calls _ w1 hcalls hg
  refine ⟨g, hg, hheld, hkeep, ?_, ?_⟩
  · rw [Gateway_of_cached _ name w2 g hkeep]
  · rw [Gateway_of_cached _ name w2 g hkeep]

/-- C19, amended, at the race of the two callers that both build: the second caller
returned the instance 1, which is the one every later `Gateway("custom")` returns. -/
theorem C19_cache_convergence_witness :
    ∃ g, mapGet (Racing.run "custom" [0, 1, 0, 1, 0, 1]
        (Racing.init creationEngine 0)).sms.gateways "custom" = some g ∧
      (∃ j, (Racing.run "custom" [0, 1, 0, 1, 0, 1] (Racing.init creationEngine 0)).callers j =
        Caller.returned g none) ∧
      mapGet (runCalls [Call.Gateway "custom", Call.Send samplePhone message.NewMessage]
        (Racing.run "custom" [0, 1, 0, 1, 0, 1] (Racing.init creationEngine 0)).sms
        2).sms.gateways "custom" = some g ∧
      ((runCalls [Call.Gateway "custom", Call.Send samplePhone message.NewMessage]
        (Racing.run "custom" [0, 1, 0, 1, 0, 1] (Racing.init creationEngine 0)).sms
        2).sms.Gateway "custom" 3).ret = (g, none) ∧
      ((runCalls [Call.Gateway "custom", Call.Send samplePhone message.NewMessage]
        (Racing.run "custom" [0, 1, 0, 1, 0, 1] (Racing.init creationEngine 0)).sms
        2).sms.Gateway "custom" 3).events = [] :=
  C19_cache_convergence creationEngine 0 "custom" [0, 1, 0, 1, 0, 1] 1
    (some (workingGateway 1 (GoAny.string "sent")))
    [Call.Gateway "custom", Call.Send samplePhone message.NewMessage] 2 3
    rfl
    (by
      intro c hc
      simp only [List.mem_cons, List.mem_singleton, List.not_mem_nil, or_false] at hc
      rcases hc with rfl | rfl <;> rfl)

end easysms

namespace easysms

/-! ## Results and errors of `Send` -/

/-- C27. Success and error: for every `Send` that returns, whatever the strategy and
whether or not names repeat, the error is nil exactly when the results map holds an entry
of status success, and the results map never holds two success entries. -/
theorem C27_error_nil_iff_success {ω : Type} (e : EasySms ω) (to_ : message.PhoneNumber)
    (msg : message.Message) (w : ω) (results : Option (GoMap Result))
    (err : Option GoError)
    (hret : (e.Send to_ msg w).ret = Outcome.returned (results, err)) :
    (err = none ↔
      ∃ m k r, results = some m ∧ mapGet m k = some r ∧ r.Status = StatusSuccess) ∧
    (∀ m k k' r r', results = some m →
      mapGet m k = some r → r.Status = StatusSuccess →
      mapGet m k' = some r' → r'.Status = StatusSuccess → k = k') := by
  have hne_status : StatusFailure ≠ StatusSuccess := by decide
  by_cases hc : candidates e msg = []
  · rw [Send_of_no_candidates e to_ msg w hc] at hret
    simp only [Outcome.returned.injEq, Prod.mk.injEq] at hret
    obtain ⟨hres, herr⟩ := hret
    subst hres herr
    refine ⟨⟨fun h => (by cases h), fun ⟨m, _, _, hm, _⟩ => (by cases hm)⟩, ?_⟩
    intro m k k' r r' hm
    cases hm
  · obtain ⟨pre, rest, v', evs, _, hrun, hcase⟩ := Send_shape e to_ msg w hc
    obtain ⟨_, _, _, _, _, hent, _⟩ := hrun
    have hfail : ∀ k r, mapGet v'.results k = some r → r.Status = StatusFailure := by
      intro k r hr
      rcases hent k r hr with ⟨_, hs, _⟩ | hold
      · exact hs
      · simp [mapGet] at hold
    rcases hcase with ⟨_, hret', _⟩ | ⟨n, post, p, resp, evs2, _, hret', _⟩ |
      ⟨n, post, evs2, _, hret', _⟩
    · rw [hret'] at hret
      simp only [Outcome.returned.injEq, Prod.mk.injEq] at hret
      obtain ⟨hres, herr⟩ := hret
      subst hres herr
      refine ⟨⟨fun h => (by cases h), ?_⟩, ?_⟩
      · rintro ⟨m, k, r, hm, hk, hs⟩
        simp only [Option.some.injEq] at hm
        subst hm
        exact absurd ((hfail k r hk).symm.trans hs) hne_status
      · intro m k k' r r' hm hk hs
        simp only [Option.some.injEq] at hm
        subst hm
        exact absurd ((hfail k r hk).symm.trans hs) hne_status
    · rw [hret'] at hret
      simp only [Outcome.returned.injEq, Prod.mk.injEq] at hret
      obtain ⟨hres, herr⟩ := hret
      subst hres herr
      have honly : ∀ k r, mapGet (mapSet v'.results n (successResult n resp)) k = some r →
          r.Status = StatusSuccess → k = n := by
        intro k r hk hs
        by_contra hkn
        rw [mapGet_mapSet_ne _ _ _ _ hkn] at hk
        exact absurd ((hfail k r hk).symm.trans hs) hne_status
      refine ⟨⟨fun _ => ⟨_, n, _, rfl, mapGet_mapSet_same _ _ _, rfl⟩, fun _ => rfl⟩, ?_⟩
      intro m k k' r r' hm hk hs hk' hs'
      simp only [Option.some.injEq] at hm
      subst hm
      rw [honly k r hk hs, honly k' r' hk' hs']
    · rw [hret'] at hret
      cases hret

/-- C27 at the sample engine whose third default succeeds. -/
theorem C27_error_nil_iff_success_witness :
    ((none : Option GoError) = none ↔
      ∃ m k r,
        some [("a", failureResult "a" (GoError.GatewayError "a" "lookup"
                (GoError.errorString "config not found"))),
              ("b", failureResult "b" (GoError.errorString "boom")),
              ("c", successResult "c" (GoAny.string "sent"))] = some m ∧
        mapGet m k = some r ∧ r.Status = StatusSuccess) ∧
    (∀ m k k' r r',
      some [("a", failureResult "a" (GoError.GatewayError "a" "lookup"
              (GoError.errorString "config not found"))),
            ("b", failureResult "b" (GoError.errorString "boom")),
            ("c", successResult "c" (GoAny.string "sent"))] = some m →
      mapGet m k = some r → r.Status = StatusSuccess →
      mapGet m k' = some r' → r'.Status = StatusSuccess → k = k') :=
  C27_error_nil_iff_success fallbackEngine samplePhone message.NewMessage 0
    (some [("a", failureResult "a" (GoError.GatewayError "a" "lookup"
              (GoError.errorString "config not found"))),
           ("b", failureResult "b" (GoError.errorString "boom")),
           ("c", successResult "c" (GoAny.string "sent"))])
    none (by decide)

/-! ## What a failed `Gateway` leaves -/

/-- C28. Failed resolution: when `Gateway(name)` returns an error, it returns no
instance and leaves the engine, its cache and its registry as they were; nothing is cached
under `name`, so a later `Gateway(name)` goes through the same lookup again. The error is
`config not found` or `gateway not found` with no call to a constructor, or it is the
error the constructor of `name` returned, and then a later `Gateway(name)` invokes that
constructor again. -/
theorem C28_failed_gateway_leaves_engine {ω : Type} (e : EasySms ω) (name : String)
    (w : ω) (err : GoError) (h : (e.Gateway name w).ret.2 = some err) :
    (e.Gateway name w).ret.1 = none ∧
      (e.Gateway name w).sms = e ∧
      (e.Gateway name w).sms.gateways = e.gateways ∧
      (e.Gateway name w).sms.registry = e.registry ∧
      mapGet (e.Gateway name w).sms.gateways name = none ∧
      (∀ w', (e.Gateway name w).sms.Gateway name w' = e.Gateway name w') ∧
      ((err = GoError.GatewayError name "lookup" (GoError.errorString "config not found") ∧
          (e.Gateway name w).events = []) ∨
       (err = GoError.GatewayError name "lookup" (GoError.errorString "gateway not found") ∧
          (e.Gateway name w).events = []) ∨
       (∃ cfg c, mapGet e.config.GatewayConfigs name = some cfg ∧
          mapGet e.registry.creators name = some c ∧
          (c cfg w).1.2 = some err ∧
          (e.Gateway name w).events =
            [Event.create name cfg ((c cfg w).1.1.map (·.ptr)) (some err)] ∧
          ∀ w', ∃ gw err', ((e.Gateway name w).sms.Gateway name w').events =
            [Event.create name cfg gw err'])) := by
  have key : (e.Gateway name w).ret.1 = none ∧ (e.Gateway name w).sms = e ∧
      mapGet e.gateways name = none ∧
      ((err = GoError.GatewayError name "lookup" (GoError.errorString "config not found") ∧
          (e.Gateway name w).events = []) ∨
       (err = GoError.GatewayError name "lookup" (GoError.errorString "gateway not found") ∧
          (e.Gateway name w).events = []) ∨
       (∃ cfg c, mapGet e.config.GatewayConfigs name = some cfg ∧
          mapGet e.registry.creators name = some c ∧
          (c cfg w).1.2 = some err ∧
          (e.Gateway name w).events =
            [Event.create name cfg ((c cfg w).1.1.map (·.ptr)) (some err)])) := by
    revert h
    unfold EasySms.Gateway
    cases h1 : mapGet e.gateways name with
    | some gw => intro h; simp at h
    | none =>
      cases h2 : mapGet e.config.GatewayConfigs name with
      | none =>
        intro h
        simp only [Option.some.injEq] at h
        exact ⟨rfl, rfl, rfl, Or.inl ⟨h.symm, rfl⟩⟩
      | some cfg =>
        by_cases h3 : e.registry.HasCreator name = true
        · cases h4 : mapGet e.registry.creators name with
          | none => simp [GatewayRegistry.HasCreator, h4] at h3
          | some c =>
            cases h5 : (c cfg w).1.2 with
            | none =>
              intro h
              simp [h3, GatewayRegistry.Create, h4, h5] at h
            | some err' =>
              intro h
              simp only [h3, if_true, GatewayRegistry.Create, h4, h5,
                Option.some.injEq] at h
              subst h
              refine ⟨?_, ?_, rfl, Or.inr (Or.inr ⟨cfg, c, rfl, rfl, h5, ?_⟩)⟩ <;>
                simp [h3, GatewayRegistry.Create, h4, h5]
        · intro h
          simp [h3] at h
          subst h
          refine ⟨?_, ?_, rfl, Or.inr (Or.inl ⟨rfl, ?_⟩)⟩ <;> simp [h3]
  obtain ⟨hnone, hsms, hcache, hcases⟩ := key
  refine ⟨hnone, hsms, by rw [hsms], by rw [hsms], by rw [hsms]; exact hcache,
    fun w' => by rw [hsms], ?_⟩
  rcases hcases with h' | h' | ⟨cfg, c, hcfg, hc, herr, hev⟩
  · exact Or.inl h'
  · exact Or.inr (Or.inl h')
  · refine Or.inr (Or.inr ⟨cfg, c, hcfg, hc, herr, hev, ?_⟩)
    intro w'
    rw [hsms]
    have hhas : e.registry.HasCreator name = true := by
      simp [GatewayRegistry.HasCreator, hc]
    refine ⟨(c cfg w').1.1.map (·.ptr), (c cfg w').1.2, ?_⟩
    unfold EasySms.Gateway
    rw [hcache, hcfg]
    simp only [hhas, if_true, GatewayRegistry.Create, hc]
    split <;> rfl

/-- C28 at the sample engine: the constructor of `failing_creator` fails, and fails
again at the next call. -/
theorem C28_failed_gateway_leaves_engine_witness :
    (creationEngine.Gateway "failing_creator" 0).ret.1 = none ∧
      (creationEngine.Gateway "failing_creator" 0).sms = creationEngine ∧
      (creationEngine.Gateway "failing_creator" 0).sms.gateways = creationEngine.gateways ∧
      (creationEngine.Gateway "failing_creator" 0).sms.registry = creationEngine.registry ∧
      mapGet (creationEngine.Gateway "failing_creator" 0).sms.gateways "failing_creator" =
        none ∧
      (∀ w', (creationEngine.Gateway "failing_creator" 0).sms.Gateway "failing_creator" w' =
        creationEngine.Gateway "failing_creator" w') ∧
      ((GoError.errorString "creation failed" =
            GoError.GatewayError "failing_creator" "lookup"
              (GoError.errorString "config not found") ∧
          (creationEngine.Gateway "failing_creator" 0).events = []) ∨
       (GoError.errorString "creation failed" =
            GoError.GatewayError "failing_creator" "lookup"
              (GoError.errorString "gateway not found") ∧
          (creationEngine.Gateway "failing_creator" 0).events = []) ∨
       (∃ cfg c, mapGet creationEngine.config.GatewayConfigs "failing_creator" = some cfg ∧
          mapGet creationEngine.registry.creators "failing_creator" = some c ∧
          (c cfg 0).1.2 = some (GoError.errorString "creation failed") ∧
          (creationEngine.Gateway "failing_creator" 0).events =
            [Event.create "failing_creator" cfg ((c cfg 0).1.1.map (·.ptr))
              (some (GoError.errorString "creation failed"))] ∧
          ∀ w', ∃ gw err',
            ((creationEngine.Gateway "failing_creator" 0).sms.Gateway
              "failing_creator" w').events =
              [Event.create "failing_creator" cfg gw err'])) :=
  C28_failed_gateway_leaves_engine creationEngine "failing_creator" 0
    (GoError.errorString "creation failed") rfl

end easysms

namespace easysms

/-! ## The cache entry of a name under all the operations -/

/-- With `name` cached, every event of one iteration of the loop of `Send` that is a
resolution of `name` returned the cached instance. -/
theorem attempt_resolves_cached {ω : Type} (to_ : message.PhoneNumber)
    (msg : message.Message) (e : EasySms ω) (name : String)
    (g : Option (gateway.Gateway ω)) (h : mapGet e.gateways name = some g)
    (k : String) (w : ω) :
    ∀ ev ∈ (attempt to_ msg k e w).events,
      ev.resolvesTo name (g.map (·.ptr)) = true := by
  have hG : ∀ ev ∈ (e.Gateway k w).events, ev.resolvesTo name (g.map (·.ptr)) = true := by
    intro ev hev
    obtain ⟨cfg, gw, err, rfl⟩ := Gateway_events e k w ev hev
    rfl
  have hR : (Event.resolve k ((e.Gateway k w).ret.1.map (·.ptr))
      (e.Gateway k w).ret.2).resolvesTo name (g.map (·.ptr)) = true := by
    by_cases hk : k = name
    · subst hk
      rw [Gateway_of_cached e k w g h]
      simp [Event.resolvesTo]
    · simp [Event.resolvesTo, hk]
  unfold attempt
  dsimp only
  split
  · intro ev hev
    rcases List.mem_append.mp hev with h' | h'
    · exact hG ev h'
    · simp at h'; subst h'; exact hR
  · split
    · intro ev hev
      rcases List.mem_append.mp hev with h' | h'
      · exact hG ev h'
      · simp at h'; subst h'; exact hR
    · split
      · intro ev hev
        rcases List.mem_append.mp hev with h' | h'
        · exact hG ev h'
        · simp at h'; subst h'; exact hR
      · split <;>
        · intro ev hev
          simp only [List.mem_append, List.mem_singleton] at hev
          rcases hev with (h' | h') | h'
          · exact hG ev h'
          · subst h'; exact hR
          · subst h'; rfl

/-- The same for the loop of `Send`. -/
theorem sendLoop_resolves_cached {ω : Type} (to_ : message.PhoneNumber)
    (msg : message.Message) (name : String) (g : Option (gateway.Gateway ω)) :
    ∀ (names : List String) (e : EasySms ω) (w : ω) (v : SendVars),
      mapGet e.gateways name = some g →
      ∀ ev ∈ (sendLoop to_ msg names e w v).events,
        ev.resolvesTo name (g.map (·.ptr)) = true := by
  intro names
  induction names with
  | nil =>
    intro e w v h
    simp [sendLoop]
  | cons k names ih =>
    intro e w v h
    have h1 := (attempt_keeps_cached to_ msg e name g h k w).1
    have h2 := attempt_resolves_cached to_ msg e name g h k w
    rw [sendLoop_cons]
    split
    · rename_i err _
      have h4 := ih (attempt to_ msg k e w).sms (attempt to_ msg k e w).world
        { v with results := mapSet v.results k (failureResult k err), lastErr := some err } h1
      intro ev hev
      simp only [Step.after, List.mem_append] at hev
      rcases hev with h' | h'
      · exact h2 ev h'
      · exact h4 ev h'
    · exact h2
    · exact h2

/-- The same for `Send`. -/
theorem Send_resolves_cached {ω : Type} (e : EasySms ω) (name : String)
    (g : Option (gateway.Gateway ω)) (h : mapGet e.gateways name = some g)
    (to_ : message.PhoneNumber) (msg : message.Message) (w : ω) :
    ∀ ev ∈ (e.Send to_ msg w).events, ev.resolvesTo name (g.map (·.ptr)) = true := by
  have h2 := sendLoop_resolves_cached to_ msg name g
    (e.strategy.Apply (candidates e msg) w).1 e (e.strategy.Apply (candidates e msg) w).2
    { results := [], lastErr := none, success := false } h
  have h2' : ∀ ev ∈ Event.apply (candidates e msg) ::
      (sendLoop to_ msg (e.strategy.Apply (candidates e msg) w).1 e
        (e.strategy.Apply (candidates e msg) w).2
        { results := [], lastErr := none, success := false }).events,
      ev.resolvesTo name (g.map (·.ptr)) = true := by
    intro ev hev
    rcases List.mem_cons.mp hev with h' | h'
    · subst h'; rfl
    · exact h2 ev h'
  unfold EasySms.Send
  dsimp only
  split
  · simp
  · split
    · exact h2'
    · split
      · exact h2'
      · exact h2'

/-- With `name` cached, one call that is not a `RegisterGateway` for `name` keeps the
cache entry of `name`, does not invoke the constructor of `name`, and resolves `name`
to the cached instance. -/
theorem Call_keeps_entry {ω : Type} (name : String) (g : Option (gateway.Gateway ω))
    (c : Call ω) (e : EasySms ω) (w : ω) (hc : c.keeps name = true)
    (h : mapGet e.gateways name = some g) :
    mapGet (c.run e w).sms.gateways name = some g ∧
      ∀ ev ∈ (c.run e w).events,
        ev.isCreateOf name = false ∧ ev.resolvesTo name (g.map (·.ptr)) = true := by
  cases c with
  | RegisterGateway k gw =>
    have hk : k ≠ name := by simpa [Call.keeps] using hc
    refine ⟨?_, by simp [Call.run]⟩
    simp only [Call.run, EasySms.RegisterGateway]
    rw [mapGet_mapSet_ne _ _ _ _ (fun h' => hk h'.symm)]
    exact h
  | RegisterGatewayCreator k cr =>
    exact ⟨h, by simp [Call.run]⟩
  | Gateway k =>
    obtain ⟨h1, h2⟩ := Gateway_keeps_cached e name g h k w
    refine ⟨h1, ?_⟩
    intro ev hev
    refine ⟨h2 ev hev, ?_⟩
    obtain ⟨cfg, gw, err, rfl⟩ := Gateway_events e k w ev hev
    rfl
  | Send to_ msg =>
    obtain ⟨h1, h2⟩ := Send_keeps_cached e name g h to_ msg w
    exact ⟨h1, fun ev hev => ⟨h2 ev hev, Send_resolves_cached e name g h to_ msg w ev hev⟩⟩

/-- The same for any sequence of calls none of which is a `RegisterGateway` for
`name`. -/
theorem runCalls_keeps_entry {ω : Type} (name : String) (g : Option (gateway.Gateway ω)) :
    ∀ (calls : List (Call ω)) (e : EasySms ω) (w : ω),
      (∀ c ∈ calls, c.keeps name = true) →
      mapGet e.gateways name = some g →
      mapGet (runCalls calls e w).sms.gateways name = some g ∧
        ∀ ev ∈ (runCalls calls e w).events,
          ev.isCreateOf name = false ∧ ev.resolvesTo name (g.map (·.ptr)) = true := by
  intro calls
  induction calls with
  | nil =>
    intro e w _ h
    simp [runCalls, h]
  | cons c calls ih =>
    intro e w hc h
    obtain ⟨h1, h2⟩ := Call_keeps_entry name g c e w (hc c (List.mem_cons_self _ _)) h
    obtain ⟨h3, h4⟩ := ih (c.run e w).sms (c.run e w).world
      (fun c' hc' => hc c' (List.mem_cons_of_mem _ hc')) h1
    refine ⟨h3, ?_⟩
    intro ev hev
    simp only [runCalls, Step.after, List.mem_append] at hev
    rcases hev with h' | h'
    · exact h2 ev h'
    · exact h4 ev h'

/-- Whatever the calls, a name that is cached stays cached. -/
theorem runCalls_entry_stays {ω : Type} (name : String) :
    ∀ (calls : List (Call ω)) (e : EasySms ω) (w : ω),
      (∃ g, mapGet e.gateways name = some g) →
      ∃ g, mapGet (runCalls calls e w).sms.gateways name = some g := by
  intro calls
  induction calls with
  | nil =>
    intro e w h
    simpa [runCalls] using h
  | cons c calls ih =>
    intro e w h
    obtain ⟨g, hg⟩ := h
    have hstep : ∃ g', mapGet (c.run e w).sms.gateways name = some g' := by
      by_cases hc : c.keeps name = true
      · exact ⟨g, (Call_keeps_entry name g c e w hc hg).1⟩
      · cases c with
        | RegisterGateway k gw =>
          have hk : k = name := by simpa [Call.keeps] using hc
          subst hk
          exact ⟨gw, mapGet_mapSet_same _ _ _⟩
        | RegisterGatewayCreator k cr => simp [Call.keeps] at hc
        | Gateway k => simp [Call.keeps] at hc
        | Send to_ msg => simp [Call.keeps] at hc
    have h3 := ih (c.run e w).sms (c.run e w).world hstep
    simpa [runCalls, Step.after] using h3

/-- C21, as stated, fails: the engine built by `New` caches the instance at address 0
for `errorlog`; a `RegisterGateway` for `errorlog` then replaces that cache entry, and
`Gateway` returns the instance at address 9 from there on. -/
theorem C21_counterexample :
    (mapGet (New sampleBuiltins (some errorlogConfig) 0).sms.gateways "errorlog").map
        (·.map (·.ptr)) = some (some 0) ∧
    (mapGet (runCalls [Call.RegisterGateway "errorlog"
          (some (workingGateway 9 (GoAny.string "sent")))]
        (New sampleBuiltins (some errorlogConfig) 0).sms 1).sms.gateways "errorlog").map
        (·.map (·.ptr)) = some (some 9) ∧
    (((runCalls [Call.RegisterGateway "errorlog"
          (some (workingGateway 9 (GoAny.string "sent")))]
        (New sampleBuiltins (some errorlogConfig) 0).sms 1).sms.Gateway
        "errorlog" 1).ret.1.map (·.ptr)) = some 9 := by
  decide

/-- C21, amended. A cached name stays cached under every sequence of
`RegisterGateway`, `RegisterGatewayCreator`, `Gateway` and `Send` calls: the entry is
never removed. When none of the calls is a `RegisterGateway` for that very name, the
entry is never replaced either: the cache still holds the same instance, the constructor
of the name is not invoked, `Send` resolves the name to that instance, and `Gateway`
returns it with a nil error. Only `RegisterGateway(name, g)` replaces the entry, by
`g`. -/
theorem C21_cache_entry_stays {ω : Type} (e : EasySms ω) (name : String)
    (g : Option (gateway.Gateway ω)) (calls : List (Call ω)) (w w' : ω)
    (hcached : mapGet e.gateways name = some g) :
    (∃ g', mapGet (runCalls calls e w).sms.gateways name = some g') ∧
      ((∀ c ∈ calls, c.keeps name = true) →
        mapGet (runCalls calls e w).sms.gateways name = some g ∧
        (∀ ev ∈ (runCalls calls e w).events,
          ev.isCreateOf name = false ∧ ev.resolvesTo name (g.map (·.ptr)) = true) ∧
        (runCalls calls e w).sms.Gateway name w' =
          { ret := (g, none), sms := (runCalls calls e w).sms, world := w', events := [] }) ∧
      (∀ g2, mapGet ((runCalls calls e w).sms.RegisterGateway name g2).gateways name =
        some g2) := by
  refine ⟨runCalls_entry_stays name calls e w ⟨g, hcached⟩, ?_,
    fun g2 => mapGet_mapSet_same _ _ _⟩
  intro hcalls
  obtain ⟨h1, h2⟩ := runCalls_keeps_entry name g calls e w hcalls hcached
  exact ⟨h1, h2, Gateway_of_cached _ name w' g h1⟩

/-- C21 at the sample engine, where `b` is cached: another name is registered, a
constructor is registered for `b`, and `Gateway` and `Send` are called. -/
theorem C21_cache_entry_stays_witness :
    (∃ g', mapGet (runCalls
        [Call.RegisterGateway "a" (some (workingGateway 8 (GoAny.string "sent"))),
         Call.RegisterGatewayCreator "b" (workingCreator (GoAny.string "sent")),
         Call.Gateway "b", Call.Send samplePhone message.NewMessage]
        fallbackEngine 0).sms.gateways "b" = some g') ∧
      ((∀ c ∈ ([Call.RegisterGateway "a" (some (workingGateway 8 (GoAny.string "sent"))),
          Call.RegisterGatewayCreator "b" (workingCreator (GoAny.string "sent")),
          Call.Gateway "b", Call.Send samplePhone message.NewMessage] : List (Call Nat)),
          c.keeps "b" = true) →
        mapGet (runCalls
          [Call.RegisterGateway "a" (some (workingGateway 8 (GoAny.string "sent"))),
           Call.RegisterGatewayCreator "b" (workingCreator (GoAny.string "sent")),
           Call.Gateway "b", Call.Send samplePhone message.NewMessage]
          fallbackEngine 0).sms.gateways "b" = some (some (failingGateway 7 "boom")) ∧
        (∀ ev ∈ (runCalls
          [Call.RegisterGateway "a" (some (workingGateway 8 (GoAny.string "sent"))),
           Call.RegisterGatewayCreator "b" (workingCreator (GoAny.string "sent")),
           Call.Gateway "b", Call.Send samplePhone message.NewMessage]
          fallbackEngine 0).events,
          ev.isCreateOf "b" = false ∧
            ev.resolvesTo "b" ((some (failingGateway 7 "boom")).map (·.ptr)) = true) ∧
        (runCalls
          [Call.RegisterGateway "a" (some (workingGateway 8 (GoAny.string "sent"))),
           Call.RegisterGatewayCreator "b" (workingCreator (GoAny.string "sent")),
           Call.Gateway "b", Call.Send samplePhone message.NewMessage]
          fallbackEngine 0).sms.Gateway "b" 5 =
          { ret := (some (failingGateway 7 "boom"), none),
            sms := (runCalls
              [Call.RegisterGateway "a" (some (workingGateway 8 (GoAny.string "sent"))),
               Call.RegisterGatewayCreator "b" (workingCreator (GoAny.string "sent")),
               Call.Gateway "b", Call.Send samplePhone message.NewMessage]
              fallbackEngine 0).sms,
            world := 5, events := [] }) ∧
      (∀ g2, mapGet ((runCalls
          [Call.RegisterGateway "a" (some (workingGateway 8 (GoAny.string "sent"))),
           Call.RegisterGatewayCreator "b" (workingCreator (GoAny.string "sent")),
           Call.Gateway "b", Call.Send samplePhone message.NewMessage]
          fallbackEngine 0).sms.RegisterGateway "b" g2).gateways "b" = some g2) :=
  C21_cache_entry_stays fallbackEngine "b" (some (failingGateway 7 "boom"))
    [Call.RegisterGateway "a" (some (workingGateway 8 (GoAny.string "sent"))),
     Call.RegisterGatewayCreator "b" (workingCreator (GoAny.string "sent")),
     Call.Gateway "b", Call.Send samplePhone message.NewMessage] 0 5 rfl

/-! ## Registering a constructor -/

/-- C29. Registering a constructor: `RegisterGatewayCreator(name, c)` sets the registry
entry of `name` to `c` and changes nothing else: the other registry entries, the cache,
the configuration and the strategy are as before. When `name` is already cached, every
later `Gateway` and `Send` keeps using the cached instance: after any sequence of them
the cache holds it, `Send` resolved `name` to it, `Gateway(name)` returns it, and no
constructor registered under `name`, `c` included, was invoked. -/
theorem C29_register_creator_only_registry {ω : Type} (e : EasySms ω) (name : String)
    (c : NewGatewayCreator ω) :
    (e.RegisterGatewayCreator name c).gateways = e.gateways ∧
      (e.RegisterGatewayCreator name c).config = e.config ∧
      (e.RegisterGatewayCreator name c).strategy = e.strategy ∧
      mapGet (e.RegisterGatewayCreator name c).registry.creators name = some c ∧
      (∀ k, k ≠ name →
        mapGet (e.RegisterGatewayCreator name c).registry.creators k =
          mapGet e.registry.creators k) ∧
      (∀ g, mapGet e.gateways name = some g →
        ∀ (calls : List (Call ω)) (w w' : ω), (∀ k ∈ calls, k.isGatewayOrSend = true) →
          mapGet (runCalls calls (e.RegisterGatewayCreator name c) w).sms.gateways name =
            some g ∧
          (∀ ev ∈ (runCalls calls (e.RegisterGatewayCreator name c) w).events,
            ev.isCreateOf name = false ∧ ev.resolvesTo name (g.map (·.ptr)) = true) ∧
          (runCalls calls (e.RegisterGatewayCreator name c) w).sms.Gateway name w' =
            { ret := (g, none),
              sms := (runCalls calls (e.RegisterGatewayCreator name c) w).sms,
              world := w', events := [] }) := by
  refine ⟨rfl, rfl, rfl, mapGet_mapSet_same _ _ _, ?_, ?_⟩
  · intro k hk
    exact mapGet_mapSet_ne _ _ _ _ hk
  · intro g hg calls w w' hcalls
    have hkeeps : ∀ k ∈ calls, k.keeps name = true := by
      intro k hk
      have := hcalls k hk
      cases k <;> simp_all [Call.isGatewayOrSend, Call.keeps]
    obtain ⟨h1, h2⟩ := runCalls_keeps_entry name g calls (e.RegisterGatewayCreator name c) w
      hkeeps hg
    exact ⟨h1, h2, Gateway_of_cached _ name w' g h1⟩

end easysms

namespace easysms

/-! ## The engine built by `New` -/

/-- The registry after the loop of `registerBuiltinGatewayCreators`. -/
theorem registerBuiltinLoop_creators {ω : Type} (B : Builtins ω) :
    ∀ (names : List String) (e : EasySms ω) (k : String),
      mapGet (registerBuiltinLoop B names e).registry.creators k =
        if k ∈ names then some (builtinCreator B k) else mapGet e.registry.creators k := by
  intro names
  induction names with
  | nil => intro e k; simp [registerBuiltinLoop]
  | cons n rest ih =>
    intro e k
    rw [registerBuiltinLoop, ih]
    simp only [GatewayRegistry.Register, mapGet_mapSet, List.mem_cons]
    by_cases h1 : k ∈ rest
    · simp [h1]
    · by_cases h2 : k = n
      · subst h2; simp
      · simp [h1, h2]

/-- The keys of the registry after the loop, started from an empty registry. -/
theorem registerBuiltinLoop_keys {ω : Type} (B : Builtins ω) :
    ∀ (names : List String) (e : EasySms ω), names.Nodup →
      (∀ n ∈ names, n ∉ mapKeys e.registry.creators) →
      mapKeys (registerBuiltinLoop B names e).registry.creators =
        mapKeys e.registry.creators ++ names := by
  intro names
  induction names with
  | nil => intro e _ _; simp [registerBuiltinLoop]
  | cons n rest ih =>
    intro e hnd hnot
    rw [registerBuiltinLoop, ih]
    · simp only [GatewayRegistry.Register]
      rw [mapKeys_mapSet_of_not_mem _ _ _ (hnot n (List.mem_cons_self _ _))]
      simp
    · exact (List.nodup_cons.mp hnd).2
    · intro m hm
      simp only [GatewayRegistry.Register]
      rw [mem_mapKeys_mapSet]
      rintro (h | h)
      · subst h
        exact (List.nodup_cons.mp hnd).1 hm
      · exact hnot m (List.mem_cons_of_mem _ hm) h

/-- The built-in provider names are pairwise distinct. -/
theorem builtinNames_nodup : builtinNames.Nodup := by decide

/-- The cache after the loop of `autoRegisterGateways`, run with the built-in
constructors registered, over configuration entries with pairwise distinct names. -/
theorem autoRegisterLoop_cache {ω : Type} (B : Builtins ω) :
    ∀ (cfgs : GoMap (GoMap GoAny)) (e : EasySms ω) (w : ω),
      (mapKeys cfgs).Nodup →
      (∀ k, mapGet e.registry.creators k =
        if k ∈ builtinNames then some (builtinCreator B k) else none) →
      (autoRegisterLoop cfgs e w).sms.registry = e.registry ∧
      (autoRegisterLoop cfgs e w).sms.config = e.config ∧
      (autoRegisterLoop cfgs e w).sms.strategy = e.strategy ∧
      ∀ k,
        (k ∈ builtinNames → ∀ gcfg, mapGet cfgs k = some gcfg →
          ∃ gw, mapGet (autoRegisterLoop cfgs e w).sms.gateways k = some (some gw) ∧
            gw.GetName = k ∧ gw.Send = B.Send k gcfg) ∧
        ((k ∉ builtinNames ∨ mapGet cfgs k = none) →
          mapGet (autoRegisterLoop cfgs e w).sms.gateways k = mapGet e.gateways k) := by
  intro cfgs
  induction cfgs with
  | nil =>
    intro e w _ _
    refine ⟨rfl, rfl, rfl, fun k => ⟨?_, fun _ => rfl⟩⟩
    intro _ gcfg h
    simp [mapGet] at h
  | cons a cfgs ih =>
    intro e w hnd hreg
    obtain ⟨name, cfg⟩ := a
    have hnd' : (mapKeys cfgs).Nodup := by
      simp only [mapKeys, List.map_cons, List.nodup_cons] at hnd
      exact hnd.2
    have hfresh : mapGet cfgs name = none := by
      rw [mapGet_eq_none_iff]
      simp only [mapKeys, List.map_cons, List.nodup_cons] at hnd
      exact hnd.1
    by_cases hb : name ∈ builtinNames
    · have hcr : mapGet e.registry.creators name = some (builtinCreator B name) := by
        rw [hreg name, if_pos hb]
      have hhas : e.registry.HasCreator name = true := by
        simp [GatewayRegistry.HasCreator, hcr]
      have hstep : autoRegisterLoop ((name, cfg) :: cfgs) e w =
          (autoRegisterLoop cfgs
            (e.RegisterGateway name
              (some { ptr := (B.alloc w).1, GetName := name, Send := B.Send name cfg,
                      SendPanics := B.SendPanics name cfg }))
            (B.alloc w).2).after
            [Event.create name cfg (some (B.alloc w).1) none] := by
        rw [autoRegisterLoop]
        simp [hhas, GatewayRegistry.Create, hcr, builtinCreator, newProviderGateway]
      obtain ⟨i1, i2, i3, i4⟩ := ih
        (e.RegisterGateway name
          (some { ptr := (B.alloc w).1, GetName := name, Send := B.Send name cfg,
                  SendPanics := B.SendPanics name cfg }))
        (B.alloc w).2 hnd' hreg
      rw [hstep]
      refine ⟨i1, i2, i3, ?_⟩
      intro k
      by_cases hk : k = name
      · subst hk
        have hval := (i4 k).2 (Or.inr hfresh)
        simp only [EasySms.RegisterGateway, mapGet_mapSet_same] at hval
        refine ⟨?_, ?_⟩
        · intro _ gcfg hg
          simp only [mapGet, if_true, Option.some.injEq] at hg
          subst hg
          exact ⟨_, hval, rfl, rfl⟩
        · rintro (h | h)
          · exact absurd hb h
          · simp [mapGet] at h
      · have hne : name ≠ k := fun h => hk h.symm
        have hget : mapGet ((name, cfg) :: cfgs) k = mapGet cfgs k := by
          simp [mapGet, hne]
        rw [hget]
        refine ⟨(i4 k).1, ?_⟩
        intro h
        have hval := (i4 k).2 h
        simp only [EasySms.RegisterGateway, mapGet_mapSet_ne _ _ _ _ hk] at hval
        exact hval
    · have hhas : ¬ e.registry.HasCreator name = true := by
        simp [GatewayRegistry.HasCreator, hreg name, hb]
      have hstep : autoRegisterLoop ((name, cfg) :: cfgs) e w = autoRegisterLoop cfgs e w := by
        rw [autoRegisterLoop]
        simp [hhas]
      obtain ⟨i1, i2, i3, i4⟩ := ih e w hnd' hreg
      rw [hstep]
      refine ⟨i1, i2, i3, ?_⟩
      intro k
      by_cases hk : k = name
      · subst hk
        exact ⟨fun h => absurd h hb, fun _ => (i4 k).2 (Or.inl hb)⟩
      · have hne : name ≠ k := fun h => hk h.symm
        have hget : mapGet ((name, cfg) :: cfgs) k = mapGet cfgs k := by
          simp [mapGet, hne]
        rw [hget]
        exact i4 k

/-- C30. The engine built by `New`: its registry holds a constructor for exactly the 32
built-in provider names, each the provider's own; its cache holds exactly the configured
names that are built-in provider names; the instance cached under such a name was built
from that name's configuration entry and reports the name as its `GetName()`; configured
names that are not built-in are not cached. The configuration is a Go map, so its names
are pairwise distinct. -/
theorem C30_new_engine {ω : Type} (B : Builtins ω) (c : config.Config ω) (w : ω)
    (hkeys : (mapKeys c.GatewayConfigs).Nodup) :
    mapKeys (New B (some c) w).sms.registry.creators = builtinNames ∧
      builtinNames.length = 32 ∧ builtinNames.Nodup ∧
      (∀ k, (New B (some c) w).sms.registry.HasCreator k = true ↔ k ∈ builtinNames) ∧
      (∀ k ∈ builtinNames,
        mapGet (New B (some c) w).sms.registry.creators k = some (builtinCreator B k)) ∧
      (∀ k, k ∈ mapKeys (New B (some c) w).sms.gateways ↔
        (k ∈ mapKeys c.GatewayConfigs ∧ k ∈ builtinNames)) ∧
      (∀ k gcfg, k ∈ builtinNames → mapGet c.GatewayConfigs k = some gcfg →
        ∃ gw, mapGet (New B (some c) w).sms.gateways k = some (some gw) ∧
          gw.GetName = k ∧ gw.Send = B.Send k gcfg) ∧
      (∀ k, k ∈ mapKeys c.GatewayConfigs → k ∉ builtinNames →
        mapGet (New B (some c) w).sms.gateways k = none) := by
  have hshape : ∃ sms0 : EasySms ω, sms0.gateways = [] ∧ sms0.registry.creators = [] ∧
      sms0.config.GatewayConfigs = c.GatewayConfigs ∧
      New B (some c) w =
        autoRegisterLoop (registerBuiltinLoop B builtinNames sms0).config.GatewayConfigs
          (registerBuiltinLoop B builtinNames sms0) w := by
    unfold New EasySms.autoRegisterGateways EasySms.registerBuiltinGatewayCreators
    dsimp only
    refine ⟨_, ?_, ?_, ?_, rfl⟩
    · rfl
    · rfl
    · cases c.Strategy <;> rfl
  obtain ⟨sms0, hg0, hr0, hc0, hnew⟩ := hshape
  rw [(registerBuiltinLoop_frame B builtinNames sms0).2.1, hc0] at hnew
  have hreg : ∀ k, mapGet (registerBuiltinLoop B builtinNames sms0).registry.creators k =
      if k ∈ builtinNames then some (builtinCreator B k) else none := by
    intro k
    rw [registerBuiltinLoop_creators, hr0]
    rfl
  have hregkeys : mapKeys (registerBuiltinLoop B builtinNames sms0).registry.creators =
      builtinNames := by
    rw [registerBuiltinLoop_keys B builtinNames sms0 builtinNames_nodup, hr0]
    · rfl
    · intro n _
      rw [hr0]
      simp [mapKeys]
  obtain ⟨i1, _, _, i4⟩ := autoRegisterLoop_cache B c.GatewayConfigs
    (registerBuiltinLoop B builtinNames sms0) w hkeys hreg
  have hstart : ∀ k, mapGet (registerBuiltinLoop B builtinNames sms0).gateways k = none := by
    intro k
    rw [(registerBuiltinLoop_frame B builtinNames sms0).1, hg0]
    rfl
  rw [hnew]
  refine ⟨by rw [i1]; exact hregkeys, rfl, builtinNames_nodup, ?_, ?_, ?_, ?_, ?_⟩
  · intro k
    rw [i1]
    simp only [GatewayRegistry.HasCreator, hreg k]
    by_cases hk : k ∈ builtinNames <;> simp [hk]
  · intro k hk
    rw [i1, hreg k, if_pos hk]
  · intro k
    rw [← mapGet_isSome_iff]
    constructor
    · intro h
      by_cases hk : k ∈ builtinNames
      · refine ⟨?_, hk⟩
        by_contra hnot
        have := (i4 k).2 (Or.inr ((mapGet_eq_none_iff _ _).mpr hnot))
        rw [this, hstart k] at h
        simp at h
      · have := (i4 k).2 (Or.inl hk)
        rw [this, hstart k] at h
        simp at h
    · rintro ⟨hcfg, hk⟩
      have hsome : (mapGet c.GatewayConfigs k).isSome := (mapGet_isSome_iff _ _).mpr hcfg
      obtain ⟨gcfg, hgcfg⟩ := Option.isSome_iff_exists.mp hsome
      obtain ⟨gw, hgw, _⟩ := (i4 k).1 hk gcfg hgcfg
      rw [hgw]
      rfl
  · intro k gcfg hk hgcfg
    exact (i4 k).1 hk gcfg hgcfg
  · intro k _ hk
    rw [(i4 k).2 (Or.inl hk)]
    exact hstart k

/-- C30 at the sample configuration: `errorlog` is built in and cached, `mock` is
configured but not built in. -/
theorem C30_new_engine_witness :
    mapKeys (New sampleBuiltins
        (some { errorlogConfig with
          GatewayConfigs := errorlogConfig.GatewayConfigs ++ mockConfig.GatewayConfigs })
        0).sms.registry.creators = builtinNames ∧
      builtinNames.length = 32 ∧ builtinNames.Nodup ∧
      (∀ k, (New sampleBuiltins
        (some { errorlogConfig with
          GatewayConfigs := errorlogConfig.GatewayConfigs ++ mockConfig.GatewayConfigs })
        0).sms.registry.HasCreator k = true ↔ k ∈ builtinNames) ∧
      (∀ k ∈ builtinNames,
        mapGet (New sampleBuiltins
          (some { errorlogConfig with
            GatewayConfigs := errorlogConfig.GatewayConfigs ++ mockConfig.GatewayConfigs })
          0).sms.registry.creators k = some (builtinCreator sampleBuiltins k)) ∧
      (∀ k, k ∈ mapKeys (New sampleBuiltins
          (some { errorlogConfig with
            GatewayConfigs := errorlogConfig.GatewayConfigs ++ mockConfig.GatewayConfigs })
          0).sms.gateways ↔
        (k ∈ mapKeys (errorlogConfig.GatewayConfigs ++ mockConfig.GatewayConfigs) ∧
          k ∈ builtinNames)) ∧
      (∀ k gcfg, k ∈ builtinNames →
        mapGet (errorlogConfig.GatewayConfigs ++ mockConfig.GatewayConfigs) k = some gcfg →
        ∃ gw, mapGet (New sampleBuiltins
            (some { errorlogConfig with
              GatewayConfigs := errorlogConfig.GatewayConfigs ++ mockConfig.GatewayConfigs })
            0).sms.gateways k = some (some gw) ∧
          gw.GetName = k ∧ gw.Send = sampleBuiltins.Send k gcfg) ∧
      (∀ k, k ∈ mapKeys (errorlogConfig.GatewayConfigs ++ mockConfig.GatewayConfigs) →
        k ∉ builtinNames →
        mapGet (New sampleBuiltins
          (some { errorlogConfig with
            GatewayConfigs := errorlogConfig.GatewayConfigs ++ mockConfig.GatewayConfigs })
          0).sms.gateways k = none) :=
  C30_new_engine sampleBuiltins
    { errorlogConfig with
      GatewayConfigs := errorlogConfig.GatewayConfigs ++ mockConfig.GatewayConfigs }
    0 (by decide)

end easysms

namespace easysms

/-! ## Phone numbers -/

/-- C23. Phone number formats: for every phone number with number `s` and dialing code
`c`, `GetUniversalNumber()` and `String()` return `+`, the decimal digits of `c`, then `s`
when `c > 0`, and `s` otherwise; `GetZeroPrefixedNumber()` returns `00`, the decimal digits
of `c`, then `s` when `c > 0`, and `s` otherwise; a number built without a code has code
0; and `("13800138000", 31)` gives `+3113800138000` and `003113800138000`. -/
theorem C23_phone_number_formats (s : String) (c : Int) (more : List Int) :
    (message.NewPhoneNumberCode s (c :: more)).Number = s ∧
      (message.NewPhoneNumberCode s (c :: more)).IDDCode = c ∧
      (message.NewPhoneNumberCode s (c :: more)).GetUniversalNumber =
        (if c > 0 then "+" ++ Nat.repr c.toNat ++ s else s) ∧
      (message.NewPhoneNumberCode s (c :: more)).String =
        (if c > 0 then "+" ++ Nat.repr c.toNat ++ s else s) ∧
      (message.NewPhoneNumberCode s (c :: more)).GetZeroPrefixedNumber =
        (if c > 0 then "00" ++ Nat.repr c.toNat ++ s else s) ∧
      message.NewPhoneNumberCode s [] = message.NewPhoneNumber s ∧
      (message.NewPhoneNumber s).GetUniversalNumber = s ∧
      (message.NewPhoneNumber s).String = s ∧
      (message.NewPhoneNumber s).GetZeroPrefixedNumber = s ∧
      (message.NewPhoneNumberCode "13800138000" [31]).GetUniversalNumber =
        "+3113800138000" ∧
      (message.NewPhoneNumberCode "13800138000" [31]).String = "+3113800138000" ∧
      (message.NewPhoneNumberCode "13800138000" [31]).GetZeroPrefixedNumber =
        "003113800138000" := by
  have hfmt : c > 0 → message.fmtD c = Nat.repr c.toNat := by
    intro hc
    have h1 : ¬ c < 0 := by omega
    have h2 : c.natAbs = c.toNat := by omega
    simp [message.fmtD, h1, h2]
  have hnew : message.NewPhoneNumberCode s (c :: more) = { Number := s, IDDCode := c } := by
    simp [message.NewPhoneNumberCode]
  rw [hnew]
  refine ⟨rfl, rfl, ?_, ?_, ?_, rfl, rfl, rfl, rfl, by decide, by decide, by decide⟩
  · by_cases hc : c > 0
    · simp [message.PhoneNumber.GetUniversalNumber, hc, hfmt hc]
    · simp [message.PhoneNumber.GetUniversalNumber, hc]
  · by_cases hc : c > 0
    · simp [message.PhoneNumber.String, hc, hfmt hc]
    · simp [message.PhoneNumber.String, hc]
  · by_cases hc : c > 0
    · simp [message.PhoneNumber.GetZeroPrefixedNumber, hc, hfmt hc]
    · simp [message.PhoneNumber.GetZeroPrefixedNumber, hc]

/-! ## `SimpleSend` -/

/-- The gateway name computed in the blocks of `SimpleSend` is the one the specification
describes. -/
theorem simpleSend_gatewayName {ω : Type} (e : EasySms ω) (d : GoMap (MessageValue ω))
    (msg : message.Message) (hm : msg.Gateways = simpleGateways d) :
    (if msg.GetGateways.length > 0 then msg.GetGateways.getD 0 ""
      else if e.config.DefaultGateways.length > 0 then e.config.DefaultGateways.getD 0 ""
      else "") = simpleGatewayName e d := by
  unfold simpleGatewayName
  rw [message.Message.GetGateways, hm]
  cases simpleGateways d with
  | cons g gs => simp
  | nil =>
    cases e.config.DefaultGateways with
    | cons g gs => simp
    | nil => simp

/-- The first block. -/
theorem simpleSendGateways_eq {ω : Type} (d : GoMap (MessageValue ω)) :
    simpleSendGateways d message.NewMessage =
      { message.NewMessage with Gateways := simpleGateways d } := by
  unfold simpleSendGateways simpleGateways
  rcases mapGet d "gateways" with _ | (v | m | f | f)
  · rfl
  · cases v <;> rfl
  · rfl
  · rfl
  · rfl

/-- The block of the content. -/
theorem simpleSendContent_eq {ω : Type} (e : EasySms ω) (d : GoMap (MessageValue ω))
    (msg : message.Message) (w : ω) (hm : msg.Gateways = simpleGateways d) :
    simpleSendContent e d msg w =
      ({ msg with Content :=
          (simpleText (mapGet d "content") (simpleGatewayName e d) w).1.getD msg.Content },
        (simpleText (mapGet d "content") (simpleGatewayName e d) w).2) := by
  unfold simpleSendContent
  dsimp only
  rw [simpleSend_gatewayName e d msg hm]
  unfold simpleText
  rcases mapGet d "content" with _ | (v | m | f | f)
  · rfl
  · cases v <;> rfl
  · rfl
  · rfl
  · rfl

/-- The block of the template. -/
theorem simpleSendTemplate_eq {ω : Type} (e : EasySms ω) (d : GoMap (MessageValue ω))
    (msg : message.Message) (w : ω) (hm : msg.Gateways = simpleGateways d) :
    simpleSendTemplate e d msg w =
      ({ msg with Template :=
          (simpleText (mapGet d "template") (simpleGatewayName e d) w).1.getD msg.Template },
        (simpleText (mapGet d "template") (simpleGatewayName e d) w).2) := by
  unfold simpleSendTemplate
  dsimp only
  rw [simpleSend_gatewayName e d msg hm]
  unfold simpleText
  rcases mapGet d "template" with _ | (v | m | f | f)
  · rfl
  · cases v <;> rfl
  · rfl
  · rfl
  · rfl

/-- The block of the data. -/
theorem simpleSendData_eq {ω : Type} (e : EasySms ω) (d : GoMap (MessageValue ω))
    (msg : message.Message) (w : ω) (hm : msg.Gateways = simpleGateways d) :
    simpleSendData e d msg w =
      ({ msg with Data :=
          (simpleData (mapGet d "data") (simpleGatewayName e d) w).1.getD msg.Data },
        (simpleData (mapGet d "data") (simpleGatewayName e d) w).2) := by
  unfold simpleSendData
  dsimp only
  rw [simpleSend_gatewayName e d msg hm]
  unfold simpleData
  rcases mapGet d "data" with _ | (v | m | f | f)
  · rfl
  · rfl
  · rfl
  · rfl
  · rfl

/-- C22. `SimpleSend` refines `Send`: for every phone string and message data,
`SimpleSend` returns, and does, exactly what `Send` does for the phone number without
dialing code and the message described by the specification, a fresh message whose
gateways are the entry `gateways` when it is a list of strings and whose content,
template and data are the entries given as plain values or as functions applied to the
first message gateway, else the first default gateway, else the empty string. -/
theorem C22_simple_send_refines_send {ω : Type} (e : EasySms ω) (phone : String)
    (d : GoMap (MessageValue ω)) (w : ω) :
    e.SimpleSend phone d w =
        e.Send (message.NewPhoneNumber phone) (simpleMessage e d w).1 (simpleMessage e d w).2 ∧
      (simpleMessage e d w).1.Typ = message.NewMessage.Typ ∧
      (∀ l, mapGet d "gateways" = some (MessageValue.plain (GoAny.strings l)) →
        (simpleMessage e d w).1.Gateways = l) ∧
      (∀ s, mapGet d "content" = some (MessageValue.plain (GoAny.string s)) →
        (simpleMessage e d w).1.Content = s) ∧
      (∀ f, mapGet d "content" = some (MessageValue.stringFunc f) →
        (simpleMessage e d w).1.Content = (f (simpleGatewayName e d) w).1) ∧
      (mapGet d "content" = none → (simpleMessage e d w).1.Content = "") ∧
      simpleMessage fallbackEngine sampleMessageData 0 =
        ({ Typ := "text", Content := "hello", Template := "tpl-a", Data := [],
           Gateways := [] }, 1) ∧
      (fallbackEngine.SimpleSend "13800138000" sampleMessageData 0).ret =
        (fallbackEngine.Send samplePhone
          { Typ := "text", Content := "hello", Template := "tpl-a", Data := [],
            Gateways := [] } 1).ret := by
  refine ⟨?_, rfl, ?_, ?_, ?_, ?_, by decide, by decide⟩
  · unfold EasySms.SimpleSend simpleMessage
    dsimp only
    rw [simpleSendGateways_eq, simpleSendContent_eq e d _ w rfl,
      simpleSendTemplate_eq e d _ _ rfl, simpleSendData_eq e d _ _ rfl]
    rfl
  · intro l h
    simp [simpleMessage, simpleGateways, h]
  · intro s h
    simp [simpleMessage, simpleText, h]
  · intro f h
    simp [simpleMessage, simpleText, h]
  · intro h
    simp [simpleMessage, simpleText, h]

end easysms

namespace gateway

/-! ## The configuration getters of the base gateway -/

/-- The integer next to a rational towards zero, by floor and ceiling. -/
theorem tdiv_eq_trunc (v : ℚ) :
    Int.tdiv v.num v.den = if 0 ≤ v then ⌊v⌋ else ⌈v⌉ := by
  have hden : (0 : Int) ≤ (v.den : Int) := Int.natCast_nonneg _
  by_cases hv : 0 ≤ v
  · rw [if_pos hv, Int.tdiv_eq_ediv (Rat.num_nonneg.mpr hv) hden, Rat.floor_def]
  · rw [if_neg hv]
    have hneg : 0 ≤ -v := by linarith
    have h1 : Int.tdiv (-v).num (-v).den = ⌊-v⌋ := by
      rw [Int.tdiv_eq_ediv (Rat.num_nonneg.mpr hneg) (Int.natCast_nonneg _), Rat.floor_def]
    have h2 : (-v).num = -v.num := Rat.num_neg_eq_neg_num v
    have h3 : (-v).den = v.den := Rat.den_neg_eq_den v
    rw [h2, h3, Int.neg_tdiv] at h1
    have h4 : ⌈v⌉ = -⌊-v⌋ := by
      have := Int.ceil_neg (a := -v)
      rwa [neg_neg] at this
    rw [h4, ← h1, neg_neg]

/-- The conversion of a float to an integer, by floor and ceiling. -/
theorem floatToInt_eq (L : Float64Lib) (v : ℚ) :
    floatToInt L v =
      if -2 ^ 63 - 1 < v ∧ v < 2 ^ 63 then (if 0 ≤ v then ⌊v⌋ else ⌈v⌉)
      else int64Wrap (L.outOfRange v) := by
  have hrange : (-2 ^ 63 ≤ Int.tdiv v.num v.den ∧ Int.tdiv v.num v.den < 2 ^ 63) ↔
      (-2 ^ 63 - 1 < v ∧ v < 2 ^ 63) := by
    rw [tdiv_eq_trunc]
    by_cases hv : 0 ≤ v
    · rw [if_pos hv]
      have h0 : 0 ≤ ⌊v⌋ := Int.floor_nonneg.mpr hv
      have hlt : ⌊v⌋ < 2 ^ 63 ↔ v < 2 ^ 63 := by
        rw [Int.floor_lt]
        norm_num
      constructor
      · rintro ⟨_, h⟩
        exact ⟨by linarith, hlt.mp h⟩
      · rintro ⟨_, h⟩
        exact ⟨by omega, hlt.mpr h⟩
    · rw [if_neg hv]
      have hv' : v < 0 := lt_of_not_le hv
      have h0 : ⌈v⌉ ≤ 0 := by
        rw [Int.ceil_le]
        exact_mod_cast le_of_lt hv'
      have hge : -2 ^ 63 ≤ ⌈v⌉ ↔ -2 ^ 63 - 1 < v := by
        have : (-2 ^ 63 - 1 : Int) < ⌈v⌉ ↔ ((-2 ^ 63 - 1 : Int) : ℚ) < v := Int.lt_ceil
        have hcast : ((-2 ^ 63 - 1 : Int) : ℚ) = -2 ^ 63 - 1 := by norm_num
        rw [hcast] at this
        rw [← this]
        omega
      constructor
      · rintro ⟨h, _⟩
        exact ⟨hge.mp h, by linarith⟩
      · rintro ⟨h, _⟩
        exact ⟨hge.mpr h, by omega⟩
  unfold floatToInt
  dsimp only
  by_cases h : -2 ^ 63 ≤ Int.tdiv v.num v.den ∧ Int.tdiv v.num v.den < 2 ^ 63
  · rw [if_pos h, if_pos (hrange.mp h), tdiv_eq_trunc]
  · rw [if_neg h, if_neg (fun h' => h (hrange.mpr h'))]

/-- The number of excess bits of an integer below `2 ^ (53 + fuel)` bounds it. -/
theorem excessBits_lt (fuel p : Nat) (h : p < 2 ^ 53 * 2 ^ fuel) :
    p < 2 ^ 53 * 2 ^ strategy.excessBits fuel p := by
  induction fuel generalizing p with
  | zero => simpa [strategy.excessBits] using h
  | succ fuel ih =>
    by_cases hp : p < 2 ^ 53
    · have e : strategy.excessBits (fuel + 1) p = 0 := if_pos hp
      rw [e]
      simpa using hp
    · have e : strategy.excessBits (fuel + 1) p = strategy.excessBits fuel (p / 2) + 1 :=
        if_neg hp
      have h2 : p / 2 < 2 ^ 53 * 2 ^ fuel := by
        rw [pow_succ] at h
        omega
      have := ih (p / 2) h2
      rw [e, pow_succ]
      omega

/-- Rounding to 53 bits gives a nearest multiple of the unit, and on a tie the even
one. -/
theorem round53_nearest (p : Nat) :
    2 ^ strategy.excessBits 53 p ∣ strategy.round53 p ∧
      2 * strategy.round53 p ≤ 2 * p + 2 ^ strategy.excessBits 53 p ∧
      2 * p ≤ 2 * strategy.round53 p + 2 ^ strategy.excessBits 53 p ∧
      ((2 * strategy.round53 p = 2 * p + 2 ^ strategy.excessBits 53 p ∨
          2 * p = 2 * strategy.round53 p + 2 ^ strategy.excessBits 53 p) →
        2 * 2 ^ strategy.excessBits 53 p ∣ strategy.round53 p) := by
  unfold strategy.round53
  dsimp only
  have hdm : 2 ^ strategy.excessBits 53 p * (p / 2 ^ strategy.excessBits 53 p) +
      p % 2 ^ strategy.excessBits 53 p = p := Nat.div_add_mod p _
  have hlt : p % 2 ^ strategy.excessBits 53 p < 2 ^ strategy.excessBits 53 p :=
    Nat.mod_lt _ (by positivity)
  generalize 2 ^ strategy.excessBits 53 p = S at hdm hlt ⊢
  generalize p / S = q at hdm ⊢
  generalize p % S = r at hdm hlt ⊢
  have hq : S * q = q * S := Nat.mul_comm _ _
  have hq1 : (q + 1) * S = q * S + S := by ring
  by_cases hc : S < 2 * r ∨ (2 * r = S ∧ q % 2 = 1)
  · rw [if_pos hc]
    refine ⟨Dvd.intro_left _ rfl, ?_, ?_, ?_⟩
    · rcases hc with hc | ⟨hc, _⟩ <;> omega
    · omega
    · intro htie
      have hrS : 2 * r = S := by rcases hc with hc | ⟨hc, _⟩ <;> omega
      have hodd : q % 2 = 1 := by
        rcases hc with hc | ⟨_, hc⟩
        · omega
        · exact hc
      refine ⟨(q + 1) / 2, ?_⟩
      have hk : q + 1 = 2 * ((q + 1) / 2) := by omega
      calc (q + 1) * S = (2 * ((q + 1) / 2)) * S := by rw [← hk]
        _ = 2 * S * ((q + 1) / 2) := by ring
  · rw [if_neg hc]
    refine ⟨Dvd.intro_left _ rfl, ?_, ?_, ?_⟩
    · omega
    · have : ¬ S < 2 * r := fun h => hc (Or.inl h)
      omega
    · intro htie
      have hrS : 2 * r = S := by omega
      have heven : q % 2 = 0 := by
        have : ¬ q % 2 = 1 := fun h => hc (Or.inr ⟨hrS, h⟩)
        omega
      refine ⟨q / 2, ?_⟩
      have hk : q = 2 * (q / 2) := by omega
      calc q * S = (2 * (q / 2)) * S := by rw [← hk]
        _ = 2 * S * (q / 2) := by ring

/-- An integer of magnitude up to `2 ^ 53` is a `float64`. -/
theorem intToFloat_small (n : Int) (hn : n.natAbs ≤ 2 ^ 53) : intToFloat n = (n : ℚ) := by
  have hr : strategy.round53 n.natAbs = n.natAbs := by
    by_cases hlt : n.natAbs < 2 ^ 53
    · apply strategy.round53_of_no_excess
      unfold strategy.excessBits
      rw [if_pos hlt]
    · have heq : n.natAbs = 2 ^ 53 := by omega
      rw [heq]
      decide
  unfold intToFloat
  rw [hr]
  by_cases hneg : n < 0
  · rw [if_pos hneg, Nat.cast_natAbs, abs_of_neg hneg]
    push_cast
    ring
  · rw [if_neg hneg, Nat.cast_natAbs, abs_of_nonneg (not_lt.mp hneg)]

/-- C24. Typed configuration getters: each of `GetConfigString`, `GetConfigInt`,
`GetConfigFloat` and `GetConfigBool` returns the coerced value when the key is present
with a value it can coerce, whatever the defaults, and otherwise, the key being absent or
its value not coercible, the first default supplied, or the zero value of its type when
none is supplied. The string `456` is coerced to the integer 456 and the string `true` to
the boolean true; a float is coerced to the integer next to it towards zero, and an
integer to the nearest `float64`, itself up to `2 ^ 53`. -/
theorem C24_config_getters (L : Float64Lib) (g : BaseGateway) (key : String)
    (ds : List String) (di : List Int) (df : List ℚ) (db : List Bool) :
    g.GetConfigString key ds =
        ((mapGet g.Config key).bind coerceString).getD (ds.headD "") ∧
      g.GetConfigInt L key di =
        ((mapGet g.Config key).bind (coerceInt L)).getD (di.headD 0) ∧
      g.GetConfigFloat L key df =
        ((mapGet g.Config key).bind (coerceFloat L)).getD (df.headD 0) ∧
      g.GetConfigBool key db =
        ((mapGet g.Config key).bind coerceBool).getD (db.headD false) ∧
      (mapGet g.Config key = none →
        g.GetConfigString key ds = ds.headD "" ∧ g.GetConfigInt L key di = di.headD 0 ∧
        g.GetConfigFloat L key df = df.headD 0 ∧ g.GetConfigBool key db = db.headD false) ∧
      ([].headD "" = "" ∧ ([] : List Int).headD 0 = 0 ∧ ([] : List ℚ).headD 0 = 0 ∧
        [].headD false = false) ∧
      (∀ v : ℚ, mapGet g.Config key = some (GoAny.float64 v) → 0 ≤ v → v < 2 ^ 63 →
        g.GetConfigInt L key di = ⌊v⌋) ∧
      (∀ v : ℚ, mapGet g.Config key = some (GoAny.float64 v) → v < 0 → -2 ^ 63 - 1 < v →
        g.GetConfigInt L key di = ⌈v⌉) ∧
      (∀ n : Int, mapGet g.Config key = some (GoAny.int n) → n.natAbs ≤ 2 ^ 53 →
        g.GetConfigFloat L key df = (n : ℚ)) ∧
      (∀ n : Int, mapGet g.Config key = some (GoAny.int n) → n.natAbs ≤ 2 ^ 63 →
        ∃ s r : Nat,
          g.GetConfigFloat L key df = (if n < 0 then -(r : ℚ) else (r : ℚ)) ∧
          n.natAbs < 2 ^ 53 * 2 ^ s ∧ (0 < s → 2 ^ 52 * 2 ^ s ≤ n.natAbs) ∧
          2 ^ s ∣ r ∧ 2 * r ≤ 2 * n.natAbs + 2 ^ s ∧ 2 * n.natAbs ≤ 2 * r + 2 ^ s ∧
          ((2 * r = 2 * n.natAbs + 2 ^ s ∨ 2 * n.natAbs = 2 * r + 2 ^ s) →
            2 * 2 ^ s ∣ r)) ∧
      (Atoi "456" = some 456 ∧ Atoi "-12" = some (-12) ∧ Atoi "+7" = some 7 ∧
        Atoi "" = none ∧ Atoi "-" = none ∧ Atoi "abc" = none ∧ Atoi "12a" = none ∧
        Atoi "4.5" = none ∧ Atoi "9223372036854775807" = some 9223372036854775807 ∧
        Atoi "9223372036854775808" = none ∧
        Atoi "-9223372036854775808" = some (-9223372036854775808)) ∧
      coerceInt L (GoAny.string "456") = some 456 ∧
      coerceBool (GoAny.string "true") = some true ∧
      coerceInt L (GoAny.string "abc") = none ∧
      coerceBool (GoAny.string "maybe") = none ∧
      coerceString (GoAny.int 1) = none ∧
      (isFloat64 float123_45 ∧ isFloat64 float456_78) ∧
      (NewBaseGateway L "test" sampleBaseConfig).GetConfigString "string_value" [] = "test" ∧
      (NewBaseGateway L "test" sampleBaseConfig).GetConfigString "non_existent" ["default"] =
        "default" ∧
      (NewBaseGateway L "test" sampleBaseConfig).GetConfigInt L "int_value" [] = 123 ∧
      (NewBaseGateway L "test" sampleBaseConfig).GetConfigInt L "string_int" [7] = 456 ∧
      (NewBaseGateway L "test" sampleBaseConfig).GetConfigInt L "non_existent" [789] = 789 ∧
      (NewBaseGateway L "test" sampleBaseConfig).GetConfigInt L "missing_value" [] = 0 ∧
      (NewBaseGateway L "test" sampleBaseConfig).GetConfigInt L "float_value" [7] = 123 ∧
      (NewBaseGateway L "test" sampleBaseConfig).GetConfigFloat L "float_value" [1] =
        float123_45 ∧
      (NewBaseGateway L "test" sampleBaseConfig).GetConfigFloat L "int_value" [1] = 123 ∧
      (NewBaseGateway sampleFloat64Lib "test" sampleBaseConfig).GetConfigFloat
          sampleFloat64Lib "string_float" [1] = float456_78 ∧
      (NewBaseGateway sampleFloat64Lib "test" sampleBaseConfig).GetConfigFloat
          sampleFloat64Lib "string_value" [1] = 1 ∧
      (NewBaseGateway L "test" sampleBaseConfig).GetConfigBool "bool_value" [] = true ∧
      (NewBaseGateway L "test" sampleBaseConfig).GetConfigBool "string_bool" [false] = true ∧
      (NewBaseGateway L "test" sampleBaseConfig).GetConfigBool "non_existent" [true] = true := by
  have hs : ∀ (l : List String), (if l.length > 0 then l.getD 0 "" else "") = l.headD "" := by
    intro l; cases l <;> simp
  have hi : ∀ (l : List Int), (if l.length > 0 then l.getD 0 0 else 0) = l.headD 0 := by
    intro l; cases l <;> simp
  have hf : ∀ (l : List ℚ), (if l.length > 0 then l.getD 0 0 else 0) = l.headD 0 := by
    intro l; cases l <;> simp
  have hb : ∀ (l : List Bool), (if l.length > 0 then l.getD 0 false else false) =
      l.headD false := by
    intro l; cases l <;> simp
  have e1 : g.GetConfigString key ds =
      ((mapGet g.Config key).bind coerceString).getD (ds.headD "") := by
    unfold BaseGateway.GetConfigString
    rw [hs]
    rcases mapGet g.Config key with _ | v
    · rfl
    · cases v <;> rfl
  have e2 : ∀ (g : BaseGateway) (key : String) (di : List Int), g.GetConfigInt L key di =
      ((mapGet g.Config key).bind (coerceInt L)).getD (di.headD 0) := by
    intro g key di
    unfold BaseGateway.GetConfigInt
    rw [hi]
    rcases mapGet g.Config key with _ | v
    · rfl
    · cases v with
      | string s =>
        simp only [Option.bind, coerceInt]
        cases Atoi s <;> rfl
      | float64 v =>
        simp only [Option.bind, coerceInt, Option.getD_some]
        exact floatToInt_eq L v
      | _ => rfl
  have e3 : ∀ (L : Float64Lib) (g : BaseGateway) (key : String) (df : List ℚ),
      g.GetConfigFloat L key df =
        ((mapGet g.Config key).bind (coerceFloat L)).getD (df.headD 0) := by
    intro L g key df
    unfold BaseGateway.GetConfigFloat
    rw [hf]
    rcases mapGet g.Config key with _ | v
    · rfl
    · cases v with
      | string s =>
        simp only [Option.bind, coerceFloat]
        cases L.ParseFloat s <;> rfl
      | _ => rfl
  have e4 : g.GetConfigBool key db =
      ((mapGet g.Config key).bind coerceBool).getD (db.headD false) := by
    unfold BaseGateway.GetConfigBool
    rw [hb]
    rcases mapGet g.Config key with _ | v
    · rfl
    · cases v with
      | string s =>
        simp only [Option.bind, coerceBool, List.mem_cons, List.mem_singleton,
          List.not_mem_nil, or_false]
        by_cases h1 : s = "true" ∨ s = "1" ∨ s = "yes"
        · simp [h1]
        · by_cases h2 : s = "false" ∨ s = "0" ∨ s = "no"
          · simp [h1, h2]
          · simp [h1, h2]
      | _ => rfl
  have hsmall := intToFloat_small
  have hatoi : Atoi "456" = some 456 := by decide
  have habc : Atoi "abc" = none := by decide
  have h123 : (⌊float123_45⌋ : Int) = 123 := by
    rw [Int.floor_eq_iff]
    unfold float123_45
    constructor <;> norm_num
  refine ⟨e1, e2 g key di, e3 L g key df, e4, ?_, ⟨rfl, rfl, rfl, rfl⟩, ?_, ?_, ?_, ?_,
    ⟨hatoi, by decide, by decide, by decide, by decide, habc, by decide, by decide,
      by decide, by decide, by decide⟩,
    hatoi, by decide, habc, by decide, rfl, ⟨?_, ?_⟩, rfl, rfl, rfl, ?_, rfl, rfl, ?_, rfl,
    ?_, ?_, ?_, rfl, rfl, rfl⟩
  · intro h
    rw [e1, e2, e3, e4, h]
    exact ⟨rfl, rfl, rfl, rfl⟩
  · intro v hv h0 h63
    rw [e2, hv]
    have hr : -2 ^ 63 - 1 < v ∧ v < 2 ^ 63 := ⟨by linarith, h63⟩
    simp [coerceInt, hr, h0]
  · intro v hv h0 h63
    rw [e2, hv]
    have hr : -2 ^ 63 - 1 < v ∧ v < 2 ^ 63 := ⟨h63, by linarith⟩
    have h0' : ¬ 0 ≤ v := not_le.mpr h0
    simp [coerceInt, hr, h0']
  · intro n hn hsm
    rw [e3, hn]
    simp [coerceFloat, hsmall n hsm]
  · intro n hn h63
    rw [e3, hn]
    have hlt : n.natAbs < 2 ^ 53 * 2 ^ 53 := by
      have : (2 : Nat) ^ 63 < 2 ^ 53 * 2 ^ 53 := by norm_num
      omega
    obtain ⟨hd, hup, hlo, htie⟩ := round53_nearest n.natAbs
    refine ⟨strategy.excessBits 53 n.natAbs, strategy.round53 n.natAbs, ?_,
      excessBits_lt 53 _ hlt, strategy.excessBits_pos 53 _, hd, hup, hlo, htie⟩
    simp only [Option.bind, coerceFloat, Option.getD_some, intToFloat]
  · exact ⟨8687021468732621, -46, by norm_num, by norm_num, by norm_num, by
      unfold float123_45; norm_num⟩
  · exact ⟨2008939685342085, -42, by norm_num, by norm_num, by norm_num, by
      unfold float456_78; norm_num⟩
  · simp [BaseGateway.GetConfigInt, NewBaseGateway, sampleBaseConfig, mapGet, hatoi]
  · rw [e2]
    have hr : -2 ^ 63 - 1 < float123_45 ∧ float123_45 < 2 ^ 63 := by
      unfold float123_45
      constructor <;> norm_num
    have h0 : 0 ≤ float123_45 := by unfold float123_45; norm_num
    simp [NewBaseGateway, sampleBaseConfig, mapGet, coerceInt, hr, h0, h123]
  · rw [e3]
    simp [NewBaseGateway, sampleBaseConfig, mapGet, coerceFloat, hsmall 123 (by decide)]
  · simp [BaseGateway.GetConfigFloat, NewBaseGateway, sampleBaseConfig, mapGet,
      sampleFloat64Lib]
  · simp [BaseGateway.GetConfigFloat, NewBaseGateway, sampleBaseConfig, mapGet,
      sampleFloat64Lib]

end gateway

namespace gateway

/-! ## The timeout of an outbound request -/

/-- A wrapped integer is below `2 ^ 63`. -/
theorem int64Wrap_lt (n : Int) : int64Wrap n < 2 ^ 63 := by
  unfold int64Wrap
  omega

/-- Wrapping does not raise an integer that is not below `-2 ^ 63`. -/
theorem int64Wrap_le (n : Int) (h : -2 ^ 63 ≤ n) : int64Wrap n ≤ n := by
  unfold int64Wrap
  omega

/-- Wrapping leaves an integer of the range of `int64` as it is. -/
theorem int64Wrap_of_range (n : Int) (h1 : -2 ^ 63 ≤ n) (h2 : n < 2 ^ 63) :
    int64Wrap n = n := by
  unfold int64Wrap
  omega

/-- The whole part of a positive rational is not negative and not above it. -/
theorem tdiv_le (t : ℚ) (ht : 0 < t) :
    0 ≤ Int.tdiv t.num t.den ∧ ((Int.tdiv t.num t.den : Int) : ℚ) ≤ t := by
  have hnum : 0 ≤ t.num := le_of_lt (Rat.num_pos.mpr ht)
  have hden : (0 : Int) ≤ (t.den : Int) := Int.natCast_nonneg _
  rw [Int.tdiv_eq_ediv hnum hden, ← Rat.floor_def]
  exact ⟨Int.floor_nonneg.mpr (le_of_lt ht), Int.floor_le t⟩

/-- The duration computed from a positive number of seconds is at most that number of
seconds, also when a conversion or the multiplication overflows. -/
theorem duration_le (L : Float64Lib) (t : ℚ) (ht : 0 < t) :
    ((int64Wrap (floatToInt L t * Second) : Int) : ℚ) ≤ t * (Second : Int) := by
  obtain ⟨h0, hle⟩ := tdiv_le t ht
  have hsec : ((Second : Int) : ℚ) = 1000000000 := by simp [Second]
  by_cases hr : -2 ^ 63 ≤ Int.tdiv t.num t.den ∧ Int.tdiv t.num t.den < 2 ^ 63
  · have hk : floatToInt L t = Int.tdiv t.num t.den := by
      simp only [floatToInt]
      rw [if_pos hr]
    rw [hk]
    have h1 : int64Wrap (Int.tdiv t.num t.den * Second) ≤ Int.tdiv t.num t.den * Second := by
      apply int64Wrap_le
      have : 0 ≤ Int.tdiv t.num t.den * Second := by
        apply Int.mul_nonneg h0
        simp [Second]
      omega
    calc ((int64Wrap (Int.tdiv t.num t.den * Second) : Int) : ℚ)
        ≤ ((Int.tdiv t.num t.den * Second : Int) : ℚ) := by exact_mod_cast h1
      _ = ((Int.tdiv t.num t.den : Int) : ℚ) * (Second : Int) := by push_cast; ring
      _ ≤ t * (Second : Int) := by
        apply mul_le_mul_of_nonneg_right hle
        rw [hsec]; norm_num
  · have hbig : (2 : Int) ^ 63 ≤ Int.tdiv t.num t.den := by omega
    have h1 := int64Wrap_lt (floatToInt L t * Second)
    have h2 : ((int64Wrap (floatToInt L t * Second) : Int) : ℚ) ≤ ((2 ^ 63 : Int) : ℚ) := by
      exact_mod_cast le_of_lt h1
    have h3 : (((2 : Int) ^ 63 : Int) : ℚ) ≤ ((Int.tdiv t.num t.den : Int) : ℚ) := by
      exact_mod_cast hbig
    have h4 : t ≤ t * (Second : Int) := by
      rw [hsec]
      nlinarith
    linarith

/-- An integer below `2 ^ 53` is a `float64`. -/
theorem round53_of_lt (p : Nat) (h : p < 2 ^ 53) : strategy.round53 p = p := by
  have hs : strategy.excessBits 53 p = 0 := by
    unfold strategy.excessBits
    rw [if_pos h]
  simp [strategy.round53, hs, Nat.mod_one]

/-- The value read by `GetConfigFloat` for the key `timeout` in a gateway built by
`NewBaseGateway`. -/
theorem NewBaseGateway_config (L : Float64Lib) (name : String) (config : GoMap GoAny) :
    (NewBaseGateway L name config).Config = config := rfl

/-- C26. Request timeout: the duration that `Get`, `Post` and `PostJSON` of a gateway
built by `NewBaseGateway` hand to `context.WithTimeout` for each request comes from the
gateway's own configuration. For a positive `timeout` of `t` seconds, given as a float,
as an integer or as a string read as a float, it is at most `t` seconds; below the range
limit of a duration it is exactly the whole seconds of `t`, so `t` seconds for an integer.
When no `timeout` is configured it is 5 seconds. The timeout of the HTTP client is the
whole seconds of a `timeout` given as a float, and 5 seconds otherwise. -/
theorem C26_request_timeout (L : Float64Lib) (name : String) (config : GoMap GoAny) :
    (∀ t : ℚ, 0 < t → mapGet config "timeout" = some (GoAny.float64 t) →
      (((NewBaseGateway L name config).requestTimeout L : Int) : ℚ) ≤ t * (Second : Int)) ∧
    (∀ n : Int, 0 < n → n < 2 ^ 63 → mapGet config "timeout" = some (GoAny.int n) →
      (NewBaseGateway L name config).requestTimeout L ≤ n * Second) ∧
    (∀ (s : String) (t : ℚ), 0 < t → mapGet config "timeout" = some (GoAny.string s) →
      L.ParseFloat s = some t →
      (((NewBaseGateway L name config).requestTimeout L : Int) : ℚ) ≤ t * (Second : Int)) ∧
    (∀ t : ℚ, 0 < t → t < 9223372036 →
      mapGet config "timeout" = some (GoAny.float64 t) →
      (NewBaseGateway L name config).requestTimeout L = Int.tdiv t.num t.den * Second ∧
      (NewBaseGateway L name config).httpClientTimeout = Int.tdiv t.num t.den * Second) ∧
    (∀ t : ℚ, 0 < t → t < 9223372036 →
      mapGet config "timeout" = some (GoAny.float64 t) →
      (NewBaseGateway L name config).requestTimeout L = ⌊t⌋ * Second ∧
      0 ≤ (NewBaseGateway L name config).requestTimeout L) ∧
    (∀ n : Int, 0 < n → n ≤ 9223372036 → mapGet config "timeout" = some (GoAny.int n) →
      (NewBaseGateway L name config).requestTimeout L = n * Second ∧
      (NewBaseGateway L name config).httpClientTimeout = 5 * Second) ∧
    (∀ (s : String) (t : ℚ), 0 < t → t < 9223372036 →
      mapGet config "timeout" = some (GoAny.string s) → L.ParseFloat s = some t →
      (NewBaseGateway L name config).requestTimeout L = ⌊t⌋ * Second ∧
      0 ≤ (NewBaseGateway L name config).requestTimeout L ∧
      (NewBaseGateway L name config).httpClientTimeout = 5 * Second) ∧
    (mapGet config "timeout" = none →
      (NewBaseGateway L name config).requestTimeout L = 5 * Second ∧
      (NewBaseGateway L name config).httpClientTimeout = 5 * Second) ∧
    (NewBaseGateway L name config).GetName = name := by
  have h5 : floatToInt L 5 = 5 := by
    simp only [floatToInt]
    have : Int.tdiv (5 : ℚ).num (5 : ℚ).den = 5 := by
      have h1 : (5 : ℚ).num = 5 := rfl
      have h2 : (5 : ℚ).den = 1 := rfl
      rw [h1, h2]
      rfl
    rw [this]
    rfl
  have hwrap5 : int64Wrap (5 * Second) = 5 * Second := by decide
  have hexact : ∀ t : ℚ, 0 < t → t < 9223372036 →
      int64Wrap (floatToInt L t * Second) = ⌊t⌋ * Second ∧ 0 ≤ ⌊t⌋ * Second := by
    intro t ht hlt
    have h0 : 0 ≤ ⌊t⌋ := Int.floor_nonneg.mpr (le_of_lt ht)
    have hk : ⌊t⌋ < 9223372036 := by
      rw [Int.floor_lt]
      exact_mod_cast hlt
    have hr : -2 ^ 63 - 1 < t ∧ t < 2 ^ 63 := by
      constructor <;> linarith
    have hfl : floatToInt L t = ⌊t⌋ := by
      rw [floatToInt_eq, if_pos hr, if_pos (le_of_lt ht)]
    rw [hfl]
    refine ⟨?_, ?_⟩
    · apply int64Wrap_of_range <;> simp only [Second] <;> omega
    · simp only [Second]; omega
  refine ⟨?_, ?_, ?_, ?_, ?_, ?_, ?_, ?_, rfl⟩
  · intro t ht hcfg
    have hval : (NewBaseGateway L name config).GetConfigFloat L "timeout" [5] = t := by
      simp [BaseGateway.GetConfigFloat, NewBaseGateway_config, hcfg]
    unfold BaseGateway.requestTimeout
    rw [hval]
    exact duration_le L t ht
  · intro n hn hn63 hcfg
    have hval : (NewBaseGateway L name config).GetConfigFloat L "timeout" [5] =
        ((strategy.round53 n.natAbs : Nat) : ℚ) := by
      have hneg : ¬ n < 0 := by omega
      simp [BaseGateway.GetConfigFloat, NewBaseGateway_config, hcfg, intToFloat, hneg]
    unfold BaseGateway.requestTimeout
    rw [hval]
    by_cases hsmall : n < 2 ^ 53
    · have hnat : n.natAbs < 2 ^ 53 := by omega
      rw [round53_of_lt _ hnat]
      have hpos : (0 : ℚ) < ((n.natAbs : Nat) : ℚ) := by
        have : 0 < n.natAbs := by omega
        exact_mod_cast this
      have hle := duration_le L ((n.natAbs : Nat) : ℚ) hpos
      have hcast : (((n.natAbs : Nat) : ℚ)) = ((n : Int) : ℚ) := by
        rw [Nat.cast_natAbs, abs_of_nonneg (le_of_lt hn)]
      rw [hcast] at hle ⊢
      have : ((int64Wrap (floatToInt L ((n : Int) : ℚ) * Second) : Int) : ℚ) ≤
          ((n * Second : Int) : ℚ) := by
        push_cast
        exact hle
      exact_mod_cast this
    · have h1 := int64Wrap_lt (floatToInt L ((strategy.round53 n.natAbs : Nat) : ℚ) * Second)
      have h2 : (2 : Int) ^ 63 ≤ n * Second := by
        simp only [Second]
        omega
      omega
  · intro s t ht hcfg hparse
    have hval : (NewBaseGateway L name config).GetConfigFloat L "timeout" [5] = t := by
      simp [BaseGateway.GetConfigFloat, NewBaseGateway_config, hcfg, hparse]
    unfold BaseGateway.requestTimeout
    rw [hval]
    exact duration_le L t ht
  · intro t ht hlt hcfg
    obtain ⟨h0, hle⟩ := tdiv_le t ht
    have hk : Int.tdiv t.num t.den < 9223372036 := by
      have : ((Int.tdiv t.num t.den : Int) : ℚ) < ((9223372036 : Int) : ℚ) := by
        push_cast
        linarith
      exact_mod_cast this
    have hfl : floatToInt L t = Int.tdiv t.num t.den := by
      simp only [floatToInt]
      rw [if_pos ⟨by omega, by omega⟩]
    have hwrap : int64Wrap (Int.tdiv t.num t.den * Second) = Int.tdiv t.num t.den * Second := by
      apply int64Wrap_of_range <;> simp only [Second] <;> omega
    have hval : (NewBaseGateway L name config).GetConfigFloat L "timeout" [5] = t := by
      simp [BaseGateway.GetConfigFloat, NewBaseGateway_config, hcfg]
    refine ⟨?_, ?_⟩
    · unfold BaseGateway.requestTimeout
      rw [hval, hfl, hwrap]
    · simp only [NewBaseGateway, hcfg]
      rw [hfl, hwrap]
  · intro t ht hlt hcfg
    have hval : (NewBaseGateway L name config).GetConfigFloat L "timeout" [5] = t := by
      simp [BaseGateway.GetConfigFloat, NewBaseGateway_config, hcfg]
    unfold BaseGateway.requestTimeout
    rw [hval]
    obtain ⟨h1, h2⟩ := hexact t ht hlt
    exact ⟨h1, by rw [h1]; exact h2⟩
  · intro n hn hle hcfg
    have hval : (NewBaseGateway L name config).GetConfigFloat L "timeout" [5] = (n : ℚ) := by
      have hsm : n.natAbs ≤ 2 ^ 53 := by omega
      simp [BaseGateway.GetConfigFloat, NewBaseGateway_config, hcfg, intToFloat_small n hsm]
    have hpos : (0 : ℚ) < (n : ℚ) := by exact_mod_cast hn
    have hlt : (n : ℚ) < 9223372036 + 1 := by
      have : n < 9223372036 + 1 := by omega
      exact_mod_cast this
    refine ⟨?_, ?_⟩
    · unfold BaseGateway.requestTimeout
      rw [hval]
      have hr : -2 ^ 63 - 1 < (n : ℚ) ∧ (n : ℚ) < 2 ^ 63 := by
        constructor <;> linarith
      rw [floatToInt_eq, if_pos hr, if_pos (le_of_lt hpos), Int.floor_intCast]
      apply int64Wrap_of_range <;> simp only [Second] <;> omega
    · simp only [NewBaseGateway, hcfg]
      rw [h5, hwrap5]
  · intro s t ht hlt hcfg hparse
    have hval : (NewBaseGateway L name config).GetConfigFloat L "timeout" [5] = t := by
      simp [BaseGateway.GetConfigFloat, NewBaseGateway_config, hcfg, hparse]
    obtain ⟨h1, h2⟩ := hexact t ht hlt
    refine ⟨?_, ?_, ?_⟩
    · unfold BaseGateway.requestTimeout
      rw [hval]
      exact h1
    · unfold BaseGateway.requestTimeout
      rw [hval, h1]
      exact h2
    · simp only [NewBaseGateway, hcfg]
      rw [h5, hwrap5]
  · intro hcfg
    have hval : (NewBaseGateway L name config).GetConfigFloat L "timeout" [5] = 5 := by
      simp [BaseGateway.GetConfigFloat, NewBaseGateway_config, hcfg]
    have hwrap : int64Wrap (5 * Second) = 5 * Second := by decide
    refine ⟨?_, ?_⟩
    · unfold BaseGateway.requestTimeout
      rw [hval, h5, hwrap]
    · simp only [NewBaseGateway, hcfg]
      rw [h5, hwrap]


end gateway

namespace strategy

/-! ## The shuffle is a bijection from swap indices to permutations -/

/-- The shuffle keeps the length. -/
theorem shuffleWith_length :
    ∀ (i : Nat) (js : List Nat) (r : List String), (shuffleWith i js r).length = r.length := by
  intro i
  induction i with
  | zero => intro js r; cases js <;> rfl
  | succ i ih =>
    intro js r
    cases js with
    | nil => rfl
    | cons j js =>
      rw [shuffleWith, ih, swap_length]

end strategy
